import Mathlib

/-!
# Atem: a shallow embedding of `index.js`

The client side of the ATEM reliable-delivery protocol over UDP.

Conventions of the embedding.

* A `Buffer` is a `List Nat` of bytes (every element below 256).
* A JavaScript string is the list of its Unicode code points.
* `undefined` is `none`.
* The closure variables of `Device` (`uid`, `ls`, `pendingPackets`, ...) are the
  fields of the structure `Device`. A function of the source that can throw or
  loop takes the device and gives back an `Outcome`, which holds the device as
  the call left it: after a normal return, after a thrown exception, or at the
  point where the iteration budget of a loop ran out.
* `UserPacket` objects are mutable and are compared by identity, so they live in
  `Device.heap` and are referred to by their index there. `AtemPacket` objects
  do not change after construction; each carries an `id` that stands for its
  identity.
* Timers are entries of `Device.timers`, `process.nextTick` callbacks entries of
  `Device.nextTicks`; a handle is a number drawn from `Device.nextId`.
* `emit` appends to `Device.emitted`, in the order of the calls; `socket.send`
  appends to `Device.sent`. The listeners that `Device` registers for command
  names (`on('InPr')`, `on('TlIn')`, ...) are the function `listen`; a listener
  that throws makes the call of `emit` throw. The listeners of the application
  (one for `error` is taken to be registered) are outside the model, as are the
  lines written to the console.
* The failures of the `dgram` socket are outside the model: `socket.send` is
  described on a live socket (`Device.socket = some true`), where it returns. On
  a socket that was closed, or before the first connect, the call of the source
  throws before anything is sent.
-/

namespace Atem

/-! ## Buffers -/

/-- The allocation `new Buffer(n)`: `n` bytes, zero-filled (as Node does since version 8). -/
def newBuffer (n : Nat) : List Nat := List.replicate n 0

/-- The read `buf.readUInt16BE(offset)`; `none` is the `RangeError` of a read past the end. -/
def readUInt16BE (buf : List Nat) (offset : Nat) : Option Nat :=
  if offset + 2 ≤ buf.length then
    some (buf.getD offset 0 * 256 + buf.getD (offset + 1) 0)
  else none

/-- The write `buf.writeUInt16BE(value, offset)`; `none` is the error thrown for a value above
`0xFFFF` or an offset past the end. An `undefined` value is coerced to `NaN` and stored as 0. -/
def writeUInt16BE (buf : List Nat) (value : Option Nat) (offset : Nat) : Option (List Nat) :=
  if value.getD 0 > 0xFFFF ∨ buf.length < offset + 2 then none
  else some ((buf.set offset (value.getD 0 / 256)).set (offset + 1) (value.getD 0 % 256))

/-- The view `buf.slice(start, end)` for non-negative bounds: both are clamped to the length. -/
def slice (buf : List Nat) (start stop : Nat) : List Nat := (buf.take stop).drop start

/-- The call `buf.fill(value, start, end)`. -/
def fill (buf : List Nat) (value start stop : Nat) : List Nat :=
  buf.take start ++ List.replicate (min stop buf.length - start) value ++ buf.drop (max start stop)

/-- UTF-8 bytes of one code point. -/
def utf8EncodeChar (c : Nat) : List Nat :=
  if c < 0x80 then [c]
  else if c < 0x800 then [0xC0 + c / 64, 0x80 + c % 64]
  else if c < 0x10000 then [0xE0 + c / 4096, 0x80 + c / 64 % 64, 0x80 + c % 64]
  else [0xF0 + c / 262144, 0x80 + c / 4096 % 64, 0x80 + c / 64 % 64, 0x80 + c % 64]

/-- UTF-8 bytes of the longest prefix of the string whose encoding fits in `room` bytes. -/
def utf8EncodeFit : List Nat → Nat → List Nat
  | [], _ => []
  | c :: cs, room =>
    if (utf8EncodeChar c).length ≤ room then
      utf8EncodeChar c ++ utf8EncodeFit cs (room - (utf8EncodeChar c).length)
    else []

/-- The call `buf.write(string, offset)`: the UTF-8 bytes of the string, cut to whole characters
that fit, overwrite the buffer from `offset` on. -/
def bufWrite (buf : List Nat) (s : List Nat) (offset : Nat) : List Nat :=
  buf.take offset ++ utf8EncodeFit s (buf.length - offset)
    ++ buf.drop (offset + (utf8EncodeFit s (buf.length - offset)).length)

/-- State of the UTF-8 decoder between two bytes: bytes still needed, bytes seen, the code point
so far, and the bounds of the next continuation byte. -/
structure Utf8State where
  needed : Nat
  seen : Nat
  cp : Nat
  lower : Nat
  upper : Nat
deriving DecidableEq

/-- The decoder at a character boundary. -/
def Utf8State.start : Utf8State := ⟨0, 0, 0, 0x80, 0xBF⟩

/-- A byte read at a character boundary: the code points it emits and the next state. -/
def utf8Lead (b : Nat) : List Nat × Utf8State :=
  if b ≤ 0x7F then ([b], Utf8State.start)
  else if 0xC2 ≤ b ∧ b ≤ 0xDF then ([], ⟨1, 0, b % 32, 0x80, 0xBF⟩)
  else if 0xE0 ≤ b ∧ b ≤ 0xEF then
    ([], ⟨2, 0, b % 16, if b = 0xE0 then 0xA0 else 0x80, if b = 0xED then 0x9F else 0xBF⟩)
  else if 0xF0 ≤ b ∧ b ≤ 0xF4 then
    ([], ⟨3, 0, b % 8, if b = 0xF0 then 0x90 else 0x80, if b = 0xF4 then 0x8F else 0xBF⟩)
  else ([0xFFFD], Utf8State.start)

/-- The UTF-8 decoder run over the bytes; an ill-formed sequence gives U+FFFD. -/
def utf8DecodeFrom : Utf8State → List Nat → List Nat
  | st, [] => if st.needed = 0 then [] else [0xFFFD]
  | st, b :: bs =>
    if st.needed = 0 then
      (utf8Lead b).1 ++ utf8DecodeFrom (utf8Lead b).2 bs
    else if b < st.lower ∨ st.upper < b then
      0xFFFD :: ((utf8Lead b).1 ++ utf8DecodeFrom (utf8Lead b).2 bs)
    else if st.seen + 1 = st.needed then
      (st.cp * 64 + b % 64) :: utf8DecodeFrom Utf8State.start bs
    else
      utf8DecodeFrom ⟨st.needed, st.seen + 1, st.cp * 64 + b % 64, 0x80, 0xBF⟩ bs

/-- The call `buf.toString('utf8', start, end)`. -/
def bufToString (buf : List Nat) (start stop : Nat) : List Nat :=
  utf8DecodeFrom Utf8State.start (slice buf start stop)

/-! ## Flags and connection states -/

namespace flags

/-- The flag `flags.sync`. -/
def sync : Nat := 1
/-- The flag `flags.connect`. -/
def connect : Nat := 2
/-- The flag `flags.repeat`. -/
def repeat_ : Nat := 4
/-- The flag `flags.unknown`. -/
def unknown : Nat := 8
/-- The flag `flags.ack`. -/
def ack : Nat := 16

end flags

/-- The four objects of `ConnectionState`; `opened` is `ConnectionState.open`. -/
inductive ConnectionState where
  | closed
  | attempting
  | establishing
  | opened
deriving DecidableEq

/-- The method `toString` given to each state object: the name of its key. -/
def ConnectionState.toString : ConnectionState → String
  | .closed => "closed"
  | .attempting => "attempting"
  | .establishing => "establishing"
  | .opened => "open"

/-- JavaScript `ToNumber` of the string that `toString` returns. None of the four names is a
numeric literal, so each converts to `NaN`, written `none`. -/
def ConnectionState.toNumber : ConnectionState → Option Nat
  | .closed => none
  | .attempting => none
  | .establishing => none
  | .opened => none

/-- The comparison `state == n` of a state object with a number: the object is converted to a
primitive by `toString`, the string to a number, and `NaN` equals nothing. -/
def ConnectionState.looseEqNumber (s : ConnectionState) (n : Nat) : Bool :=
  s.toNumber == some n

/-- The test `Packet.prototype.isSync` on a flag word. -/
def isSync (f : Nat) : Bool := f &&& flags.sync == flags.sync

/-- The test `Packet.prototype.isConnect` on a flag word. -/
def isConnect (f : Nat) : Bool := f &&& flags.connect == flags.connect

/-- The test `Packet.prototype.isAck` on a flag word. -/
def isAck (f : Nat) : Bool := f &&& flags.ack == flags.ack

/-! ## Commands and packets -/

/-- A `Command`: its name and its data. -/
structure Command where
  name : List Nat
  data : List Nat
deriving DecidableEq

/-- The property `Command#length`. -/
def Command.length (c : Command) : Nat := 8 + c.data.length

/-- The method `Command.prototype.serialize`. -/
def Command.serialize (c : Command) : Option (List Nat) :=
  match writeUInt16BE (newBuffer 8) (some c.length) 0 with
  | none => none
  | some header => some (bufWrite header c.name 4 ++ c.data)

/-- An element of `body.commands`: a `Command`, or the object that a connect packet carries. -/
inductive BodyItem where
  | cmd (c : Command)
  | connectCmd
deriving DecidableEq

/-- The `length` of an element of `body.commands`. -/
def BodyItem.length : BodyItem → Nat
  | .cmd c => c.length
  | .connectCmd => 8

/-- The `serialize` of an element of `body.commands`. -/
def BodyItem.serialize : BodyItem → Option (List Nat)
  | .cmd c => c.serialize
  | .connectCmd => some [0x01, 0x00, 0x00, 0x00, 0x00, 0x00, 0x00, 0x00]

/-- The getter `body.length`. -/
def bodyLength (commands : List BodyItem) : Nat :=
  commands.foldl (fun length command => length + command.length) 0

/-- The method `body.serialize`: the serialized commands, concatenated; `none` when one throws. -/
def bodySerialize : List BodyItem → Option (List Nat)
  | [] => some []
  | c :: cs =>
    match c.serialize with
    | none => none
    | some b =>
      match bodySerialize cs with
      | none => none
      | some bs => some (b ++ bs)

/-- The fields of `Packet#header`. -/
structure Header where
  flags : Nat
  uid : Option Nat
  ls : Option Nat
  fs : Option Nat
deriving DecidableEq

/-- The getter `header.packetLength`. -/
def packetLength (commands : List BodyItem) : Nat := 12 + bodyLength commands

/-- The method `header.serialize` of a packet with the given header and commands. -/
def headerSerialize (h : Header) (commands : List BodyItem) : Option (List Nat) :=
  match writeUInt16BE (newBuffer 12) (some (packetLength commands)) 0 with
  | none => none
  | some b0 =>
    match writeUInt16BE (b0.set 0 ((b0.getD 0 0 ||| (h.flags <<< 3)) % 256)) h.uid 2 with
    | none => none
    | some b1 =>
      match (if isAck h.flags then writeUInt16BE b1 h.fs 4 else some b1) with
      | none => none
      | some b2 =>
        if isSync h.flags || isConnect h.flags then writeUInt16BE (fill b2 0 6 10) h.ls 10
        else some (fill b2 0 6 10)

/-- A `UserPacket` object: header, `body.commands`, the handles `interval` and `messageTimeout`,
and `serializedCache`. -/
structure UserPacket where
  header : Header
  commands : List BodyItem
  interval : Option Nat
  messageTimeout : Option Nat
  serializedCache : Option (List Nat)
deriving DecidableEq

/-- An `AtemPacket` object. The field `id` stands for the identity of the object, which
`incomingPackets.indexOf` compares. -/
structure AtemPacket where
  id : Nat
  header : Header
  commands : List Command
deriving DecidableEq

/-- What a timer runs when it fires. -/
inductive TimerKind where
  /-- The 600 ms interval of a packet: `self.transmit()`. -/
  | retransmit (packet : Nat)
  /-- The 1000 ms timeout of a packet: `emit('messageTimeout', ...)`. -/
  | messageTimeout
  /-- The 600 ms interval `setInterval(sync, 600)`. -/
  | sync
  /-- The 16 ms timeout armed by `sendCommand`. -/
  | command
  /-- The 800 ms timeout that emits `connectionLost`. -/
  | communication
deriving DecidableEq

/-- An armed timer: the handle that `setTimeout` or `setInterval` returned and what it runs. -/
structure Timer where
  id : Nat
  kind : TimerKind
deriving DecidableEq

/-- The messages of the errors the device emits. -/
inductive ErrorKind where
  | messageLengthMismatch
  | uidMismatch
  | ipNotSet
  | invalidIp (ip : String)
deriving DecidableEq

/-- The events of the device that the protocol engine emits. -/
inductive Notification where
  | connectionStateChange (state : ConnectionState)
  | connected
  | error (e : ErrorKind)
  | messageTimeout
  | connectionLost
  | addressChange (ip : String)
  | rawCommand (cmd : Command)
  /-- The call `atem.emit(cmd.name, cmd.data)` of the decoding loop. -/
  | named (name : List Nat) (data : List Nat)
  | sourceConfiguration (sourceID : Nat) (name abbreviation : List Nat)
      (videoInterface : Option String)
  | inputTally (inputNumber : Nat) (program preview : Bool)
  | sourceTally (source : Nat) (program preview : Bool)
  | previewBus (me source : Nat) (inTransition : Bool)
  | programBus (me source : Nat)
  | auxiliaryOutput (aux source : Nat)
  | productNameChange (name : List Nat)
deriving DecidableEq

/-- The closure variables of `Device`, the objects and timers it created, and its outputs. -/
structure Device where
  uid : Option Nat
  ls : Nat
  pendingPackets : List Nat
  incomingPackets : List AtemPacket
  commandQueue : List Command
  commandTimer : Option Nat
  syncInterval : Option Nat
  communicationTimeout : Option Nat
  ip : Option String
  state : ConnectionState
  /-- The variable `socket`: `none` before the first connect, `some true` for an open socket,
  `some false` for a closed one. -/
  socket : Option Bool
  /-- The `UserPacket` objects constructed so far; a reference to one is its index. -/
  heap : List UserPacket
  /-- The armed timers. -/
  timers : List Timer
  /-- The callbacks `respond` handed to `process.nextTick`, each with the packet it closes over. -/
  nextTicks : List AtemPacket
  /-- The next fresh timer handle or object identity. -/
  nextId : Nat
  /-- The notifications emitted so far, oldest first. -/
  emitted : List Notification
  /-- The datagrams handed to `socket.send` so far, oldest first. -/
  sent : List (List Nat)
deriving DecidableEq

/-- How a call ended, with the device as the call left it. -/
inductive Outcome (α : Type) where
  /-- The call returned. -/
  | done (a : α) (d : Device)
  /-- The call threw an exception. -/
  | threw (d : Device)
  /-- The iteration budget ran out inside a loop. -/
  | noFuel (d : Device)

/-- The device an outcome holds. -/
def Outcome.device {α : Type} : Outcome α → Device
  | .done _ d => d
  | .threw d => d
  | .noFuel d => d

/-- Whether the call returned. -/
def Outcome.isDone {α : Type} : Outcome α → Bool
  | .done _ _ => true
  | .threw _ => false
  | .noFuel _ => false

/-- Sequencing: the second call runs when the first returned. -/
def Outcome.bind {α β : Type} (o : Outcome α) (f : α → Device → Outcome β) : Outcome β :=
  match o with
  | .done a d => f a d
  | .threw d => .threw d
  | .noFuel d => .noFuel d

/-- A freshly constructed `Device` without address. -/
def Device.init : Device :=
  { uid := none, ls := 0, pendingPackets := [], incomingPackets := [], commandQueue := [],
    commandTimer := none, syncInterval := none, communicationTimeout := none, ip := none,
    state := .closed, socket := none, heap := [], timers := [], nextTicks := [], nextId := 0,
    emitted := [], sent := [] }

/-- The call `atem.emit(...)` for an event without listener inside the device. -/
def emit (n : Notification) (d : Device) : Device := { d with emitted := d.emitted ++ [n] }

/-- The calls `setTimeout` and `setInterval`: arm a timer and return its handle. -/
def setTimer (kind : TimerKind) (d : Device) : Nat × Device :=
  (d.nextId, { d with timers := d.timers ++ [⟨d.nextId, kind⟩], nextId := d.nextId + 1 })

/-- The device after the identity `d.nextId` has been given to a new `AtemPacket` object. -/
def nextObject (d : Device) : Device := { d with nextId := d.nextId + 1 }

/-- The calls `clearTimeout` and `clearInterval`; an `undefined` handle clears nothing. -/
def clearTimer (handle : Option Nat) (d : Device) : Device :=
  match handle with
  | none => d
  | some h => { d with timers := d.timers.filter (fun t => t.id != h) }

/-- The argument of `new UserPacket(commands)`. -/
inductive UserPacketArg where
  | undefined
  | null
  | commands (cs : List Command)
deriving DecidableEq

/-- The constructor `UserPacket`: the new object. -/
def UserPacket.new : UserPacketArg → UserPacket
  | .undefined =>
    { header := ⟨flags.sync, none, none, none⟩, commands := [], interval := none,
      messageTimeout := none, serializedCache := none }
  | .null =>
    { header := ⟨flags.connect, none, none, none⟩, commands := [.connectCmd], interval := none,
      messageTimeout := none, serializedCache := none }
  | .commands cs =>
    { header := ⟨flags.sync, none, none, none⟩, commands := cs.map .cmd, interval := none,
      messageTimeout := none, serializedCache := none }

/-- Allocation of a `UserPacket` object: its reference and the device that holds it. -/
def alloc (p : UserPacket) (d : Device) : Nat × Device :=
  (d.heap.length, { d with heap := d.heap ++ [p] })

/-- Writing an object back to the heap. -/
def store (self : Nat) (p : UserPacket) (d : Device) : Device :=
  { d with heap := d.heap.set self p }

/-- The first block of `transmit`: a packet that is not an acknowledgement takes the oldest
unacknowledged inbound packet with it, or has its ack flag cleared. The mask is `~flags.ack`
as an unsigned 32-bit word. -/
def piggyback (p : UserPacket) (d : Device) : UserPacket × Device :=
  if !isAck p.header.flags then
    match d.incomingPackets with
    | a :: rest =>
      ({ p with header := { p.header with flags := p.header.flags ||| flags.ack, fs := a.header.ls } },
        { d with incomingPackets := rest })
    | [] =>
      ({ p with header := { p.header with flags := p.header.flags &&& (0xFFFFFFFF - flags.ack),
                                          fs := some 0 } }, d)
  else (p, d)

/-- The comparison `x > 0` of a possibly undefined number. -/
def gtZero : Option Nat → Bool
  | some n => 0 < n
  | none => false

/-- The flush inside `transmit`: a non-initial sync packet sent while open takes the whole
command queue. -/
def attachQueue (p : UserPacket) (d : Device) : UserPacket × Device :=
  if d.state == .opened && isSync p.header.flags && gtZero p.header.ls
      && decide (0 < d.commandQueue.length) then
    ({ p with commands := p.commands ++ d.commandQueue.map .cmd }, { d with commandQueue := [] })
  else (p, d)

/-- The measures for packet loss inside `transmit`: the interval, the pending list, the timeout. -/
def armRetransmission (self : Nat) (p : UserPacket) (d : Device) : UserPacket × Device :=
  if isSync p.header.flags || isConnect p.header.flags then
    let (t1, d1) := setTimer (.retransmit self) d
    let d2 := { d1 with pendingPackets := d1.pendingPackets ++ [self] }
    let (t2, d3) := setTimer .messageTimeout d2
    ({ p with interval := some t1, messageTimeout := some t2 }, d3)
  else (p, d)

/-- The advance of the sequence counter inside `transmit`. -/
def advanceLs (p : UserPacket) (d : Device) : Device :=
  if d.state != .attempting && isSync p.header.flags then { d with ls := (d.ls + 1) % 0x10000 }
  else d

/-- The last block of `transmit`: a sync packet sent while open rearms the heartbeat. -/
def rearmSync (self : Nat) (p : UserPacket) (d : Device) : Device :=
  if isSync p.header.flags && d.state == .opened then
    let (t, d1) := setTimer .sync (clearTimer d.syncInterval (store self p d))
    { d1 with syncInterval := some t }
  else store self p d

/-- The stamping inside `transmit`: the packet takes the session id, and a sync or connect
packet takes the sequence counter as its local sequence. -/
def stamp (p : UserPacket) (d : Device) : UserPacket :=
  if isSync p.header.flags || isConnect p.header.flags then
    { p with header := { p.header with uid := d.uid, ls := some d.ls } }
  else { p with header := { p.header with uid := d.uid } }

/-- The assignment `self.header.flags |= flags.repeat`. -/
def setRepeat (p : UserPacket) : UserPacket :=
  { p with header := { p.header with flags := p.header.flags ||| flags.repeat_ } }

/-- The branch of `transmit` for the first time a packet is sent. The call `socket.send` is
that of a live socket: it hands the datagram over and returns. -/
def transmitFirst (self : Nat) (p : UserPacket) (d : Device) : Outcome Unit :=
  let q := attachQueue (stamp p d) d
  match bodySerialize q.1.commands with
  | none => .threw (store self q.1 q.2)
  | some cache =>
    match headerSerialize q.1.header q.1.commands with
    | none => .threw (store self { q.1 with serializedCache := some cache } q.2)
    | some header =>
      let r := armRetransmission self (setRepeat { q.1 with serializedCache := some cache })
        { q.2 with sent := q.2.sent ++ [header ++ cache] }
      .done () (rearmSync self r.1 (advanceLs r.1 r.2))

/-- The branch of `transmit` for a retransmission. The call `socket.send` is that of a live
socket: it hands the datagram over and returns. -/
def transmitAgain (self : Nat) (p : UserPacket) (d : Device) : Outcome Unit :=
  match headerSerialize p.header p.commands, p.serializedCache with
  | some header, some cache =>
    .done () (rearmSync self p { d with sent := d.sent ++ [header ++ cache] })
  | _, _ => .threw (store self p d)

/-- The method `UserPacket.prototype.transmit` of the object at `self`. -/
def transmit (self : Nat) (d : Device) : Outcome Unit :=
  match d.heap.get? self with
  | none => .threw d
  | some p =>
    let q := piggyback p d
    if !q.2.pendingPackets.contains self && q.1.serializedCache.isNone then
      transmitFirst self q.1 q.2
    else transmitAgain self q.1 q.2

/-- The function `sync`. -/
def sync (d : Device) : Outcome Unit :=
  let (self, d1) := alloc (UserPacket.new .undefined) d
  transmit self d1

/-- The setter of `Device#state`. The listener of `connected` inside the device calls `sync`. -/
def setState (newValue : ConnectionState) (d : Device) : Outcome Unit :=
  let d1 := emit (.connectionStateChange newValue) { d with state := newValue }
  if d1.state.looseEqNumber 2 then sync (emit .connected d1)
  else .done () d1

/-- The comparison `a <= b` of two possibly undefined numbers. -/
def leOpt : Option Nat → Option Nat → Bool
  | some a, some b => a ≤ b
  | _, _ => false

/-- The call `pendingPackets.splice(pendingPackets.indexOf(this), 1)`: the index -1 of an absent
object makes `splice` remove the last element. -/
def spliceOut (self : Nat) (pending : List Nat) : List Nat :=
  if pending.indexOf self < pending.length then pending.eraseIdx (pending.indexOf self)
  else pending.dropLast

/-- The method `UserPacket.prototype.markAsRead` of the object at `self`. -/
def markAsRead (self : Nat) (d : Device) : Outcome Unit :=
  match d.heap.get? self with
  | none => .threw d
  | some p =>
    let d1 := clearTimer p.messageTimeout (clearTimer p.interval d)
    .done () { d1 with pendingPackets := spliceOut self d1.pendingPackets }

/-- The `for` loop of `removePendingPackets` from index `i` on, for a packet with foreign
sequence `fs`; the first argument bounds the number of iterations. -/
def removePendingLoop (fs : Option Nat) : Nat → Nat → Device → Outcome Unit
  | 0, i, d => if i < d.pendingPackets.length then .noFuel d else .done () d
  | fuel + 1, i, d =>
    if i < d.pendingPackets.length then
      match d.pendingPackets.get? i with
      | none => .threw d
      | some self =>
        match d.heap.get? self with
        | none => .threw d
        | some p =>
          if leOpt p.header.ls fs then
            (markAsRead self d).bind fun _ d1 => removePendingLoop fs fuel (i + 1) d1
          else removePendingLoop fs fuel (i + 1) d
    else .done () d

/-- The method `AtemPacket.prototype.removePendingPackets`. The loop runs at most once per
element of the list it starts with. -/
def removePendingPackets (packet : AtemPacket) (d : Device) : Outcome Unit :=
  removePendingLoop packet.header.fs d.pendingPackets.length 0 d

/-- The function `respond` inside `acknowledge`, for the packet it closes over. -/
def respond (self : AtemPacket) (d : Device) : Outcome Unit :=
  match d.incomingPackets.findIdx? (fun a => a.id == self.id) with
  | none => .done () d
  | some index =>
    let p := UserPacket.new .undefined
    let (ackPacket, d1) :=
      alloc { p with header := { p.header with flags := flags.ack, fs := self.header.ls } } d
    (transmit ackPacket d1).bind fun _ d2 =>
      .done () { d2 with incomingPackets := d2.incomingPackets.eraseIdx index }

/-- The method `AtemPacket.prototype.acknowledge`. -/
def acknowledge (self : AtemPacket) (d : Device) : Outcome Unit :=
  let d1 := { d with incomingPackets := d.incomingPackets ++ [self] }
  if d1.state == .attempting then respond self d1
  else .done () { d1 with nextTicks := d1.nextTicks ++ [self] }

/-- The object `videoInterfaceNames`, indexed by a byte of the payload or by `undefined`. -/
def videoInterfaceNames : Option Nat → Option String
  | some 0 => some "internal"
  | some 1 => some "sdi"
  | some 2 => some "hdmi"
  | some 4 => some "component"
  | _ => none

/-- The function `parseString`: the buffer as a string, up to its first NUL character. -/
def parseString (buffer : List Nat) : List Nat :=
  (bufToString buffer 0 buffer.length).takeWhile fun c => c != 0

/-- The test `(d[i] & mask) === mask` on an element of the payload; an element past the end is
`undefined`, which `&` takes as 0. -/
def bitSet (data : List Nat) (i mask : Nat) : Bool := data.getD i 0 &&& mask == mask

/-- The loop of the listener of `TlSr` from the index `i` on, with `n` iterations left: each
reads the source id at `i`, which throws past the end of the payload, and emits `sourceTally`.
The result is the events emitted, in order, and whether the loop returned. -/
def sourceTallies : Nat → Nat → List Nat → List Notification × Bool
  | 0, _, _ => ([], true)
  | n + 1, i, data =>
    match readUInt16BE data i with
    | none => ([], false)
    | some source =>
      let r := sourceTallies n (i + 3) data
      (.sourceTally source (bitSet data (i + 2) 1) (bitSet data (i + 2) 2) :: r.1, r.2)

/-- The listeners that the device registers for the command names `InPr`, `TlIn`, `TlSr`,
`PrvI`, `PrgI`, `AuxS` and `_pin`, run on the payload `data` of a command named `name`: the
events the listener emits, in order, and whether it returns. `false` is the `RangeError` of
`readUInt16BE` or `readUInt8` past the end of the payload. A name without listener emits
nothing and returns. -/
def listen (name data : List Nat) : List Notification × Bool :=
  if name == [0x49, 0x6E, 0x50, 0x72] then
    match readUInt16BE data 0 with
    | none => ([], false)
    | some sourceID =>
      ([.sourceConfiguration sourceID (parseString (slice data 2 22))
          (parseString (slice data 22 26)) (videoInterfaceNames (data.get? 29))], true)
  else if name == [0x54, 0x6C, 0x49, 0x6E] then
    match readUInt16BE data 0 with
    | none => ([], false)
    | some length =>
      ((List.range length).map fun k =>
        .inputTally (k + 1) (bitSet data (k + 2) 1) (bitSet data (k + 2) 2), true)
  else if name == [0x54, 0x6C, 0x53, 0x72] then
    match readUInt16BE data 0 with
    | none => ([], false)
    | some n => sourceTallies n 2 data
  else if name == [0x50, 0x72, 0x76, 0x49] then
    match data.get? 0, readUInt16BE data 2 with
    | some me, some source => ([.previewBus me source (bitSet data 4 1)], true)
    | _, _ => ([], false)
  else if name == [0x50, 0x72, 0x67, 0x49] then
    match data.get? 0, readUInt16BE data 2 with
    | some me, some source => ([.programBus me source], true)
    | _, _ => ([], false)
  else if name == [0x41, 0x75, 0x78, 0x53] then
    match readUInt16BE data 2 with
    | none => ([], false)
    | some source => ([.auxiliaryOutput (data.getD 0 0 + 8001) source], true)
  else if name == [0x5F, 0x70, 0x69, 0x6E] then ([.productNameChange (parseString data)], true)
  else ([], true)

/-- Several calls of `atem.emit` in a row. -/
def emitAll (ns : List Notification) (d : Device) : Device :=
  { d with emitted := d.emitted ++ ns }

/-- The `while` loop of `AtemPacket` over `body` from `cursor` on, with the commands pushed so
far; the first argument bounds the number of iterations. The call `atem.emit(cmd.name, cmd.data)`
runs the listener that the device itself has registered for that name; when the listener throws,
so does the loop. -/
def decodeCommands : Nat → List Nat → Nat → List Command → Device → Outcome (List Command)
  | 0, body, cursor, commands, d =>
    if cursor < body.length - 1 then .noFuel d else .done commands d
  | fuel + 1, body, cursor, commands, d =>
    if cursor < body.length - 1 then
      match readUInt16BE body cursor with
      | none => .threw d
      | some cmdLength =>
        let cmd : Command :=
          ⟨bufToString body (cursor + 4) (cursor + 8), slice body (cursor + 8) (cursor + cmdLength)⟩
        let d1 := emitAll (listen cmd.name cmd.data).1
          (emit (.named cmd.name cmd.data) (emit (.rawCommand cmd) d))
        if (listen cmd.name cmd.data).2 then
          decodeCommands fuel body (cursor + cmdLength) (commands ++ [cmd]) d1
        else .threw d1
    else .done commands d

/-- The handshake transitions inside the constructor `AtemPacket`. -/
def handshake (msg : List Nat) (h : Header) (d : Device) : Outcome Unit :=
  if d.state == .attempting then
    if isSync h.flags then
      (setState .establishing d).bind fun _ d1 => .done () { d1 with uid := h.uid }
    else .done () d
  else if d.state == .establishing then
    if msg.length == 12 && !isConnect h.flags then
      (setState .opened d).bind fun _ d1 =>
        let (t, d2) := setTimer .sync (clearTimer d1.syncInterval d1)
        .done () { d2 with syncInterval := some t }
    else .done () d
  else .done () d

/-- The last block of the constructor `AtemPacket`: a packet without connect flag has its
body decoded when its length field and session id match, and is reported otherwise. The object
under construction has the header `h` and the identity `id`. -/
def decodeBody (fuel : Nat) (msg : List Nat) (h : Header) (id : Nat) (d : Device) :
    Outcome AtemPacket :=
  if isConnect h.flags then .done ⟨id, h, []⟩ d
  else
    match readUInt16BE msg 0 with
    | none => .threw d
    | some word =>
      if msg.length == word &&& 0x7FF && h.uid == d.uid then
        (decodeCommands fuel (slice msg 12 msg.length) 0 [] d).bind fun commands d1 =>
          .done ⟨id, h, commands⟩ d1
      else if msg.length != word &&& 0x7FF then
        .done ⟨id, h, []⟩ (emit (.error .messageLengthMismatch) d)
      else .done ⟨id, h, []⟩ (emit (.error .uidMismatch) d)

/-- The constructor `AtemPacket` on the datagram `msg`; `fuel` bounds the iterations of its
decoding loop. -/
def AtemPacket.new (fuel : Nat) (msg : List Nat) (d : Device) : Outcome AtemPacket :=
  match readUInt16BE msg 2, readUInt16BE msg 4, readUInt16BE msg 10 with
  | some uid, some fs, some ls =>
    (handshake msg ⟨msg.headD 0 >>> 3, some uid, some ls, some fs⟩ (nextObject d)).bind
      fun _ d1 => decodeBody fuel msg ⟨msg.headD 0 >>> 3, some uid, some ls, some fs⟩ d.nextId d1
  | _, _, _ => .threw d

/-- The first step of `messageHandler` on an accepted packet: a packet with ack or connect flag
confirms pending packets. -/
def confirmPending (packet : AtemPacket) (d : Device) : Outcome Unit :=
  if isAck packet.header.flags || isConnect packet.header.flags then removePendingPackets packet d
  else .done () d

/-- The second step of `messageHandler` on an accepted packet: a sync packet received outside
the establishing state, or a connect packet, is acknowledged. -/
def acknowledgeIfDue (packet : AtemPacket) (d : Device) : Outcome Unit :=
  if d.state != .establishing && isSync packet.header.flags || isConnect packet.header.flags then
    acknowledge packet d
  else .done () d

/-- The last step of `messageHandler` on an accepted packet: the communication timeout is
cleared, and armed again unless the packet has the connect flag. -/
def resetCommunicationTimeout (packet : AtemPacket) (d : Device) : Device :=
  if !isConnect packet.header.flags then
    { (setTimer .communication (clearTimer d.communicationTimeout d)).2 with
      communicationTimeout := some (setTimer .communication (clearTimer d.communicationTimeout d)).1 }
  else clearTimer d.communicationTimeout d

/-- The body of `messageHandler` after the packet has been constructed. -/
def handlePacket (packet : AtemPacket) (d : Device) : Outcome Unit :=
  if d.uid == packet.header.uid || isConnect packet.header.flags then
    (confirmPending packet d).bind fun _ d1 =>
      (acknowledgeIfDue packet d1).bind fun _ d2 =>
        .done () (resetCommunicationTimeout packet d2)
  else .done () d

/-- The function `messageHandler` on the datagram `msg`. -/
def messageHandler (fuel : Nat) (msg : List Nat) (d : Device) : Outcome Unit :=
  (AtemPacket.new fuel msg d).bind fun packet d1 => handlePacket packet d1

/-- The call `pendingPackets.forEach(function(packet) {packet.markAsRead();})`: `forEach` visits
the indices `k`, `k+1`, ... below the length the array had at the start (the first argument
counts those left) and skips an index the array no longer has. -/
def forEachMarkAsRead : Nat → Nat → Device → Outcome Unit
  | 0, _, d => .done () d
  | n + 1, k, d =>
    match d.pendingPackets.get? k with
    | none => forEachMarkAsRead n (k + 1) d
    | some self => (markAsRead self d).bind fun _ d1 => forEachMarkAsRead n (k + 1) d1

/-- The method `Device#disconnect` up to its last line; the caller runs the callback. The call
`socket.close()` is that of a live socket. -/
def disconnect (d : Device) : Outcome Unit :=
  let d1 := clearTimer d.communicationTimeout (clearTimer d.syncInterval d)
  (forEachMarkAsRead d1.pendingPackets.length 0 d1).bind fun _ d2 =>
    (setState .closed d2).bind fun _ d3 =>
      .done () (if d3.socket.isSome then { d3 with socket := some false } else d3)

/-- The test `if (atem.ip)`: an address is truthy when it is a non-empty string. -/
def ipTruthy : Option String → Bool
  | some s => s != ""
  | none => false

/-- The method `Device#connect`, where `rnd` is the value of `Math.round(Math.random() * 0x7FF)`.
A connect on a device that is not closed disconnects with `connect` as callback; the first
argument bounds the depth of that recursion. -/
def connectAux : Nat → Nat → Device → Outcome Unit
  | 0, _, d => .noFuel d
  | depth + 1, rnd, d =>
    if d.state == .closed then
      let d1 := { d with uid := some rnd, ls := 0 }
      if ipTruthy d1.ip then
        (setState .attempting d1).bind fun _ d2 =>
          let (connectPacket, d3) := alloc (UserPacket.new .null) { d2 with socket := some true }
          transmit connectPacket d3
      else .done () (emit (.error .ipNotSet) d1)
    else (disconnect d).bind fun _ d1 => connectAux depth rnd d1

/-- The method `Device#connect`: `disconnect` leaves the device closed, so the recursion ends at
depth two. -/
def connect (rnd : Nat) (d : Device) : Outcome Unit := connectAux 2 rnd d

/-! ## The command queue, the timers and the address -/

/-- The method `Device#sendCommand` for one command: the command joins the queue, and the
16 ms timer is armed when the counter is not 0, the connection is open and `commandTimer` holds
no handle. -/
def sendCommand (cmd : Command) (d : Device) : Device :=
  let d1 := { d with commandQueue := d.commandQueue ++ [cmd] }
  if decide (0 < d1.ls) && d1.state == .opened && d1.commandTimer.isNone then
    { (setTimer .command d1).2 with commandTimer := some (setTimer .command d1).1 }
  else d1

/-- A timeout that has fired is no longer armed. -/
def expire (id : Nat) (d : Device) : Device :=
  { d with timers := d.timers.filter (fun t => t.id != id) }

/-- The callback of the timeout that `sendCommand` arms. -/
def commandTimerCallback (d : Device) : Outcome Unit :=
  (if 0 < d.commandQueue.length then sync d else .done () d).bind fun _ d1 =>
    .done () { d1 with commandTimer := none }

/-- The callback of the communication timeout: it emits `connectionLost`, and the listener of
that event inside the device calls `atem.disconnect(atem.connect)`. -/
def communicationTimeoutCallback (rnd : Nat) (d : Device) : Outcome Unit :=
  (disconnect (emit .connectionLost d)).bind fun _ d1 => connect rnd d1

/-- The timer with the handle `id` fires and runs its callback; a handle that is not armed
runs nothing. An interval stays armed, a timeout does not. `rnd` is the random number of a
`connect` that the callback may reach. -/
def fire (rnd id : Nat) (d : Device) : Outcome Unit :=
  match d.timers.find? (fun t => t.id == id) with
  | none => .done () d
  | some t =>
    match t.kind with
    | .retransmit self => transmit self d
    | .messageTimeout => .done () (emit .messageTimeout (expire id d))
    | .sync => sync d
    | .command => commandTimerCallback (expire id d)
    | .communication => communicationTimeoutCallback rnd (expire id d)

/-- The text between the dots of a string, as `split('.')` gives it. -/
def splitDots : List Char → List (List Char)
  | [] => [[]]
  | c :: cs =>
    if c == '.' then [] :: splitDots cs
    else
      match splitDots cs with
      | seg :: rest => (c :: seg) :: rest
      | [] => [[c]]

/-- One part of a dotted quad: a decimal number from 0 to 255 without leading zero. -/
def isV4Segment (cs : List Char) : Bool :=
  cs.all Char.isDigit && (cs.length == 1 || (cs.length ≤ 3 && cs.head? != some '0')) &&
    decide (cs.foldl (fun n c => 10 * n + (c.toNat - 48)) 0 ≤ 255) && cs.length != 0

/-- The function `net.isIPv4` of Node: four such parts separated by dots. -/
def isIPv4 (s : String) : Bool :=
  (splitDots s.toList).length == 4 && (splitDots s.toList).all isV4Segment

/-- The setter of `Device#ip` for a string; `rnd` is the random number of the `connect` in
the callback of `disconnect`. -/
def setIp (rnd : Nat) (ipString : String) (d : Device) : Outcome Unit :=
  if isIPv4 ipString then
    if d.state != .closed then
      (disconnect d).bind fun _ d1 =>
        (connect rnd { d1 with ip := some ipString }).bind fun _ d2 =>
          .done () (emit (.addressChange ipString) d2)
    else .done () (emit (.addressChange ipString) { d with ip := some ipString })
  else .done () (emit (.error (.invalidIp ipString)) d)

/-! ## The event loop -/

/-- What the runtime hands to the device between two calls of its interface: a datagram (with
the iteration budget of its decoding), a submitted command, the oldest callback of
`process.nextTick`, or a timer that fires. -/
inductive Event where
  | message (fuel : Nat) (msg : List Nat)
  | command (cmd : Command)
  | nextTick
  | timer (id : Nat) (rnd : Nat)
deriving DecidableEq

/-- The device handles one event. -/
def step : Event → Device → Outcome Unit
  | .message fuel msg, d => messageHandler fuel msg d
  | .command cmd, d => .done () (sendCommand cmd d)
  | .nextTick, d =>
    match d.nextTicks with
    | [] => .done () d
    | a :: rest => respond a { d with nextTicks := rest }
  | .timer id rnd, d => fire rnd id d

/-- The device handles a list of events, each from the state the one before left. -/
def run : List Event → Device → Device
  | [], d => d
  | e :: es, d => run es (step e d).device

/-! ## Source identifiers -/

/-- The object that `getSourceInfo` returns: `type`, and `index` when it has one. A number is
a rational here: the function subtracts and divides by 10, and in the range where it divides
a double quotient is an integer exactly when the rational one is. -/
structure SourceInfo where
  type : String
  index : Option ℚ
deriving DecidableEq

/-- The function `getSourceInfo` on a non-negative integer; `none` is the `undefined` of a
call that ends without `return`. -/
def getSourceInfo (id : Nat) : Option SourceInfo :=
  if id = 0 then some ⟨"black", none⟩
  else if id < 1000 then some ⟨"inputs", some ((id : ℚ) - 1)⟩
  else if id = 1000 then some ⟨"colorbars", none⟩
  else if id < 2001 then some ⟨"undefined", none⟩
  else if id < 3010 then some ⟨"colors", some (((id % 1000 : Nat) : ℚ) - 1)⟩
  else if id < 4010 then
    if id % 10 = 0 then some ⟨"mediaPlayers", some (((id : ℚ) - 3010) / 10)⟩
    else if id % 10 = 1 then some ⟨"mediaPlayerKeys", some (((id : ℚ) - 3011) / 10)⟩
    else none
  else if id < 5010 then some ⟨"keyMasks", some (((id : ℚ) - 4010) / 10)⟩
  else if id < 7001 then some ⟨"downStreamKeyMasks", some (((id : ℚ) - 5010) / 10)⟩
  else if id < 8001 then some ⟨"cleanFeeds", some ((id : ℚ) - 7001)⟩
  else if id < 10010 then some ⟨"auxiliaries", some ((id : ℚ) - 8001)⟩
  else if id = 10010 then some ⟨"program", none⟩
  else if id = 10011 then some ⟨"preview", none⟩
  else some ⟨"Unknown source", none⟩

/-! ## Vocabulary of the statements -/

/-- The notifications that the decoding loop emits for a list of commands: for each, in order,
`rawCommand`, the per-name notification, and what the listener of the device for that name
emits. -/
def commandNotifications : List Command → List Notification
  | [] => []
  | c :: cs =>
    .rawCommand c :: .named c.name c.data :: ((listen c.name c.data).1 ++ commandNotifications cs)

/-- Fields that no transmission touches. -/
def KeepsA (d d1 : Device) : Prop :=
  d1.state = d.state ∧ d1.uid = d.uid ∧ d1.emitted = d.emitted ∧ d1.nextTicks = d.nextTicks ∧
  d1.communicationTimeout = d.communicationTimeout ∧ d1.ip = d.ip ∧
  d1.commandTimer = d.commandTimer ∧ d1.socket = d.socket

/-- Fields that confirming pending packets does not touch. -/
def KeepsB (d d1 : Device) : Prop :=
  KeepsA d d1 ∧ d1.ls = d.ls ∧ d1.incomingPackets = d.incomingPackets ∧
  d1.commandQueue = d.commandQueue ∧ d1.heap = d.heap ∧ d1.sent = d.sent ∧
  d1.syncInterval = d.syncInterval ∧ d1.nextId = d.nextId

/-- Fields that acknowledging an inbound packet does not touch. -/
def KeepsC (d d1 : Device) : Prop :=
  d1.state = d.state ∧ d1.uid = d.uid ∧ d1.emitted = d.emitted ∧
  d1.communicationTimeout = d.communicationTimeout ∧ d1.ip = d.ip ∧
  d1.commandTimer = d.commandTimer ∧ d1.socket = d.socket

/-- The state carried by a `connectionStateChange` notification. -/
def Notification.state? : Notification → Option ConnectionState
  | .connectionStateChange s => some s
  | _ => none

/-- The states announced by the `connectionStateChange` notifications of a list, in order. -/
def stateChanges (ns : List Notification) : List ConnectionState :=
  ns.filterMap Notification.state?

/-- The header that the constructor `AtemPacket` reads from a datagram. -/
def parseHeader (msg : List Nat) : Header :=
  ⟨msg.headD 0 >>> 3, readUInt16BE msg 2, readUInt16BE msg 10, readUInt16BE msg 4⟩

/-- The datagram of a connect packet with the flags `f`, the session id `rnd` and the foreign
sequence `fs`: the header with length 20 and local sequence 0, then the fixed payload. -/
def connectDatagram (f rnd fs : Nat) : List Nat :=
  [(8 * f) % 256, 20, rnd / 256, rnd % 256, fs / 256, fs % 256, 0, 0, 0, 0, 0, 0,
   1, 0, 0, 0, 0, 0, 0, 0]

/-- A datagram with the repeat flag set: the flags are the bits 3 to 7 of byte 0, and the
repeat flag 4 is the bit `0x20` there. -/
def withRepeat : List Nat → List Nat
  | [] => []
  | b0 :: rest => (b0 ||| 0x20) :: rest

/-- A datagram with the ack flag set (the bit `0x80` of byte 0) and the foreign sequence `fs`
in the bytes 4 and 5. -/
def withAck (fs : Nat) : List Nat → List Nat
  | b0 :: b1 :: b2 :: b3 :: _ :: _ :: rest =>
    (b0 ||| 0x80) :: b1 :: b2 :: b3 :: fs / 256 :: fs % 256 :: rest
  | b => b

/-- The device `d1` holds what `d` held: every object of the heap is still there, and still
has its serialized cache if it had one; every armed timer was armed before or is not a repeat
timer or belongs to an object with a serialized cache; every pending reference was pending
before or is an object of the heap. -/
def Grows (d d1 : Device) : Prop :=
  (∀ self p, d.heap.get? self = some p →
    ∃ p1, d1.heap.get? self = some p1 ∧ (p.serializedCache ≠ none → p1.serializedCache ≠ none)) ∧
  (∀ t ∈ d1.timers, t ∈ d.timers ∨
    ∀ self, t.kind = .retransmit self →
      ∃ p1, d1.heap.get? self = some p1 ∧ p1.serializedCache ≠ none) ∧
  (∀ x ∈ d1.pendingPackets, x ∈ d.pendingPackets ∨ x < d1.heap.length)

/-- No sync packet has been transmitted for the first time between `d` and `d1`: every object
of the heap of `d1` that has the sync flag and a serialized cache had both in `d`. -/
def SameSyncs (d d1 : Device) : Prop :=
  ∀ self p1, d1.heap.get? self = some p1 → isSync p1.header.flags = true →
    p1.serializedCache ≠ none →
    ∃ p, d.heap.get? self = some p ∧ isSync p.header.flags = true ∧ p.serializedCache ≠ none

/-- The same as `Grows`, for a device that has also kept its sequence counter and its command
queue and has transmitted no new sync packet. -/
def Quietly (d d1 : Device) : Prop :=
  Grows d d1 ∧ d1.ls = d.ls ∧ d1.commandQueue = d.commandQueue ∧ SameSyncs d d1

/-- Every pending reference is an object of the heap. -/
def Device.refsValid (d : Device) : Bool := d.pendingPackets.all fun x => x < d.heap.length

/-- Every armed repeat timer belongs to an object of the heap that has been transmitted: it
has its serialized cache. -/
def Device.timersValid (d : Device) : Bool :=
  d.timers.all fun t =>
    match t.kind with
    | .retransmit self =>
      match d.heap.get? self with
      | some p => p.serializedCache.isSome
      | none => false
    | _ => true

/-- The two conditions on the references of a device that every call of the interface and
every event keeps. -/
def Device.wellFormed (d : Device) : Bool := d.refsValid && d.timersValid

/-- Whether the event makes the device call `sync()`, which constructs and transmits a new
sync packet: the heartbeat timer fires, or the batch timer fires while commands are queued. -/
def Event.callsSync (e : Event) (d : Device) : Bool :=
  match e with
  | .timer id _ =>
    match d.timers.find? (fun t => t.id == id) with
    | some t =>
      match t.kind with
      | .sync => true
      | .command => decide (0 < d.commandQueue.length)
      | _ => false
    | none => false
  | _ => false

/-- Whether the event makes the device reconnect: the communication timeout fires. -/
def Event.reconnects (e : Event) (d : Device) : Bool :=
  match e with
  | .timer id _ =>
    match d.timers.find? (fun t => t.id == id) with
    | some t => t.kind == .communication
    | none => false
  | _ => false

/-- No event of the list, at the state it finds, makes the device call `sync()`. -/
def quiet : List Event → Device → Bool
  | [], _ => true
  | e :: es, d => !e.callsSync d && quiet es (step e d).device

/-- No event of the list, at the state it finds, makes the device call `sync()` or reconnect. -/
def steady : List Event → Device → Bool
  | [], _ => true
  | e :: es, d => !e.callsSync d && !e.reconnects d && steady es (step e d).device

/-- The datagram of an ack-only packet: the header with the length 12, the ack flag, the
session id `uid` and the foreign sequence `fs`. -/
def ackDatagram (uid fs : Nat) : List Nat :=
  [0x80, 12, uid / 256, uid % 256, fs / 256, fs % 256, 0, 0, 0, 0, 0, 0]

/-- The object of an ack-only packet once it has been transmitted: the session id `uid`, the
foreign sequence `fs`, the repeat flag set for future transmissions and an empty body cached. -/
def sentAck (uid fs : Option Nat) : UserPacket :=
  { header := ⟨flags.ack ||| flags.repeat_, uid, none, fs⟩, commands := [], interval := none,
    messageTimeout := none, serializedCache := some [] }

/-- The records that the decoding loop visits in `body` from `cursor` on as long as every
listener returns, at most `fuel` of them: for each, the length it declares and the command that
is delivered. -/
def visitedRecords : Nat → List Nat → Nat → List (Nat × Command)
  | 0, _, _ => []
  | fuel + 1, body, cursor =>
    if cursor < body.length - 1 then
      ((readUInt16BE body cursor).getD 0,
        ⟨bufToString body (cursor + 4) (cursor + 8),
          slice body (cursor + 8) (cursor + (readUInt16BE body cursor).getD 0)⟩)
        :: visitedRecords fuel body (cursor + (readUInt16BE body cursor).getD 0)
    else []

/-! ## Inputs of the examples -/

/-- A device with the address of `example.js` configured, before its first connect. -/
def configuredDevice : Device := { Device.init with ip := some "10.1.0.210" }

/-- A pending sync packet with local sequence `ls` whose timers have the handles `t` and `t + 1`. -/
def pendingPacket (ls t : Nat) : UserPacket :=
  { header := ⟨flags.sync ||| flags.repeat_, some 7, some ls, some 0⟩, commands := [],
    interval := some t, messageTimeout := some (t + 1), serializedCache := some [] }

/-- An open session with three pending confirmations, at local sequences 3, 4 and 5. -/
def threePending : Device :=
  { Device.init with
    uid := some 7, ls := 6, state := .opened, socket := some true, ip := some "10.1.0.210",
    heap := [pendingPacket 3 0, pendingPacket 4 2, pendingPacket 5 4],
    pendingPackets := [0, 1, 2],
    timers := [⟨0, .retransmit 0⟩, ⟨1, .messageTimeout⟩, ⟨2, .retransmit 1⟩,
      ⟨3, .messageTimeout⟩, ⟨4, .retransmit 2⟩, ⟨5, .messageTimeout⟩],
    nextId := 6 }

/-- An inbound acknowledgement with foreign sequence 4. -/
def ackOfFour : AtemPacket := ⟨6, ⟨flags.ack, some 7, some 0, some 4⟩, []⟩

/-- The local sequences of the pending confirmations of a device. -/
def pendingSequences (d : Device) : List Nat :=
  d.pendingPackets.filterMap fun self => (d.heap.get? self).bind fun p => p.header.ls

/-- The reply to a connect packet: 20 bytes, connect flag only, session id 77. -/
def connectReply : List Nat :=
  [0x10, 0x14, 0x00, 0x4D, 0x00, 0x00, 0x00, 0x00, 0x00, 0x00, 0x00, 0x00,
   0x02, 0x00, 0x00, 0x00, 0x00, 0x00, 0x00, 0x00]

/-- A header-only sync packet: 12 bytes, sync flag, session id 500, local sequence 1. -/
def syncReply : List Nat :=
  [0x08, 0x0C, 0x01, 0xF4, 0x00, 0x00, 0x00, 0x00, 0x00, 0x00, 0x00, 0x01]


/-- A header-only sync packet with the session id 6. -/
def foreignSync : List Nat :=
  [0x08, 0x0C, 0x00, 0x06, 0x00, 0x00, 0x00, 0x00, 0x00, 0x00, 0x00, 0x01]

/-- A session in the establishing state with the session id 5. -/
def establishingDevice : Device :=
  { Device.init with uid := some 5, state := .establishing, socket := some true,
                     ip := some "10.1.0.210" }

/-- An open session with the session id 5. -/
def openDevice : Device :=
  { Device.init with uid := some 5, ls := 1, state := .opened, socket := some true,
                     ip := some "10.1.0.210" }

/-- A 14-byte sync packet with the session id 6 whose length field says 14. -/
def wrongSessionPacket : List Nat :=
  [0x08, 0x0E, 0x00, 0x06, 0x00, 0x00, 0x00, 0x00, 0x00, 0x00, 0x00, 0x01, 0x00, 0x00]

/-- An acknowledgement of 12 bytes for the session 7 with foreign sequence 4 whose length
field says 13. -/
def badLengthAck : List Nat :=
  [0x80, 0x0D, 0x00, 0x07, 0x00, 0x04, 0x00, 0x00, 0x00, 0x00, 0x00, 0x00]

/-- A sync packet of 20 bytes for the session 5 whose only command record, named `ABCD`,
declares 100 bytes in a body of 8. -/
def overlongRecord : List Nat :=
  [0x08, 0x14, 0x00, 0x05, 0x00, 0x00, 0x00, 0x00, 0x00, 0x00, 0x00, 0x02,
   0x00, 0x64, 0x00, 0x00, 0x41, 0x42, 0x43, 0x44]

/-- An open session whose counter is 65535, holding a new sync packet at reference 0. -/
def wrappingDevice : Device :=
  { Device.init with uid := some 5, ls := 65535, state := .opened, socket := some true,
                     ip := some "10.1.0.210", heap := [UserPacket.new .undefined] }

/-- Two commands, `CPgI` with four bytes and `DCut` with none. -/
def twoCommands : List Command :=
  [⟨[0x43, 0x50, 0x67, 0x49], [0, 0, 0, 2]⟩, ⟨[0x44, 0x43, 0x75, 0x74], []⟩]

/-- An open session that has one unacknowledged inbound packet (local sequence 9) and holds a
new sync packet at reference 0. -/
def unackedDevice : Device :=
  { Device.init with uid := some 5, ls := 1, state := .opened, socket := some true,
                     ip := some "10.1.0.210", heap := [UserPacket.new .undefined],
                     incomingPackets := [⟨0, ⟨flags.sync, some 5, some 9, some 0⟩, []⟩],
                     nextId := 1 }

/-- The same session with two commands queued. -/
def queuedDevice : Device := { unackedDevice with commandQueue := twoCommands }

/-- An open session with nothing to acknowledge that holds a new sync packet at reference 0. -/
def syncDevice : Device := { unackedDevice with incomingPackets := [] }

/-- Three commands: the two above and `DAut` with four bytes. -/
def threeCommands : List Command := twoCommands ++ [⟨[0x44, 0x41, 0x75, 0x74], [0, 0, 0, 0]⟩]

/-- The events of a handshake: the switcher answers the connect packet, sends a sync packet
(Attempting to Establishing) and a header-only sync packet (Establishing to Open), and the
acknowledgement of the latter goes out. -/
def handshakeEvents : List Event :=
  [.message 0 connectReply, .message 0 syncReply, .message 0 syncReply, .nextTick]

/-- The session of `example.js` once the handshake is over. No sync packet has been sent yet,
so the counter is 0. -/
def handshakenDevice : Device := run handshakeEvents (connect 77 configuredDevice).device

/-- That session a little later: the heartbeat has sent the first sync packet (the timer with
the handle 6), and a command submitted since has armed the batch timer (the handle 11). -/
def batchingDevice : Device :=
  run [.timer 6 0, .command ⟨[0x44, 0x43, 0x75, 0x74], []⟩] handshakenDevice

/-- The session of `example.js` after the handshake and three submitted commands, before its
first heartbeat. -/
def waitingDevice : Device :=
  run (handshakeEvents ++ threeCommands.map .command) (connect 77 configuredDevice).device

/-- A sync packet of 20 bytes for the session 5 whose length field says 20 and whose only
command record, named `ABCD`, declares the length 0. -/
def zeroRecord : List Nat :=
  [0x08, 0x14, 0x00, 0x05, 0x00, 0x00, 0x00, 0x00, 0x00, 0x00, 0x00, 0x02,
   0x00, 0x00, 0x00, 0x00, 0x41, 0x42, 0x43, 0x44]

/-- A sync packet of 28 bytes for the session 5 whose length field says 28 and whose body of 16
bytes is eight records that declare 2 bytes each. -/
def shortRecords : List Nat :=
  [0x08, 0x1C, 0x00, 0x05, 0x00, 0x00, 0x00, 0x00, 0x00, 0x00, 0x00, 0x02,
   0x00, 0x02, 0x00, 0x02, 0x00, 0x02, 0x00, 0x02, 0x00, 0x02, 0x00, 0x02, 0x00, 0x02, 0x00, 0x02]

/-- A batch of one command `ABCD` with 4080 bytes of payload: 4088 bytes of body. -/
def bigBatch : List BodyItem := [.cmd ⟨[0x41, 0x42, 0x43, 0x44], List.replicate 4080 0⟩]

/-- The header of a sync packet of the session 5 with the local sequence 1. -/
def syncHeader : Header := ⟨flags.sync, some 5, some 1, some 0⟩

/-- The session of `example.js` in the Establishing state: the switcher has answered the
connect packet and sent its first sync packet, which gave the session the id 500. -/
def establishingSession : Device :=
  run [.message 0 connectReply, .message 0 syncReply] (connect 77 configuredDevice).device

/-- Two commands without payload: `PrgI`, for which the device has a listener that reads the
bytes 0 to 3 of the payload, and `DCut`. -/
def programAndCut : List Command :=
  [⟨[0x50, 0x72, 0x67, 0x49], []⟩, ⟨[0x44, 0x43, 0x75, 0x74], []⟩]

/-- The sync packet of 28 bytes for the session 5, local sequence 1, that carries
`programAndCut`: the header, then the two records of 8 bytes. -/
def programDatagram : List Nat :=
  [0x08, 0x1C, 0x00, 0x05, 0x00, 0x00, 0x00, 0x00, 0x00, 0x00, 0x00, 0x01,
   0x00, 0x08, 0x00, 0x00, 0x50, 0x72, 0x67, 0x49,
   0x00, 0x08, 0x00, 0x00, 0x44, 0x43, 0x75, 0x74]

/-- A header-only sync packet of the session 500 with the local sequence 2. -/
def laterSync : List Nat :=
  [0x08, 0x0C, 0x01, 0xF4, 0x00, 0x00, 0x00, 0x00, 0x00, 0x00, 0x00, 0x02]

/-- The session of `example.js` after the handshake, once its heartbeat has sent the first sync
packet and `laterSync` has been handled: that packet is pending with its repeat timer armed, and
the inbound packet waits in the unacked-inbound queue for the response scheduled for the next
tick. -/
def retransmitDevice : Device := run [.timer 6 0, .message 0 laterSync] handshakenDevice

/-! ## Lemmas -/

theorem and_two_pow_eq_iff (f k : Nat) : f &&& 2 ^ k = 2 ^ k ↔ f.testBit k = true := by
  constructor
  · intro h
    have := Nat.testBit_and f (2 ^ k) k
    rw [h, Nat.testBit_two_pow_self] at this
    simpa using this.symm
  · intro h
    apply Nat.eq_of_testBit_eq
    intro i
    rw [Nat.testBit_and, Nat.testBit_two_pow]
    by_cases hk : k = i
    · subst hk; simp [h]
    · simp [hk]

theorem isSync_eq (f : Nat) : isSync f = decide (f % 2 = 1) := by
  have := and_two_pow_eq_iff f 0
  simp only [isSync, flags.sync]
  rw [Bool.eq_iff_iff]
  simp only [beq_iff_eq, decide_eq_true_eq]
  rw [show (1 : Nat) = 2 ^ 0 from rfl, this, Nat.testBit_to_div_mod]
  simp

theorem isConnect_eq (f : Nat) : isConnect f = decide (f / 2 % 2 = 1) := by
  have := and_two_pow_eq_iff f 1
  simp only [isConnect, flags.connect]
  rw [Bool.eq_iff_iff]
  simp only [beq_iff_eq, decide_eq_true_eq]
  rw [show (2 : Nat) = 2 ^ 1 from rfl, this, Nat.testBit_to_div_mod]
  simp

theorem isAck_eq (f : Nat) : isAck f = decide (f / 16 % 2 = 1) := by
  have := and_two_pow_eq_iff f 4
  simp only [isAck, flags.ack]
  rw [Bool.eq_iff_iff]
  simp only [beq_iff_eq, decide_eq_true_eq]
  rw [show (16 : Nat) = 2 ^ 4 from rfl, this, Nat.testBit_to_div_mod]
  simp

theorem lor_shift3 (a f : Nat) (ha : a < 8) : a ||| (f <<< 3) = 8 * f + a := by
  rw [Nat.shiftLeft_eq, Nat.lor_comm, Nat.mul_comm]
  exact (Nat.mul_add_lt_is_or (i := 3) ha f).symm

theorem writeUInt16BE_ok (buf : List Nat) (v offset : Nat) (hv : v ≤ 0xFFFF)
    (ho : offset + 2 ≤ buf.length) :
    writeUInt16BE buf (some v) offset
      = some ((buf.set offset (v / 256)).set (offset + 1) (v % 256)) := by
  unfold writeUInt16BE
  rw [if_neg]
  · rfl
  · simp only [Option.getD_some]; omega

theorem headerSerialize_eq (L flags uid fs ls : Nat) (cmds : List BodyItem) (hL : packetLength cmds = L) (h1 : L ≤ 2047) (hu : uid ≤ 65535) (hf : fs ≤ 65535) (hl : ls ≤ 65535) :
   headerSerialize ⟨flags, some uid, some ls, some fs⟩ cmds =
     some [(8 * flags + L / 256) % 256, L % 256, uid / 256, uid % 256,
       if isAck flags then fs / 256 else 0, if isAck flags then fs % 256 else 0, 0, 0, 0, 0,
       if isSync flags || isConnect flags then ls / 256 else 0,
       if isSync flags || isConnect flags then ls % 256 else 0] := by
  have ha : L / 256 < 8 := by omega
  unfold headerSerialize
  rw [hL, newBuffer, writeUInt16BE_ok _ _ _ (by omega) (by simp)]
  simp only [List.replicate, List.set, List.getD_cons_zero, lor_shift3 _ _ ha]
  rw [writeUInt16BE_ok _ _ _ hu (by simp)]
  simp only [List.set]
  cases hA : isAck flags <;> cases hS : (isSync flags || isConnect flags)
  · simp [fill]
  · simp only [Bool.false_eq_true, if_false, if_true, fill]
    rw [writeUInt16BE_ok _ _ _ hl (by simp)]
    simp
  · simp only [Bool.false_eq_true, if_false, if_true]
    rw [writeUInt16BE_ok _ _ _ hf (by simp)]
    simp [fill]
  · simp only [if_true]
    rw [writeUInt16BE_ok _ _ _ hf (by simp)]
    simp only [fill, List.set]
    rw [writeUInt16BE_ok _ _ _ hl (by simp)]
    simp

theorem utf8EncodeFit_ascii (s : List Nat) (room : Nat) (hs : ∀ c ∈ s, c < 128)
    (hroom : s.length ≤ room) : utf8EncodeFit s room = s := by
  induction s generalizing room with
  | nil => rfl
  | cons c cs ih =>
    have hc : c < 128 := hs c (List.mem_cons_self _ _)
    have hcs : ∀ x ∈ cs, x < 128 := fun x hx => hs x (List.mem_cons_of_mem _ hx)
    simp only [List.length_cons] at hroom
    have e : utf8EncodeChar c = [c] := by simp [utf8EncodeChar, hc]
    simp only [utf8EncodeFit, e, List.length_singleton]
    rw [if_pos (by omega), ih (room - 1) hcs (by omega)]
    rfl

theorem utf8DecodeFrom_ascii (s : List Nat) (hs : ∀ c ∈ s, c < 128) :
    utf8DecodeFrom Utf8State.start s = s := by
  induction s with
  | nil => rfl
  | cons c cs ih =>
    have hc : c < 128 := hs c (List.mem_cons_self _ _)
    have hcs : ∀ x ∈ cs, x < 128 := fun x hx => hs x (List.mem_cons_of_mem _ hx)
    have e : utf8Lead c = ([c], Utf8State.start) := by
      simp only [utf8Lead]; rw [if_pos (by omega)]
    rw [utf8DecodeFrom, if_pos (show Utf8State.start.needed = 0 from rfl), e, ih hcs]
    rfl

theorem Command.serialize_eq (c : Command) (hn : c.name.length = 4) (ha : ∀ x ∈ c.name, x < 128)
    (hl : c.length ≤ 0xFFFF) :
    c.serialize = some ([c.length / 256, c.length % 256, 0, 0] ++ c.name ++ c.data) := by
  unfold Command.serialize
  rw [newBuffer, writeUInt16BE_ok _ _ _ hl (by simp)]
  simp only [List.replicate, List.set, bufWrite, List.length_cons, List.length_nil]
  rw [utf8EncodeFit_ascii _ _ ha (by omega), hn]
  simp

theorem bodyLength_cons (c : BodyItem) (cs : List BodyItem) :
    bodyLength (c :: cs) = c.length + bodyLength cs := by
  unfold bodyLength
  rw [List.foldl_cons]
  have h : ∀ (l : List BodyItem) (a b : Nat),
      l.foldl (fun length command => length + command.length) (a + b)
        = a + l.foldl (fun length command => length + command.length) b := by
    intro l
    induction l with
    | nil => intro a b; rfl
    | cons x xs ih => intro a b; simp only [List.foldl_cons]; rw [Nat.add_assoc, ih]
  simpa using h cs c.length 0

theorem bodyLength_eq_sum (cs : List Command) :
    bodyLength (cs.map .cmd) = (cs.map fun c => 8 + c.data.length).sum := by
  induction cs with
  | nil => rfl
  | cons c cs ih => simp [bodyLength_cons, ih, BodyItem.length, Command.length]

theorem readUInt16BE_append (pre rest : List Nat) (a b : Nat) :
    readUInt16BE (pre ++ a :: b :: rest) pre.length = some (a * 256 + b) := by
  unfold readUInt16BE
  rw [if_pos (by simp)]
  have h0 : (pre ++ a :: b :: rest).getD pre.length 0 = a := by
    rw [List.getD_eq_getElem?_getD, List.getElem?_append_right (Nat.le_refl _)]
    simp
  have h1 : (pre ++ a :: b :: rest).getD (pre.length + 1) 0 = b := by
    rw [List.getD_eq_getElem?_getD, List.getElem?_append_right (by omega)]
    simp
  rw [h0, h1]

theorem slice_append (pre xs : List Nat) (i j : Nat) :
    slice (pre ++ xs) (pre.length + i) (pre.length + j) = slice xs i j := by
  unfold slice
  rw [List.take_append, List.drop_append]

theorem slice_name (hd : List Nat) (name rest : List Nat) (h4 : hd.length = 4)
    (hn : name.length = 4) : slice (hd ++ name ++ rest) 4 8 = name := by
  unfold slice
  have : hd ++ name ++ rest = (hd ++ name) ++ rest := rfl
  rw [List.take_append_of_le_length (by simp [h4, hn])]
  rw [List.take_of_length_le (by simp [h4, hn])]
  rw [← h4, List.drop_left]

theorem slice_data (hd : List Nat) (data rest : List Nat) (h8 : hd.length = 8) :
    slice (hd ++ data ++ rest) 8 (8 + data.length) = data := by
  unfold slice
  have e : 8 + data.length = (hd ++ data).length := by simp [h8]
  rw [e, List.take_left, ← h8, List.drop_left]

/-- One iteration of the decoding loop on a serialized command: the command is delivered, and
the loop goes on behind it when the listener of the device for its name returns. -/
theorem decodeCommands_record (c : Command) (pre bs1 : List Nat) (acc : List Command)
    (d : Device) (f : Nat) (hn : c.name.length = 4) (ha : ∀ x ∈ c.name, x < 128) :
    decodeCommands (f + 1)
        (pre ++ ([c.length / 256, c.length % 256, 0, 0] ++ c.name ++ c.data ++ bs1))
        pre.length acc d
      = if (listen c.name c.data).2 then
          decodeCommands f
            ((pre ++ ([c.length / 256, c.length % 256, 0, 0] ++ c.name ++ c.data)) ++ bs1)
            (pre ++ ([c.length / 256, c.length % 256, 0, 0] ++ c.name ++ c.data)).length
            (acc ++ [c])
            (emitAll (listen c.name c.data).1
              (emit (.named c.name c.data) (emit (.rawCommand c) d)))
        else .threw (emitAll (listen c.name c.data).1
              (emit (.named c.name c.data) (emit (.rawCommand c) d))) := by
  have hlen : c.length / 256 * 256 + c.length % 256 = c.length := by omega
  conv_lhs => unfold decodeCommands
  rw [if_pos (by simp)]
  have hr := readUInt16BE_append pre ([0, 0] ++ c.name ++ c.data ++ bs1)
    (c.length / 256) (c.length % 256)
  simp only [List.append_assoc, List.cons_append, List.nil_append] at hr ⊢
  rw [hr, hlen]
  simp only
  have e1 : bufToString (pre ++ c.length / 256 :: c.length % 256 :: 0 :: 0 ::
      (c.name ++ (c.data ++ bs1))) (pre.length + 4) (pre.length + 8) = c.name := by
    unfold bufToString
    rw [slice_append]
    have := slice_name [c.length / 256, c.length % 256, 0, 0] c.name (c.data ++ bs1) rfl hn
    simp only [List.append_assoc, List.cons_append, List.nil_append] at this
    rw [this, utf8DecodeFrom_ascii _ ha]
  have e2 : slice (pre ++ c.length / 256 :: c.length % 256 :: 0 :: 0 ::
      (c.name ++ (c.data ++ bs1))) (pre.length + 8) (pre.length + c.length) = c.data := by
    rw [slice_append]
    have := slice_data ([c.length / 256, c.length % 256, 0, 0] ++ c.name) c.data bs1
      (by simp [hn])
    simp only [List.append_assoc, List.cons_append, List.nil_append] at this
    exact this
  rw [e1, e2]
  have e4 : pre.length + c.length
      = (pre ++ c.length / 256 :: c.length % 256 :: 0 :: 0 :: (c.name ++ c.data)).length := by
    simp [Command.length, hn]; omega
  rw [e4]

theorem decodeCommands_serialized (cmds : List Command) :
    ∀ (pre : List Nat) (acc : List Command) (d : Device) (fuel : Nat) (bs : List Nat),
      (∀ c ∈ cmds, c.name.length = 4 ∧ (∀ x ∈ c.name, x < 128) ∧ c.length ≤ 0xFFFF) →
      (∀ c ∈ cmds, (listen c.name c.data).2 = true) →
      cmds.length ≤ fuel →
      bodySerialize (cmds.map .cmd) = some bs →
      decodeCommands fuel (pre ++ bs) pre.length acc d
        = .done (acc ++ cmds) { d with emitted := d.emitted ++ commandNotifications cmds } := by
  induction cmds with
  | nil =>
    intro pre acc d fuel bs _ _ _ hbs
    simp only [List.map_nil, bodySerialize, Option.some.injEq] at hbs
    subst hbs
    cases fuel <;> simp [decodeCommands, commandNotifications]
  | cons c cs ih =>
    intro pre acc d fuel bs hc hlis hfuel hbs
    obtain ⟨hn, ha, hl⟩ := hc c (List.mem_cons_self _ _)
    have hcs : ∀ x ∈ cs, x.name.length = 4 ∧ (∀ y ∈ x.name, y < 128) ∧ x.length ≤ 0xFFFF :=
      fun x hx => hc x (List.mem_cons_of_mem _ hx)
    have hlc : (listen c.name c.data).2 = true := hlis c (List.mem_cons_self _ _)
    have hlcs : ∀ x ∈ cs, (listen x.name x.data).2 = true :=
      fun x hx => hlis x (List.mem_cons_of_mem _ hx)
    simp only [List.map_cons, bodySerialize, BodyItem.serialize,
      Command.serialize_eq c hn ha hl] at hbs
    cases hrest : bodySerialize (cs.map .cmd) with
    | none => rw [hrest] at hbs; simp at hbs
    | some bs1 =>
      rw [hrest] at hbs
      simp only [Option.some.injEq] at hbs
      subst hbs
      cases fuel with
      | zero => simp at hfuel
      | succ f =>
        simp only [List.length_cons, Nat.add_le_add_iff_right] at hfuel
        rw [decodeCommands_record c pre bs1 acc d f hn ha, if_pos hlc,
          ih _ _ _ f bs1 hcs hlcs hfuel hrest]
        simp [emit, emitAll, commandNotifications]

/-- The decoding loop on a serialized command list in which the listener of the device throws
for the command `c` and returns for those before it: the loop throws once it has delivered `c`,
and the commands behind `c` are not delivered. -/
theorem decodeCommands_serialized_throws (good : List Command) (c : Command)
    (rest : List Command) :
    ∀ (pre : List Nat) (acc : List Command) (d : Device) (fuel : Nat) (bs : List Nat),
      (∀ x ∈ good ++ c :: rest,
        x.name.length = 4 ∧ (∀ y ∈ x.name, y < 128) ∧ x.length ≤ 0xFFFF) →
      (∀ x ∈ good, (listen x.name x.data).2 = true) → (listen c.name c.data).2 = false →
      good.length < fuel →
      bodySerialize ((good ++ c :: rest).map .cmd) = some bs →
      decodeCommands fuel (pre ++ bs) pre.length acc d
        = .threw { d with emitted := d.emitted ++ commandNotifications good ++
            (.rawCommand c :: .named c.name c.data :: (listen c.name c.data).1) } := by
  induction good with
  | nil =>
    intro pre acc d fuel bs hc _ hthrow hfuel hbs
    obtain ⟨hn, ha, hl⟩ := hc c (List.mem_cons_self _ _)
    simp only [List.nil_append, List.map_cons, bodySerialize, BodyItem.serialize,
      Command.serialize_eq c hn ha hl] at hbs
    cases hrest : bodySerialize (rest.map .cmd) with
    | none => rw [hrest] at hbs; simp at hbs
    | some bs1 =>
      rw [hrest] at hbs
      simp only [Option.some.injEq] at hbs
      subst hbs
      obtain ⟨f, rfl⟩ : ∃ f, fuel = f + 1 := ⟨fuel - 1, by simp at hfuel; omega⟩
      rw [decodeCommands_record c pre bs1 acc d f hn ha, hthrow]
      simp [emit, emitAll, commandNotifications]
  | cons g gs ih =>
    intro pre acc d fuel bs hc hlis hthrow hfuel hbs
    obtain ⟨hn, ha, hl⟩ := hc g (List.mem_cons_self _ _)
    have hcs : ∀ x ∈ gs ++ c :: rest,
        x.name.length = 4 ∧ (∀ y ∈ x.name, y < 128) ∧ x.length ≤ 0xFFFF :=
      fun x hx => hc x (List.mem_cons_of_mem _ hx)
    have hlg : (listen g.name g.data).2 = true := hlis g (List.mem_cons_self _ _)
    have hlgs : ∀ x ∈ gs, (listen x.name x.data).2 = true :=
      fun x hx => hlis x (List.mem_cons_of_mem _ hx)
    rw [List.cons_append, List.map_cons] at hbs
    simp only [bodySerialize, BodyItem.serialize, Command.serialize_eq g hn ha hl] at hbs
    cases hrest : bodySerialize ((gs ++ c :: rest).map .cmd) with
    | none => rw [hrest] at hbs; simp at hbs
    | some bs1 =>
      rw [hrest] at hbs
      simp only [Option.some.injEq] at hbs
      subst hbs
      cases fuel with
      | zero => simp at hfuel
      | succ f =>
        simp only [List.length_cons, Nat.add_lt_add_iff_right] at hfuel
        rw [decodeCommands_record g pre bs1 acc d f hn ha, if_pos hlg,
          ih _ _ _ f bs1 hcs hlgs hthrow hfuel hrest]
        simp [emit, emitAll, commandNotifications]

theorem setState_eq (s : ConnectionState) (d : Device) :
    setState s d = .done () (emit (.connectionStateChange s) { d with state := s }) := by
  cases s <;> rfl

theorem clearTimer_fields (h : Option Nat) (d : Device) :
    (clearTimer h d).uid = d.uid ∧ (clearTimer h d).ls = d.ls ∧
    (clearTimer h d).pendingPackets = d.pendingPackets ∧
    (clearTimer h d).incomingPackets = d.incomingPackets ∧
    (clearTimer h d).commandQueue = d.commandQueue ∧ (clearTimer h d).state = d.state ∧
    (clearTimer h d).heap = d.heap ∧ (clearTimer h d).nextId = d.nextId ∧
    (clearTimer h d).emitted = d.emitted ∧ (clearTimer h d).sent = d.sent ∧
    (clearTimer h d).nextTicks = d.nextTicks ∧
    (clearTimer h d).communicationTimeout = d.communicationTimeout ∧
    (clearTimer h d).syncInterval = d.syncInterval ∧
    (clearTimer h d).commandTimer = d.commandTimer ∧ (clearTimer h d).ip = d.ip ∧
    (clearTimer h d).socket = d.socket := by
  cases h <;> simp [clearTimer]

theorem handshake_spec (msg : List Nat) (h : Header) (d : Device) :
    handshake msg h d = .done () (handshake msg h d).device ∧
    (∃ pre, (handshake msg h d).device.emitted = d.emitted ++ pre ∧
      (∀ n ∈ pre, ∃ s, n = Notification.connectionStateChange s)) ∧
    (handshake msg h d).device.uid
      = (if d.state = .attempting ∧ isSync h.flags = true then h.uid else d.uid) ∧
    (handshake msg h d).device.state
      = (if d.state = .attempting ∧ isSync h.flags = true then .establishing
        else if d.state = .establishing ∧ msg.length = 12 ∧ isConnect h.flags = false then .opened
        else d.state) ∧
    (handshake msg h d).device.ls = d.ls ∧
    (handshake msg h d).device.pendingPackets = d.pendingPackets ∧
    (handshake msg h d).device.incomingPackets = d.incomingPackets ∧
    (handshake msg h d).device.commandQueue = d.commandQueue ∧
    (handshake msg h d).device.heap = d.heap ∧
    (handshake msg h d).device.sent = d.sent ∧
    (handshake msg h d).device.nextTicks = d.nextTicks ∧
    (handshake msg h d).device.communicationTimeout = d.communicationTimeout := by
  unfold handshake
  by_cases h1 : d.state = .attempting
  · by_cases h2 : isSync h.flags = true
    · simp only [h1, h2, setState_eq, Outcome.bind, emit, Outcome.device]
      refine ⟨rfl, ⟨[.connectionStateChange .establishing], rfl, ?_⟩, ?_⟩
      · intro n hn; exact ⟨_, List.mem_singleton.mp hn⟩
      · simp
    · simp only [h1, h2, Outcome.device]
      refine ⟨by simp, ⟨[], by simp, by simp⟩, ?_⟩
      simp [h1]
  · by_cases h3 : d.state = .establishing
    · by_cases h4 : msg.length = 12 ∧ isConnect h.flags = false
      · obtain ⟨h4a, h4b⟩ := h4
        simp only [h3, h4a, h4b, setState_eq, Outcome.bind, emit, setTimer, Outcome.device]
        have hc := clearTimer_fields d.syncInterval
          { d with state := .opened, emitted := d.emitted ++ [.connectionStateChange .opened] }
        obtain ⟨c1, c2, c3, c4, c5, c6, c7, c8, c9, c10, c11, c12, c13, c14, c15, c16⟩ := hc
        refine ⟨by simp, ⟨[.connectionStateChange .opened], ?_, ?_⟩, ?_⟩
        · simp [c9]
        · intro n hn; exact ⟨_, List.mem_singleton.mp hn⟩
        · simp [c1, c2, c3, c4, c5, c6, c7, c10, c11, c12]
      · have : (msg.length == 12 && !isConnect h.flags) = false := by
          rw [Bool.eq_false_iff]
          intro hh
          simp only [Bool.and_eq_true, beq_iff_eq, Bool.not_eq_true'] at hh
          exact h4 hh
        simp only [h3, this, Outcome.device]
        refine ⟨by simp, ⟨[], by simp, by simp⟩, ?_⟩
        simp [h4, h3]
    · refine ⟨by simp [h1, h3, Outcome.device], ⟨[], by simp [h1, h3, Outcome.device], by simp⟩, ?_⟩
      simp [h1, h3, Outcome.device]

theorem length_le_bodyLength (cs : List Command) (c : Command) (hc : c ∈ cs) :
    c.length ≤ bodyLength (cs.map .cmd) := by
  induction cs with
  | nil => cases hc
  | cons x xs ih =>
    rw [List.map_cons, bodyLength_cons]
    rcases List.mem_cons.mp hc with h | h
    · subst h; simp [BodyItem.length]
    · have := ih h; omega

theorem bodySerialize_some (cs : List Command)
    (hc : ∀ c ∈ cs, c.name.length = 4 ∧ (∀ x ∈ c.name, x < 128) ∧ c.length ≤ 0xFFFF) :
    ∃ bb, bodySerialize (cs.map .cmd) = some bb ∧ bb.length = bodyLength (cs.map .cmd) := by
  induction cs with
  | nil => exact ⟨[], rfl, rfl⟩
  | cons x xs ih =>
    obtain ⟨hn, ha, hl⟩ := hc x (List.mem_cons_self _ _)
    obtain ⟨bb, hbb, hlen⟩ := ih (fun c h => hc c (List.mem_cons_of_mem _ h))
    refine ⟨[x.length / 256, x.length % 256, 0, 0] ++ x.name ++ x.data ++ bb, ?_, ?_⟩
    · simp only [List.map_cons, bodySerialize, BodyItem.serialize,
        Command.serialize_eq x hn ha hl, hbb]
    · simp [bodyLength_cons, BodyItem.length, Command.length, hn, hlen]; omega

theorem headerSerialize_spec (L flags uid fs ls : Nat) (cmds : List BodyItem)
    (hL : packetLength cmds = L) (h1 : L ≤ 2047) (hu : uid ≤ 65535) (hf : fs ≤ 65535)
    (hl : ls ≤ 65535) :
    ∃ b, headerSerialize ⟨flags, some uid, some ls, some fs⟩ cmds = some b ∧ b.length = 12 ∧
      (∀ x ∈ b, x < 256) ∧
      ∀ rest : List Nat,
        (b ++ rest).headD 0 >>> 3 = flags % 32 ∧
        (∃ w, readUInt16BE (b ++ rest) 0 = some w ∧ w &&& 0x7FF = L) ∧
        readUInt16BE (b ++ rest) 2 = some uid ∧
        readUInt16BE (b ++ rest) 4 = some (if isAck flags then fs else 0) ∧
        (b ++ rest).getD 6 0 = 0 ∧ (b ++ rest).getD 7 0 = 0 ∧
        (b ++ rest).getD 8 0 = 0 ∧ (b ++ rest).getD 9 0 = 0 ∧
        readUInt16BE (b ++ rest) 10 = some (if isSync flags || isConnect flags then ls else 0) := by
  refine ⟨_, headerSerialize_eq L flags uid fs ls cmds hL h1 hu hf hl, rfl, ?_, ?_⟩
  · intro x hx
    simp only [List.mem_cons, List.mem_singleton, List.not_mem_nil, or_false] at hx
    rcases hx with h | h | h | h | h | h | h | h | h | h | h | h <;> subst h <;>
      first | omega | (split <;> omega)
  · intro rest
    refine ⟨?_, ⟨(8 * flags + L / 256) % 256 * 256 + L % 256, ?_, ?_⟩, ?_, ?_, ?_, ?_, ?_, ?_, ?_⟩
    · simp only [List.cons_append, List.headD_cons, Nat.shiftRight_eq_div_pow]; omega
    · simp [readUInt16BE]
    · rw [show (0x7FF : Nat) = 2 ^ 11 - 1 from rfl, Nat.and_pow_two_sub_one_eq_mod]; omega
    · simp [readUInt16BE]; omega
    · simp only [readUInt16BE, List.cons_append, List.length_cons]
      rw [if_pos (by omega)]
      simp only [List.getD_cons_succ, List.getD_cons_zero]
      split
      · simp; omega
      · simp
    · simp
    · simp
    · simp
    · simp
    · simp only [readUInt16BE, List.cons_append, List.length_cons]
      rw [if_pos (by omega)]
      simp only [List.getD_cons_succ, List.getD_cons_zero]
      split
      · simp; omega
      · simp

theorem AtemPacket.new_decode (fuel : Nat) (msg : List Nat) (d : Device) (uid fs ls word : Nat)
    (h2 : readUInt16BE msg 2 = some uid) (h4 : readUInt16BE msg 4 = some fs)
    (h10 : readUInt16BE msg 10 = some ls) (h0 : readUInt16BE msg 0 = some word)
    (hcon : isConnect (msg.headD 0 >>> 3) = false) (hlen : msg.length = word &&& 0x7FF)
    (hu : d.uid = some uid) :
    AtemPacket.new fuel msg d
      = (decodeCommands fuel (slice msg 12 msg.length) 0 []
          (handshake msg ⟨msg.headD 0 >>> 3, some uid, some ls, some fs⟩
            (nextObject d)).device).bind
        fun commands d2 =>
          .done ⟨d.nextId, ⟨msg.headD 0 >>> 3, some uid, some ls, some fs⟩, commands⟩ d2 := by
  unfold AtemPacket.new
  simp only [h2, h4, h10]
  obtain ⟨hdone, -, huid1, -⟩ := handshake_spec msg
    ⟨msg.headD 0 >>> 3, some uid, some ls, some fs⟩ (nextObject d)
  have : (handshake msg ⟨msg.headD 0 >>> 3, some uid, some ls, some fs⟩
      (nextObject d)).device.uid = some uid := by
    rw [huid1]; split <;> simp [hu, nextObject]
  generalize (handshake msg ⟨msg.headD 0 >>> 3, some uid, some ls, some fs⟩
      (nextObject d)).device = d1 at hdone this
  rw [hdone]
  simp only [Outcome.bind, decodeBody, hcon, Bool.false_eq_true, if_false, h0, this, ← hlen]
  simp

theorem keepsA_refl (d : Device) : KeepsA d d := ⟨rfl, rfl, rfl, rfl, rfl, rfl, rfl, rfl⟩

theorem keepsA_trans {a b c : Device} (h1 : KeepsA a b) (h2 : KeepsA b c) : KeepsA a c := by
  obtain ⟨a1, a2, a3, a4, a5, a6, a7, a8⟩ := h1
  obtain ⟨b1, b2, b3, b4, b5, b6, b7, b8⟩ := h2
  exact ⟨b1.trans a1, b2.trans a2, b3.trans a3, b4.trans a4, b5.trans a5, b6.trans a6,
    b7.trans a7, b8.trans a8⟩

theorem keepsB_refl (d : Device) : KeepsB d d := ⟨keepsA_refl d, rfl, rfl, rfl, rfl, rfl, rfl, rfl⟩

theorem keepsB_trans {a b c : Device} (h1 : KeepsB a b) (h2 : KeepsB b c) : KeepsB a c := by
  obtain ⟨a0, a1, a2, a3, a4, a5, a6, a7⟩ := h1
  obtain ⟨b0, b1, b2, b3, b4, b5, b6, b7⟩ := h2
  exact ⟨keepsA_trans a0 b0, b1.trans a1, b2.trans a2, b3.trans a3, b4.trans a4, b5.trans a5,
    b6.trans a6, b7.trans a7⟩

theorem Outcome.bind_device {α β : Type} (R : Device → Prop) (o : Outcome α)
    (f : α → Device → Outcome β) (ho : R o.device)
    (hf : ∀ a d1, o = .done a d1 → R (f a d1).device) : R (o.bind f).device := by
  cases o with
  | done a d1 => exact hf a d1 rfl
  | threw d1 => exact ho
  | noFuel d1 => exact ho

theorem clearTimer_keepsB (h : Option Nat) (d : Device) : KeepsB d (clearTimer h d) := by
  cases h <;> simp [clearTimer, KeepsB, KeepsA]

theorem clearTimer_pending (h : Option Nat) (d : Device) :
    (clearTimer h d).pendingPackets = d.pendingPackets := by
  cases h <;> simp [clearTimer]

theorem markAsRead_keepsB (self : Nat) (d : Device) : KeepsB d (markAsRead self d).device := by
  unfold markAsRead
  cases d.heap.get? self with
  | none => exact keepsB_refl d
  | some p =>
    simp only [Outcome.device]
    have h1 := clearTimer_keepsB p.interval d
    have h2 := clearTimer_keepsB p.messageTimeout (clearTimer p.interval d)
    have h3 := keepsB_trans h1 h2
    simpa [KeepsB, KeepsA] using h3

theorem removePendingLoop_keepsB (fs : Option Nat) (fuel : Nat) :
    ∀ (i : Nat) (d : Device), KeepsB d (removePendingLoop fs fuel i d).device := by
  induction fuel with
  | zero =>
    intro i d
    unfold removePendingLoop
    split <;> exact keepsB_refl d
  | succ f ih =>
    intro i d
    unfold removePendingLoop
    split
    · cases hg : d.pendingPackets.get? i with
      | none => exact keepsB_refl d
      | some self =>
        simp only
        cases hp : d.heap.get? self with
        | none => exact keepsB_refl d
        | some p =>
          simp only
          split
          · apply Outcome.bind_device (KeepsB d)
            · exact markAsRead_keepsB self d
            · intro a d1 h
              have := markAsRead_keepsB self d
              rw [h] at this
              exact keepsB_trans this (ih _ _)
          · exact ih _ _
    · exact keepsB_refl d

theorem piggyback_keepsA (p : UserPacket) (d : Device) : KeepsA d (piggyback p d).2 := by
  unfold piggyback
  split
  · split <;> simp [KeepsA]
  · exact keepsA_refl d

theorem store_keepsA (self : Nat) (p : UserPacket) (d : Device) : KeepsA d (store self p d) := by
  simp [store, KeepsA]

theorem rearmSync_keepsA (self : Nat) (p : UserPacket) (d : Device) :
    KeepsA d (rearmSync self p d) := by
  unfold rearmSync
  split
  · have h := (clearTimer_keepsB d.syncInterval (store self p d)).1
    simp only [setTimer]
    simpa [KeepsA, store] using h
  · exact store_keepsA self p d

theorem attachQueue_keepsA (p : UserPacket) (d : Device) : KeepsA d (attachQueue p d).2 := by
  unfold attachQueue
  split <;> simp [KeepsA]

theorem armRetransmission_keepsA (self : Nat) (p : UserPacket) (d : Device) :
    KeepsA d (armRetransmission self p d).2 := by
  unfold armRetransmission
  split <;> simp [KeepsA, setTimer]

theorem advanceLs_keepsA (p : UserPacket) (d : Device) : KeepsA d (advanceLs p d) := by
  unfold advanceLs
  split <;> simp [KeepsA]

theorem transmitFirst_keepsA (self : Nat) (p : UserPacket) (d : Device) :
    KeepsA d (transmitFirst self p d).device := by
  unfold transmitFirst
  simp only
  have h1 := attachQueue_keepsA (stamp p d) d
  generalize attachQueue (stamp p d) d = q at h1 ⊢
  split
  · exact keepsA_trans h1 (store_keepsA _ _ _)
  · rename_i cache hcache
    split
    · exact keepsA_trans h1 (store_keepsA _ _ _)
    · rename_i header hheader
      have h2 := armRetransmission_keepsA self (setRepeat { q.1 with serializedCache := some cache })
        { q.2 with sent := q.2.sent ++ [header ++ cache] }
      generalize armRetransmission self (setRepeat { q.1 with serializedCache := some cache })
        { q.2 with sent := q.2.sent ++ [header ++ cache] } = r at h2 ⊢
      have h3 : KeepsA q.2 r.2 := by
        refine keepsA_trans ?_ h2
        simp [KeepsA]
      exact keepsA_trans h1 (keepsA_trans h3
        (keepsA_trans (advanceLs_keepsA _ _) (rearmSync_keepsA _ _ _)))

theorem transmitAgain_keepsA (self : Nat) (p : UserPacket) (d : Device) :
    KeepsA d (transmitAgain self p d).device := by
  unfold transmitAgain
  split
  · refine keepsA_trans ?_ (rearmSync_keepsA _ _ _)
    simp [KeepsA]
  · exact store_keepsA _ _ _

theorem transmit_keepsA (self : Nat) (d : Device) : KeepsA d (transmit self d).device := by
  unfold transmit
  split
  · exact keepsA_refl d
  · next p _ =>
    simp only
    have h1 := piggyback_keepsA p d
    generalize piggyback p d = q at h1 ⊢
    split
    · exact keepsA_trans h1 (transmitFirst_keepsA _ _ _)
    · exact keepsA_trans h1 (transmitAgain_keepsA _ _ _)

theorem keepsA_toC {d d1 : Device} (h : KeepsA d d1) : KeepsC d d1 :=
  ⟨h.1, h.2.1, h.2.2.1, h.2.2.2.2.1, h.2.2.2.2.2.1, h.2.2.2.2.2.2.1, h.2.2.2.2.2.2.2⟩

theorem keepsC_trans {a b c : Device} (h1 : KeepsC a b) (h2 : KeepsC b c) : KeepsC a c := by
  obtain ⟨a1, a2, a3, a4, a5, a6, a7⟩ := h1
  obtain ⟨b1, b2, b3, b4, b5, b6, b7⟩ := h2
  exact ⟨b1.trans a1, b2.trans a2, b3.trans a3, b4.trans a4, b5.trans a5, b6.trans a6,
    b7.trans a7⟩

theorem respond_keepsA (self : AtemPacket) (d : Device) : KeepsA d (respond self d).device := by
  unfold respond
  split
  · exact keepsA_refl d
  · simp only [alloc]
    apply Outcome.bind_device (KeepsA d)
    · refine keepsA_trans ?_ (transmit_keepsA _ _)
      simp [KeepsA]
    · intro a d1 h
      have := transmit_keepsA d.heap.length
        { d with heap := d.heap ++ [{ UserPacket.new .undefined with
            header := { (UserPacket.new .undefined).header with
              flags := flags.ack, fs := self.header.ls } }] }
      rw [h] at this
      refine keepsA_trans (keepsA_trans ?_ this) ?_ <;> simp [KeepsA, Outcome.device]

theorem acknowledge_keepsC (self : AtemPacket) (d : Device) :
    KeepsC d (acknowledge self d).device := by
  unfold acknowledge
  simp only
  split
  · refine keepsC_trans ?_ (keepsA_toC (respond_keepsA _ _))
    simp [KeepsC]
  · simp [KeepsC, Outcome.device]

/-- The loop of the listener of `TlSr` emits no state change. -/
theorem sourceTallies_stateChanges (n : Nat) :
    ∀ (i : Nat) (data : List Nat), stateChanges (sourceTallies n i data).1 = [] := by
  induction n with
  | zero => intro i data; rfl
  | succ n ih =>
    intro i data
    unfold sourceTallies
    cases readUInt16BE data i with
    | none => rfl
    | some source =>
      have := ih (i + 3) data
      simpa [stateChanges, Notification.state?] using this

/-- The listeners of the device for command names emit no state change. -/
theorem listen_stateChanges (name data : List Nat) : stateChanges (listen name data).1 = [] := by
  have hmap : ∀ l : List Nat, stateChanges (l.map fun k =>
      Notification.inputTally (k + 1) (bitSet data (k + 2) 1) (bitSet data (k + 2) 2)) = [] := by
    intro l
    induction l with
    | nil => rfl
    | cons x xs _ => simp [stateChanges, Notification.state?]
  unfold listen
  split
  · cases readUInt16BE data 0 <;> rfl
  · split
    · cases readUInt16BE data 0 with
      | none => rfl
      | some length => exact hmap _
    · split
      · cases readUInt16BE data 0 with
        | none => rfl
        | some n => exact sourceTallies_stateChanges n 2 data
      · split
        · cases data.get? 0 <;> cases readUInt16BE data 2 <;> rfl
        · split
          · cases data.get? 0 <;> cases readUInt16BE data 2 <;> rfl
          · split
            · cases readUInt16BE data 2 <;> rfl
            · split <;> rfl

/-- The loop of the listener of `TlSr` emits no error. -/
theorem sourceTallies_noError (n : Nat) :
    ∀ (i : Nat) (data : List Nat) (x : Notification), x ∈ (sourceTallies n i data).1 →
      ∀ e, x ≠ .error e := by
  induction n with
  | zero => intro i data x hx; cases hx
  | succ n ih =>
    intro i data x hx
    unfold sourceTallies at hx
    cases h : readUInt16BE data i with
    | none => rw [h] at hx; cases hx
    | some source =>
      rw [h] at hx
      simp only [List.mem_cons] at hx
      rcases hx with rfl | hx
      · intro e he; cases he
      · exact ih _ _ _ hx

/-- The listeners of the device for command names emit no error. -/
theorem listen_noError (name data : List Nat) (x : Notification)
    (hx : x ∈ (listen name data).1) : ∀ e, x ≠ .error e := by
  intro e he
  subst he
  unfold listen at hx
  split at hx
  · cases h : readUInt16BE data 0 <;> rw [h] at hx <;> simp at hx
  · split at hx
    · cases h : readUInt16BE data 0 <;> rw [h] at hx <;> simp at hx
    · split at hx
      · cases h : readUInt16BE data 0 with
        | none => rw [h] at hx; simp at hx
        | some n =>
          rw [h] at hx
          exact sourceTallies_noError n 2 data _ hx e rfl
      · split at hx
        · cases h1 : data.get? 0 <;> cases h2 : readUInt16BE data 2 <;>
            rw [h1, h2] at hx <;> simp at hx
        · split at hx
          · cases h1 : data.get? 0 <;> cases h2 : readUInt16BE data 2 <;>
              rw [h1, h2] at hx <;> simp at hx
          · split at hx
            · cases h : readUInt16BE data 2 <;> rw [h] at hx <;> simp at hx
            · split at hx <;> simp at hx

/-- The decoding loop emits no error for the commands it delivers. -/
theorem commandNotifications_noError (cmds : List Command) :
    ∀ x ∈ commandNotifications cmds, ∀ e, x ≠ .error e := by
  induction cmds with
  | nil => intro x hx; cases hx
  | cons c cs ih =>
    intro x hx e
    simp only [commandNotifications, List.mem_cons, List.mem_append] at hx
    rcases hx with rfl | rfl | hx | hx
    · intro h; cases h
    · intro h; cases h
    · exact listen_noError _ _ _ hx e
    · exact ih x hx e

theorem decodeCommands_keeps (fuel : Nat) (body : List Nat) :
    ∀ (cursor : Nat) (cmds : List Command) (d : Device),
      ∃ ns, (decodeCommands fuel body cursor cmds d).device
        = { d with emitted := d.emitted ++ ns } ∧ stateChanges ns = [] := by
  induction fuel with
  | zero =>
    intro cursor cmds d
    unfold decodeCommands
    split <;> exact ⟨[], by simp [Outcome.device], rfl⟩
  | succ f ih =>
    intro cursor cmds d
    unfold decodeCommands
    split
    · split
      · exact ⟨[], by simp [Outcome.device], rfl⟩
      · rename_i cmdLength hread
        simp only
        have hl := listen_stateChanges (bufToString body (cursor + 4) (cursor + 8))
          (slice body (cursor + 8) (cursor + cmdLength))
        generalize listen (bufToString body (cursor + 4) (cursor + 8))
          (slice body (cursor + 8) (cursor + cmdLength)) = r at hl
        split
        · obtain ⟨ns, hns, hst⟩ := ih (cursor + cmdLength)
            (cmds ++ [⟨bufToString body (cursor + 4) (cursor + 8),
              slice body (cursor + 8) (cursor + cmdLength)⟩])
            (emitAll r.1 (emit (.named (bufToString body (cursor + 4) (cursor + 8))
                (slice body (cursor + 8) (cursor + cmdLength)))
              (emit (.rawCommand ⟨bufToString body (cursor + 4) (cursor + 8),
                slice body (cursor + 8) (cursor + cmdLength)⟩) d)))
          rw [hns]
          refine ⟨[.rawCommand ⟨bufToString body (cursor + 4) (cursor + 8),
                slice body (cursor + 8) (cursor + cmdLength)⟩,
              .named (bufToString body (cursor + 4) (cursor + 8))
                (slice body (cursor + 8) (cursor + cmdLength))] ++ r.1 ++ ns, ?_, ?_⟩
          · simp [emit, emitAll]
          · simp only [stateChanges, List.filterMap_append] at hst hl ⊢
            rw [hst, hl]
            rfl
        · refine ⟨[.rawCommand ⟨bufToString body (cursor + 4) (cursor + 8),
                slice body (cursor + 8) (cursor + cmdLength)⟩,
              .named (bufToString body (cursor + 4) (cursor + 8))
                (slice body (cursor + 8) (cursor + cmdLength))] ++ r.1, ?_, ?_⟩
          · simp [emit, emitAll, Outcome.device]
          · simp only [stateChanges, List.filterMap_append] at hl ⊢
            rw [hl]
            rfl
    · exact ⟨[], by simp [Outcome.device], rfl⟩

theorem isSync_testBit (f : Nat) : isSync f = f.testBit 0 := by
  rw [Bool.eq_iff_iff]
  simp only [isSync, flags.sync, beq_iff_eq]
  exact and_two_pow_eq_iff f 0

theorem isConnect_testBit (f : Nat) : isConnect f = f.testBit 1 := by
  rw [Bool.eq_iff_iff]
  simp only [isConnect, flags.connect, beq_iff_eq]
  exact and_two_pow_eq_iff f 1

theorem isAck_testBit (f : Nat) : isAck f = f.testBit 4 := by
  rw [Bool.eq_iff_iff]
  simp only [isAck, flags.ack, beq_iff_eq]
  exact and_two_pow_eq_iff f 4

theorem isSync_or_ack (f : Nat) : isSync (f ||| flags.ack) = isSync f := by
  simp only [isSync_testBit, Nat.testBit_or, flags.ack]
  rw [show Nat.testBit 16 0 = false from by decide]; simp

theorem isSync_and_notAck (f : Nat) : isSync (f &&& (0xFFFFFFFF - flags.ack)) = isSync f := by
  simp only [isSync_testBit, Nat.testBit_and, flags.ack]
  rw [show Nat.testBit (0xFFFFFFFF - 16) 0 = true from by decide]; simp

theorem isSync_or_repeat (f : Nat) : isSync (f ||| flags.repeat_) = isSync f := by
  simp only [isSync_testBit, Nat.testBit_or, flags.repeat_]
  rw [show Nat.testBit 4 0 = false from by decide]; simp

theorem piggyback_facts (p : UserPacket) (d : Device) :
    (piggyback p d).2.ls = d.ls ∧ (piggyback p d).2.state = d.state ∧
    (piggyback p d).2.pendingPackets = d.pendingPackets ∧
    (piggyback p d).1.serializedCache = p.serializedCache ∧
    isSync (piggyback p d).1.header.flags = isSync p.header.flags := by
  unfold piggyback
  split
  · split <;> simp [isSync_or_ack, isSync_and_notAck]
  · simp

theorem stamp_flags (p : UserPacket) (d : Device) : (stamp p d).header.flags = p.header.flags := by
  unfold stamp; split <;> rfl

theorem attachQueue_facts (p : UserPacket) (d : Device) :
    (attachQueue p d).2.ls = d.ls ∧ (attachQueue p d).2.state = d.state ∧
    (attachQueue p d).1.header = p.header := by
  unfold attachQueue
  split <;> simp

theorem armRetransmission_facts (self : Nat) (p : UserPacket) (d : Device) :
    (armRetransmission self p d).2.ls = d.ls ∧ (armRetransmission self p d).2.state = d.state ∧
    (armRetransmission self p d).1.header = p.header := by
  unfold armRetransmission
  split <;> simp [setTimer]

theorem rearmSync_ls (self : Nat) (p : UserPacket) (d : Device) :
    (rearmSync self p d).ls = d.ls := by
  unfold rearmSync
  split
  · simp only [setTimer]
    exact (clearTimer_keepsB d.syncInterval (store self p d)).2.1
  · rfl

theorem transmitAgain_ls (self : Nat) (p : UserPacket) (d : Device) :
    (transmitAgain self p d).device.ls = d.ls := by
  unfold transmitAgain
  split
  · simp [Outcome.device, rearmSync_ls]
  · rfl

theorem Outcome.ls_cases (o : Outcome Unit) (c : Bool) (a b : Nat)
    (h1 : ∀ d1, o = .done () d1 → d1.ls = if c then a else b)
    (h2 : o.isDone = false → o.device.ls = b) :
    o.device.ls = if o.isDone && c then a else b := by
  cases o with
  | done u d1 => simpa [Outcome.isDone, Outcome.device] using h1 d1 rfl
  | threw d1 => simpa [Outcome.isDone] using h2 rfl
  | noFuel d1 => simpa [Outcome.isDone] using h2 rfl

theorem transmitFirst_ls (self : Nat) (p : UserPacket) (d : Device) :
    (transmitFirst self p d).device.ls
      = if (transmitFirst self p d).isDone && (d.state != .attempting && isSync p.header.flags)
        then (d.ls + 1) % 0x10000 else d.ls := by
  have h1 := attachQueue_facts (stamp p d) d
  apply Outcome.ls_cases
  · intro d1 h
    unfold transmitFirst at h
    simp only at h
    generalize attachQueue (stamp p d) d = q at h1 h
    obtain ⟨q1, q2, q3⟩ := h1
    split at h
    · cases h
    · rename_i cache hcache
      split at h
      · cases h
      · rename_i header hheader
        have h2 := armRetransmission_facts self
          (setRepeat { q.1 with serializedCache := some cache })
          { q.2 with sent := q.2.sent ++ [header ++ cache] }
        generalize armRetransmission self (setRepeat { q.1 with serializedCache := some cache })
          { q.2 with sent := q.2.sent ++ [header ++ cache] } = r at h2 h
        obtain ⟨r1, r2, r3⟩ := h2
        simp only [Outcome.done.injEq, true_and] at h
        subst h
        rw [rearmSync_ls]
        unfold advanceLs
        have hs : isSync r.1.header.flags = isSync p.header.flags := by
          rw [r3]
          simp only [setRepeat, isSync_or_repeat, q3, stamp_flags]
        have r1' : r.2.ls = d.ls := by rw [r1]; exact q1
        have r2' : r.2.state = d.state := by rw [r2]; exact q2
        rw [hs, r2']
        split
        · simp [r1']
        · exact r1'
  · intro h
    unfold transmitFirst at h ⊢
    simp only at h ⊢
    generalize attachQueue (stamp p d) d = q at h1 h ⊢
    obtain ⟨q1, q2, q3⟩ := h1
    split
    · exact q1
    · split
      · exact q1
      · rename_i h3 _ _ h4
        rw [h3] at h
        simp only [h4, Outcome.isDone] at h
        cases h

theorem transmit_ls (self : Nat) (d : Device) (p : UserPacket) (hp : d.heap.get? self = some p) :
    (transmit self d).device.ls
      = if (transmit self d).isDone && (!d.pendingPackets.contains self
            && p.serializedCache.isNone && (d.state != .attempting && isSync p.header.flags))
        then (d.ls + 1) % 0x10000 else d.ls := by
  obtain ⟨h1, h2, h3, h4, h5⟩ := piggyback_facts p d
  by_cases hfirst : (!d.pendingPackets.contains self && p.serializedCache.isNone) = true
  · have e : transmit self d = transmitFirst self (piggyback p d).1 (piggyback p d).2 := by
      unfold transmit
      rw [hp]
      simp only [h3, h4, hfirst, if_true]
    rw [e, transmitFirst_ls, h1, h2, h5, hfirst]
    simp
  · have e : transmit self d = transmitAgain self (piggyback p d).1 (piggyback p d).2 := by
      unfold transmit
      rw [hp]
      simp only [h3, h4, hfirst, Bool.false_eq_true, if_false]
    rw [e, transmitAgain_ls, h1]
    simp only [Bool.not_eq_true] at hfirst
    rw [hfirst]
    simp

theorem readUInt16BE_isSome (buf : List Nat) (o : Nat) (h : o + 2 ≤ buf.length) :
    ∃ v, readUInt16BE buf o = some v := by
  unfold readUInt16BE
  rw [if_pos h]
  exact ⟨_, rfl⟩

theorem readUInt16BE_none (buf : List Nat) (o : Nat) (h : buf.length < o + 2) :
    readUInt16BE buf o = none := by
  unfold readUInt16BE
  rw [if_neg (by omega)]

theorem AtemPacket.new_short (fuel : Nat) (msg : List Nat) (d : Device) (h : msg.length < 12) :
    AtemPacket.new fuel msg d = .threw d := by
  unfold AtemPacket.new
  rw [readUInt16BE_none msg 10 (by omega)]
  split
  · rename_i h10; cases h10
  · rfl

theorem AtemPacket.new_long (fuel : Nat) (msg : List Nat) (d : Device) (h : 12 ≤ msg.length) :
    AtemPacket.new fuel msg d
      = decodeBody fuel msg (parseHeader msg) d.nextId
          (handshake msg (parseHeader msg) (nextObject d)).device := by
  obtain ⟨uid, h2⟩ := readUInt16BE_isSome msg 2 (by omega)
  obtain ⟨fs, h4⟩ := readUInt16BE_isSome msg 4 (by omega)
  obtain ⟨ls, h10⟩ := readUInt16BE_isSome msg 10 (by omega)
  unfold AtemPacket.new parseHeader
  simp only [h2, h4, h10]
  obtain ⟨hdone, -⟩ := handshake_spec msg
    ⟨msg.headD 0 >>> 3, some uid, some ls, some fs⟩ (nextObject d)
  generalize (handshake msg ⟨msg.headD 0 >>> 3, some uid, some ls, some fs⟩
      (nextObject d)).device = d1 at hdone
  rw [hdone]
  rfl

theorem decodeBody_keeps (fuel : Nat) (msg : List Nat) (h : Header) (id : Nat) (d : Device) :
    ∃ ns, (decodeBody fuel msg h id d).device = { d with emitted := d.emitted ++ ns } ∧
      stateChanges ns = [] := by
  unfold decodeBody
  split
  · exact ⟨[], by simp [Outcome.device], rfl⟩
  · split
    · exact ⟨[], by simp [Outcome.device], rfl⟩
    · split
      · obtain ⟨ns, hns, hst⟩ := decodeCommands_keeps fuel (slice msg 12 msg.length) 0 [] d
        refine ⟨ns, ?_, hst⟩
        rw [← hns]
        cases decodeCommands fuel (slice msg 12 msg.length) 0 [] d <;> rfl
      · split
        · exact ⟨[_], rfl, rfl⟩
        · exact ⟨[_], rfl, rfl⟩

theorem setTimer_keepsC (k : TimerKind) (d : Device) : KeepsC d (setTimer k d).2 := by
  simp [setTimer, KeepsC]

theorem keepsC_refl (d : Device) : KeepsC d d := ⟨rfl, rfl, rfl, rfl, rfl, rfl, rfl⟩

theorem resetCommunicationTimeout_keeps (packet : AtemPacket) (d : Device) :
    (resetCommunicationTimeout packet d).state = d.state ∧
    (resetCommunicationTimeout packet d).uid = d.uid ∧
    (resetCommunicationTimeout packet d).emitted = d.emitted ∧
    (resetCommunicationTimeout packet d).ls = d.ls ∧
    (resetCommunicationTimeout packet d).pendingPackets = d.pendingPackets ∧
    (resetCommunicationTimeout packet d).incomingPackets = d.incomingPackets ∧
    (resetCommunicationTimeout packet d).commandQueue = d.commandQueue := by
  have hc := clearTimer_keepsB d.communicationTimeout d
  have hp := clearTimer_pending d.communicationTimeout d
  obtain ⟨⟨c1, c2, c3, -⟩, c4, c5, c6, -⟩ := hc
  unfold resetCommunicationTimeout
  split
  · simp only [setTimer]
    exact ⟨c1, c2, c3, c4, hp, c5, c6⟩
  · exact ⟨c1, c2, c3, c4, hp, c5, c6⟩

theorem confirmPending_keepsB (packet : AtemPacket) (d : Device) :
    KeepsB d (confirmPending packet d).device := by
  unfold confirmPending
  split
  · exact removePendingLoop_keepsB _ _ _ _
  · exact keepsB_refl d

theorem acknowledgeIfDue_keepsC (packet : AtemPacket) (d : Device) :
    KeepsC d (acknowledgeIfDue packet d).device := by
  unfold acknowledgeIfDue
  split
  · exact acknowledge_keepsC _ _
  · exact keepsC_refl d

theorem handlePacket_keeps (packet : AtemPacket) (d : Device) :
    (handlePacket packet d).device.state = d.state ∧
    (handlePacket packet d).device.uid = d.uid ∧
    (handlePacket packet d).device.emitted = d.emitted := by
  unfold handlePacket
  split
  · apply Outcome.bind_device (fun x => x.state = d.state ∧ x.uid = d.uid ∧
      x.emitted = d.emitted)
    · have := (confirmPending_keepsB packet d).1
      exact ⟨this.1, this.2.1, this.2.2.1⟩
    · intro u d1 h1
      have k1 : KeepsC d d1 := by
        have := keepsA_toC (confirmPending_keepsB packet d).1
        rw [h1] at this
        exact this
      apply Outcome.bind_device (fun x => x.state = d.state ∧ x.uid = d.uid ∧
        x.emitted = d.emitted)
      · have := keepsC_trans k1 (acknowledgeIfDue_keepsC packet d1)
        exact ⟨this.1, this.2.1, this.2.2.1⟩
      · intro u2 d2 h2
        have k2 : KeepsC d d2 := by
          have := acknowledgeIfDue_keepsC packet d1
          rw [h2] at this
          exact keepsC_trans k1 this
        obtain ⟨r1, r2, r3, -⟩ := resetCommunicationTimeout_keeps packet d2
        exact ⟨r1.trans k2.1, r2.trans k2.2.1, r3.trans k2.2.2.1⟩
  · exact ⟨rfl, rfl, rfl⟩

theorem messageHandler_after_new (fuel : Nat) (msg : List Nat) (d : Device) :
    (messageHandler fuel msg d).device.state = (AtemPacket.new fuel msg d).device.state ∧
    (messageHandler fuel msg d).device.uid = (AtemPacket.new fuel msg d).device.uid ∧
    (messageHandler fuel msg d).device.emitted = (AtemPacket.new fuel msg d).device.emitted := by
  unfold messageHandler
  cases AtemPacket.new fuel msg d with
  | done packet d1 => exact handlePacket_keeps packet d1
  | threw d1 => exact ⟨rfl, rfl, rfl⟩
  | noFuel d1 => exact ⟨rfl, rfl, rfl⟩

theorem messageHandler_state (fuel : Nat) (msg : List Nat) (d : Device) (h : 12 ≤ msg.length) :
    (messageHandler fuel msg d).device.state
      = (if d.state = .attempting ∧ isSync (msg.headD 0 >>> 3) = true then .establishing
        else if d.state = .establishing ∧ msg.length = 12 ∧ isConnect (msg.headD 0 >>> 3) = false
          then .opened
        else d.state) ∧
    (messageHandler fuel msg d).device.uid
      = (if d.state = .attempting ∧ isSync (msg.headD 0 >>> 3) = true then readUInt16BE msg 2
        else d.uid) := by
  obtain ⟨m1, m2, -⟩ := messageHandler_after_new fuel msg d
  rw [m1, m2, AtemPacket.new_long fuel msg d h]
  obtain ⟨ns, hns, -⟩ := decodeBody_keeps fuel msg (parseHeader msg) d.nextId
    (handshake msg (parseHeader msg) (nextObject d)).device
  rw [hns]
  obtain ⟨-, -, hu, hs, -⟩ := handshake_spec msg (parseHeader msg) (nextObject d)
  exact ⟨hs, hu⟩

theorem connect_closed (rnd : Nat) (d : Device) (hclosed : d.state = .closed)
    (hip : ipTruthy d.ip = true) :
    connect rnd d = transmit d.heap.length
      { d with uid := some rnd, ls := 0, state := .attempting, socket := some true,
               emitted := d.emitted ++ [.connectionStateChange .attempting],
               heap := d.heap ++ [UserPacket.new .null] } := by
  unfold connect connectAux
  simp only [hclosed, beq_self_eq_true, if_true, hip, setState_eq, Outcome.bind, alloc, emit]

theorem connect_state_ls (rnd : Nat) (d : Device) (hclosed : d.state = .closed)
    (hip : ipTruthy d.ip = true) :
    (connect rnd d).device.state = .attempting ∧ (connect rnd d).device.ls = 0 ∧
    (connect rnd d).device.uid = some rnd ∧
    (connect rnd d).device.emitted = d.emitted ++ [.connectionStateChange .attempting] := by
  rw [connect_closed rnd d hclosed hip]
  have k := transmit_keepsA d.heap.length
      { d with uid := some rnd, ls := 0, state := .attempting, socket := some true,
               emitted := d.emitted ++ [.connectionStateChange .attempting],
               heap := d.heap ++ [UserPacket.new .null] }
  have l := transmit_ls d.heap.length
      { d with uid := some rnd, ls := 0, state := .attempting, socket := some true,
               emitted := d.emitted ++ [.connectionStateChange .attempting],
               heap := d.heap ++ [UserPacket.new .null] } (UserPacket.new .null) (by simp)
  refine ⟨k.1, ?_, k.2.1, k.2.2.1⟩
  rw [l]
  simp

theorem handshake_stateChanges (msg : List Nat) (h : Header) (d : Device) :
    stateChanges (handshake msg h d).device.emitted
      = stateChanges d.emitted ++
        (if d.state = .attempting ∧ isSync h.flags = true then [.establishing]
        else if d.state = .establishing ∧ msg.length = 12 ∧ isConnect h.flags = false
          then [.opened]
        else []) := by
  unfold handshake
  by_cases h1 : d.state = .attempting
  · by_cases h2 : isSync h.flags = true
    · simp [h1, h2, setState_eq, Outcome.bind, emit, Outcome.device, stateChanges,
        Notification.state?]
    · simp [h1, h2, Outcome.device]
  · by_cases h3 : d.state = .establishing
    · by_cases h4 : msg.length = 12 ∧ isConnect h.flags = false
      · obtain ⟨h4a, h4b⟩ := h4
        simp only [h3, h4a, h4b, setState_eq, Outcome.bind, emit, setTimer, Outcome.device]
        have hc := (clearTimer_keepsB d.syncInterval
          { d with state := .opened, emitted := d.emitted ++ [.connectionStateChange .opened] }).1.2.2.1
        simp [hc, stateChanges, Notification.state?]
      · have : (msg.length == 12 && !isConnect h.flags) = false := by
          rw [Bool.eq_false_iff]
          intro hh
          simp only [Bool.and_eq_true, beq_iff_eq, Bool.not_eq_true'] at hh
          exact h4 hh
        simp [h3, this, h4, Outcome.device]
    · simp [h1, h3, Outcome.device]

theorem messageHandler_stateChanges (fuel : Nat) (msg : List Nat) (d : Device)
    (h : 12 ≤ msg.length) :
    stateChanges (messageHandler fuel msg d).device.emitted
      = stateChanges d.emitted ++
        (if d.state = .attempting ∧ isSync (msg.headD 0 >>> 3) = true then [.establishing]
        else if d.state = .establishing ∧ msg.length = 12 ∧ isConnect (msg.headD 0 >>> 3) = false
          then [.opened]
        else []) := by
  obtain ⟨-, -, m3⟩ := messageHandler_after_new fuel msg d
  rw [m3, AtemPacket.new_long fuel msg d h]
  obtain ⟨ns, hns, hst⟩ := decodeBody_keeps fuel msg (parseHeader msg) d.nextId
    (handshake msg (parseHeader msg) (nextObject d)).device
  rw [hns]
  have := handshake_stateChanges msg (parseHeader msg) (nextObject d)
  simp only [stateChanges, List.filterMap_append] at this hst ⊢
  rw [this, hst]
  simp [nextObject, parseHeader]

theorem handshake_noop (msg : List Nat) (h : Header) (d : Device)
    (h1 : ¬ (d.state = .attempting ∧ isSync h.flags = true))
    (h2 : ¬ (d.state = .establishing ∧ msg.length = 12 ∧ isConnect h.flags = false)) :
    handshake msg h d = .done () d := by
  unfold handshake
  by_cases a1 : d.state = .attempting
  · have : isSync h.flags = false := by
      cases hs : isSync h.flags
      · rfl
      · exact absurd ⟨a1, hs⟩ h1
    simp [a1, this]
  · by_cases a2 : d.state = .establishing
    · have : (msg.length == 12 && !isConnect h.flags) = false := by
        rw [Bool.eq_false_iff]
        intro hh
        simp only [Bool.and_eq_true, beq_iff_eq, Bool.not_eq_true'] at hh
        exact h2 ⟨a2, hh⟩
      simp [a2, this]
    · simp [a1, a2]

theorem decodeBody_mismatch (fuel : Nat) (msg : List Nat) (h : Header) (id : Nat) (d : Device)
    (word : Nat) (hc : isConnect h.flags = false) (hw : readUInt16BE msg 0 = some word)
    (hm : ¬ (msg.length = word &&& 0x7FF ∧ h.uid = d.uid)) :
    decodeBody fuel msg h id d
      = .done ⟨id, h, []⟩ (emit (.error (if msg.length ≠ word &&& 0x7FF
          then .messageLengthMismatch else .uidMismatch)) d) := by
  unfold decodeBody
  have : (msg.length == word &&& 0x7FF && h.uid == d.uid) = false := by
    rw [Bool.eq_false_iff]
    intro hh
    simp only [Bool.and_eq_true, beq_iff_eq] at hh
    exact hm hh
  simp only [hc, Bool.false_eq_true, if_false, hw, this]
  by_cases hl : msg.length = word &&& 0x7FF
  · simp [hl]
  · simp [hl]

theorem Outcome.device_done {α : Type} (a : α) (d : Device) : (Outcome.done a d).device = d :=
  rfl

theorem decodeCommands_stop (fuel : Nat) (body : List Nat) (cursor : Nat) (cmds : List Command)
    (d : Device) (h : ¬ cursor < body.length - 1) :
    decodeCommands fuel body cursor cmds d = .done cmds d := by
  cases fuel <;> simp [decodeCommands, h]

/-! ### The iteration bounds of the model suffice -/

theorem Outcome.bind_ne_noFuel {α β : Type} (o : Outcome α) (f : α → Device → Outcome β)
    (ho : ∀ x, o ≠ .noFuel x) (hf : ∀ a d1, o = .done a d1 → ∀ x, f a d1 ≠ .noFuel x) :
    ∀ x, o.bind f ≠ .noFuel x := by
  cases o with
  | done a d1 => exact hf a d1 rfl
  | threw d1 => intro x h; cases h
  | noFuel d1 => exact absurd rfl (ho d1)

theorem spliceOut_length (self : Nat) (l : List Nat) :
    (spliceOut self l).length = l.length - 1 := by
  unfold spliceOut
  split
  · rename_i h
    rw [List.length_eraseIdx]
    simp [h]
  · simp

theorem markAsRead_pending_length (self : Nat) (d d1 : Device)
    (h : markAsRead self d = .done () d1) :
    d1.pendingPackets.length = d.pendingPackets.length - 1 := by
  unfold markAsRead at h
  split at h
  · cases h
  · simp only [Outcome.done.injEq, true_and] at h
    subst h
    simp only [spliceOut_length, clearTimer_pending]

theorem markAsRead_ne_noFuel (self : Nat) (d : Device) : ∀ x, markAsRead self d ≠ .noFuel x := by
  intro x h
  unfold markAsRead at h
  split at h <;> cases h

theorem removePendingLoop_ne_noFuel (fs : Option Nat) (fuel : Nat) :
    ∀ (i : Nat) (d : Device), d.pendingPackets.length ≤ i + fuel →
      ∀ x, removePendingLoop fs fuel i d ≠ .noFuel x := by
  induction fuel with
  | zero =>
    intro i d hle x h
    unfold removePendingLoop at h
    rw [if_neg (by omega)] at h
    cases h
  | succ f ih =>
    intro i d hle
    unfold removePendingLoop
    split
    · split
      · intro x h; cases h
      · split
        · intro x h; cases h
        · split
          · apply Outcome.bind_ne_noFuel _ _ (markAsRead_ne_noFuel _ _)
            intro a d1 h1
            have := markAsRead_pending_length _ _ _ h1
            exact ih (i + 1) d1 (by omega)
          · exact ih (i + 1) d (by omega)
    · intro x h; cases h

theorem removePendingPackets_ne_noFuel (packet : AtemPacket) (d : Device) :
    ∀ x, removePendingPackets packet d ≠ .noFuel x :=
  removePendingLoop_ne_noFuel _ _ 0 d (by omega)

theorem transmit_ne_noFuel (self : Nat) (d : Device) : ∀ x, transmit self d ≠ .noFuel x := by
  intro x h
  unfold transmit at h
  split at h
  · cases h
  · simp only at h
    split at h
    · unfold transmitFirst at h
      simp only at h
      split at h
      · cases h
      · split at h <;> cases h
    · unfold transmitAgain at h
      split at h <;> cases h

theorem forEachMarkAsRead_spec (n : Nat) :
    ∀ (k : Nat) (d : Device), (∀ x, forEachMarkAsRead n k d ≠ .noFuel x) ∧
      KeepsB d (forEachMarkAsRead n k d).device := by
  induction n with
  | zero => intro k d; exact ⟨(by intro x h; cases h), keepsB_refl d⟩
  | succ m ih =>
    intro k d
    unfold forEachMarkAsRead
    split
    · exact ih (k + 1) d
    · rename_i self hself
      constructor
      · apply Outcome.bind_ne_noFuel _ _ (markAsRead_ne_noFuel _ _)
        intro a d1 _
        exact (ih (k + 1) d1).1
      · apply Outcome.bind_device (KeepsB d)
        · exact markAsRead_keepsB self d
        · intro a d1 h1
          have := markAsRead_keepsB self d
          rw [h1] at this
          exact keepsB_trans this (ih (k + 1) d1).2

theorem disconnect_spec (d : Device) :
    (∀ x, disconnect d ≠ .noFuel x) ∧ ∀ d1, disconnect d = .done () d1 → d1.state = .closed := by
  unfold disconnect
  simp only
  constructor
  · apply Outcome.bind_ne_noFuel _ _ (forEachMarkAsRead_spec _ _ _).1
    intro a d2 _ x h
    rw [setState_eq] at h
    cases h
  · intro d1 h
    cases hf : forEachMarkAsRead
        (clearTimer d.communicationTimeout (clearTimer d.syncInterval d)).pendingPackets.length 0
        (clearTimer d.communicationTimeout (clearTimer d.syncInterval d)) with
    | done a d2 =>
      rw [hf] at h
      simp only [Outcome.bind, setState_eq, emit, Outcome.done.injEq, true_and] at h
      subst h
      split <;> rfl
    | threw d2 => rw [hf] at h; cases h
    | noFuel d2 => rw [hf] at h; cases h

theorem connect_ne_noFuel (rnd : Nat) (d : Device) : ∀ x, connect rnd d ≠ .noFuel x := by
  have closedCase : ∀ (n : Nat) (d0 : Device), d0.state = .closed →
      ∀ x, connectAux (n + 1) rnd d0 ≠ .noFuel x := by
    intro n d0 h0
    unfold connectAux
    simp only [h0, beq_self_eq_true, if_true]
    split
    · simp only [setState_eq, Outcome.bind, alloc]
      exact transmit_ne_noFuel _ _
    · intro x h; cases h
  by_cases hc : d.state = .closed
  · exact closedCase 1 d hc
  · unfold connect connectAux
    have : (d.state == ConnectionState.closed) = false := by simpa using hc
    simp only [this, Bool.false_eq_true, if_false]
    apply Outcome.bind_ne_noFuel _ _ (disconnect_spec d).1
    intro a d1 h1
    exact closedCase 0 d1 ((disconnect_spec d).2 d1 h1)

/-! ### Queues, retransmission and runs -/

theorem rearmSync_fields (self : Nat) (p : UserPacket) (d : Device) :
    (rearmSync self p d).heap = d.heap.set self p ∧
    (rearmSync self p d).incomingPackets = d.incomingPackets ∧
    (rearmSync self p d).commandQueue = d.commandQueue ∧
    (rearmSync self p d).sent = d.sent ∧
    (rearmSync self p d).pendingPackets = d.pendingPackets := by
  unfold rearmSync
  split
  · cases h : d.syncInterval <;> simp [setTimer, clearTimer, store]
  · simp [store]

theorem armRetransmission_fields (self : Nat) (p : UserPacket) (d : Device) :
    (armRetransmission self p d).2.heap = d.heap ∧
    (armRetransmission self p d).2.incomingPackets = d.incomingPackets ∧
    (armRetransmission self p d).2.commandQueue = d.commandQueue ∧
    (armRetransmission self p d).2.sent = d.sent ∧
    (armRetransmission self p d).2.syncInterval = d.syncInterval ∧
    (armRetransmission self p d).1.commands = p.commands ∧
    (armRetransmission self p d).1.serializedCache = p.serializedCache := by
  unfold armRetransmission
  split <;> simp [setTimer]

theorem advanceLs_fields (p : UserPacket) (d : Device) :
    (advanceLs p d).heap = d.heap ∧
    (advanceLs p d).incomingPackets = d.incomingPackets ∧
    (advanceLs p d).commandQueue = d.commandQueue ∧
    (advanceLs p d).sent = d.sent ∧
    (advanceLs p d).pendingPackets = d.pendingPackets ∧
    (advanceLs p d).syncInterval = d.syncInterval ∧
    (advanceLs p d).timers = d.timers := by
  unfold advanceLs
  split <;> simp

theorem attachQueue_fields (p : UserPacket) (d : Device) :
    (attachQueue p d).2.heap = d.heap ∧
    (attachQueue p d).2.incomingPackets = d.incomingPackets ∧
    (attachQueue p d).2.sent = d.sent ∧
    (attachQueue p d).2.pendingPackets = d.pendingPackets ∧
    (attachQueue p d).1.serializedCache = p.serializedCache := by
  unfold attachQueue
  split <;> simp

/-- What the first transmission of a packet leaves on the heap, in the queues and on the wire. -/
theorem transmitFirst_fields (self : Nat) (p : UserPacket) (d : Device) :
    (transmitFirst self p d).device.incomingPackets = d.incomingPackets ∧
    (transmitFirst self p d).device.commandQueue = (attachQueue (stamp p d) d).2.commandQueue ∧
    (∃ p1, (transmitFirst self p d).device.heap = d.heap.set self p1 ∧
      p1.commands = (attachQueue (stamp p d) d).1.commands ∧
      p1.header.fs = p.header.fs ∧ isAck p1.header.flags = isAck p.header.flags ∧
      isSync p1.header.flags = isSync p.header.flags) := by
  have h1 := attachQueue_facts (stamp p d) d
  have h2 := attachQueue_fields (stamp p d) d
  unfold transmitFirst
  simp only
  generalize attachQueue (stamp p d) d = q at h1 h2
  obtain ⟨-, -, q3⟩ := h1
  obtain ⟨g1, g2, g3, g4, g5⟩ := h2
  have hfs : q.1.header.fs = p.header.fs := by rw [q3]; unfold stamp; split <;> rfl
  have hfl : q.1.header.flags = p.header.flags := by rw [q3]; exact stamp_flags p d
  split
  · exact ⟨g2, rfl, q.1, by simp [Outcome.device, store, g1], rfl, hfs, by rw [hfl], by rw [hfl]⟩
  · rename_i cache _
    split
    · exact ⟨g2, rfl, { q.1 with serializedCache := some cache },
        by simp [Outcome.device, store, g1], rfl, hfs, by rw [hfl], by rw [hfl]⟩
    · rename_i header _
      have h3 := armRetransmission_fields self (setRepeat { q.1 with serializedCache := some cache })
          { q.2 with sent := q.2.sent ++ [header ++ cache] }
      have h4 := armRetransmission_facts self (setRepeat { q.1 with serializedCache := some cache })
          { q.2 with sent := q.2.sent ++ [header ++ cache] }
      generalize armRetransmission self (setRepeat { q.1 with serializedCache := some cache })
          { q.2 with sent := q.2.sent ++ [header ++ cache] } = r at h3 h4
      obtain ⟨r1, r2, r3, r4, r5, r6, r7⟩ := h3
      obtain ⟨-, -, r8⟩ := h4
      have a := advanceLs_fields r.1 r.2
      have b := rearmSync_fields self r.1 (advanceLs r.1 r.2)
      simp only [Outcome.device]
      refine ⟨?_, ?_, r.1, ?_, ?_, ?_, ?_, ?_⟩
      · rw [b.2.1, a.2.1, r2, g2]
      · rw [b.2.2.1, a.2.2.1, r3]
      · rw [b.1, a.1, r1, g1]
      · rw [r6]; rfl
      · rw [r8]; exact hfs
      · rw [r8]; simp only [setRepeat, isAck_testBit, Nat.testBit_or, flags.repeat_]
        rw [show Nat.testBit 4 4 = false from by decide, ← hfl]; simp
      · rw [r8]; simp only [setRepeat, isSync_or_repeat]; rw [hfl]

theorem transmitAgain_fields (self : Nat) (p : UserPacket) (d : Device) :
    (transmitAgain self p d).device.incomingPackets = d.incomingPackets ∧
    (transmitAgain self p d).device.commandQueue = d.commandQueue ∧
    (transmitAgain self p d).device.heap = d.heap.set self p := by
  unfold transmitAgain
  split
  · rename_i header cache _ _
    have b := rearmSync_fields self p { d with sent := d.sent ++ [header ++ cache] }
    simp only [Outcome.device]
    exact ⟨b.2.1, b.2.2.1, b.1⟩
  · simp [Outcome.device, store]

theorem transmit_first_eq (self : Nat) (d : Device) (p : UserPacket)
    (hp : d.heap.get? self = some p)
    (hfirst : (!d.pendingPackets.contains self && p.serializedCache.isNone) = true) :
    transmit self d = transmitFirst self (piggyback p d).1 (piggyback p d).2 := by
  obtain ⟨-, -, h3, h4, -⟩ := piggyback_facts p d
  unfold transmit
  rw [hp]
  simp only [h3, h4, hfirst, if_true]

theorem transmit_again_eq (self : Nat) (d : Device) (p : UserPacket)
    (hp : d.heap.get? self = some p)
    (hfirst : (!d.pendingPackets.contains self && p.serializedCache.isNone) = false) :
    transmit self d = transmitAgain self (piggyback p d).1 (piggyback p d).2 := by
  obtain ⟨-, -, h3, h4, -⟩ := piggyback_facts p d
  unfold transmit
  rw [hp]
  simp only [h3, h4, hfirst, Bool.false_eq_true, if_false]

theorem writeUInt16BE_length (buf : List Nat) (v : Option Nat) (o : Nat) (b : List Nat)
    (h : writeUInt16BE buf v o = some b) : b.length = buf.length := by
  unfold writeUInt16BE at h
  split at h
  · cases h
  · cases h; simp

theorem fill_length (buf : List Nat) (v a b : Nat) (hab : a ≤ b) (hb : b ≤ buf.length) :
    (fill buf v a b).length = buf.length := by
  unfold fill
  simp only [List.length_append, List.length_take, List.length_replicate, List.length_drop]
  omega

theorem headerSerialize_length (h : Header) (cmds : List BodyItem) (b : List Nat)
    (hb : headerSerialize h cmds = some b) : b.length = 12 := by
  unfold headerSerialize at hb
  split at hb
  · cases hb
  · rename_i b0 h0
    have l0 := writeUInt16BE_length _ _ _ _ h0
    split at hb
    · cases hb
    · rename_i b1 h1
      have l1 := writeUInt16BE_length _ _ _ _ h1
      simp only [List.length_set, newBuffer, List.length_replicate] at l0 l1
      rw [l0] at l1
      split at hb
      · cases hb
      · rename_i b2 h2
        have l2 : b2.length = 12 := by
          split at h2
          · rw [writeUInt16BE_length _ _ _ _ h2, l1]
          · cases h2; exact l1
        split at hb
        · rw [writeUInt16BE_length _ _ _ _ hb, fill_length _ _ _ _ (by omega) (by omega), l2]
        · cases hb
          rw [fill_length _ _ _ _ (by omega) (by omega), l2]

/-- A first transmission that returns: what went on the wire and what the object holds. -/
theorem transmitFirst_done (self : Nat) (p : UserPacket) (d d1 : Device)
    (h : transmitFirst self p d = .done () d1) :
    ∃ hb body p1,
      bodySerialize (attachQueue (stamp p d) d).1.commands = some body ∧
      headerSerialize (attachQueue (stamp p d) d).1.header (attachQueue (stamp p d) d).1.commands
        = some hb ∧
      d1.sent = d.sent ++ [hb ++ body] ∧ d1.heap = d.heap.set self p1 ∧
      p1.header = { (stamp p d).header with flags := p.header.flags ||| flags.repeat_ } ∧
      p1.commands = (attachQueue (stamp p d) d).1.commands ∧ p1.serializedCache = some body := by
  have h1 := attachQueue_facts (stamp p d) d
  have h2 := attachQueue_fields (stamp p d) d
  unfold transmitFirst at h
  simp only at h
  generalize attachQueue (stamp p d) d = q at h1 h2 h ⊢
  obtain ⟨-, -, q3⟩ := h1
  obtain ⟨g1, g2, g3, g4, g5⟩ := h2
  split at h
  · cases h
  · rename_i cache hc
    split at h
    · cases h
    · rename_i header hh
      have h3 := armRetransmission_fields self (setRepeat { q.1 with serializedCache := some cache })
          { q.2 with sent := q.2.sent ++ [header ++ cache] }
      have h4 := armRetransmission_facts self (setRepeat { q.1 with serializedCache := some cache })
          { q.2 with sent := q.2.sent ++ [header ++ cache] }
      generalize armRetransmission self (setRepeat { q.1 with serializedCache := some cache })
          { q.2 with sent := q.2.sent ++ [header ++ cache] } = r at h3 h4 h
      obtain ⟨r1, r2, r3, r4, r5, r6, r7⟩ := h3
      obtain ⟨-, -, r8⟩ := h4
      have a := advanceLs_fields r.1 r.2
      have b := rearmSync_fields self r.1 (advanceLs r.1 r.2)
      simp only [Outcome.done.injEq, true_and] at h
      subst h
      refine ⟨header, cache, r.1, hc, hh, ?_, ?_, ?_, ?_, ?_⟩
      · rw [b.2.2.2.1, a.2.2.2.1, r4, g3]
      · rw [b.1, a.1, r1, g1]
      · rw [r8]; simp only [setRepeat, q3, stamp_flags]
      · rw [r6]; rfl
      · rw [r7]; rfl

theorem transmit_heap_get (self : Nat) (d : Device) (p : UserPacket)
    (hp : d.heap.get? self = some p) :
    (transmit self d).device.incomingPackets = (piggyback p d).2.incomingPackets ∧
    ∃ p1, (transmit self d).device.heap.get? self = some p1 ∧
      p1.header.fs = (piggyback p d).1.header.fs ∧
      isAck p1.header.flags = isAck (piggyback p d).1.header.flags := by
  have hlt : self < d.heap.length := by
    rw [List.get?_eq_some] at hp
    exact hp.1
  have hh : (piggyback p d).2.heap = d.heap := by
    unfold piggyback; split
    · split <;> rfl
    · rfl
  cases hfirst : (!d.pendingPackets.contains self && p.serializedCache.isNone)
  · rw [transmit_again_eq self d p hp hfirst]
    obtain ⟨a1, -, a3⟩ := transmitAgain_fields self (piggyback p d).1 (piggyback p d).2
    refine ⟨a1, (piggyback p d).1, ?_, rfl, rfl⟩
    rw [a3, hh, List.get?_eq_getElem?, List.getElem?_set_self hlt]
  · rw [transmit_first_eq self d p hp hfirst]
    obtain ⟨a1, -, p1, a3, -, a5, a6, -⟩ := transmitFirst_fields self (piggyback p d).1 (piggyback p d).2
    refine ⟨a1, p1, ?_, a5, a6⟩
    rw [a3, hh, List.get?_eq_getElem?, List.getElem?_set_self hlt]

theorem piggyback_fields (p : UserPacket) (d : Device) :
    (piggyback p d).2.heap = d.heap ∧ (piggyback p d).2.commandQueue = d.commandQueue ∧
    (piggyback p d).2.sent = d.sent ∧ (piggyback p d).2.uid = d.uid ∧
    (piggyback p d).1.commands = p.commands ∧ (piggyback p d).1.header.ls = p.header.ls ∧
    (piggyback p d).1.header.uid = p.header.uid ∧
    (piggyback p d).2.timers = d.timers ∧ (piggyback p d).2.syncInterval = d.syncInterval := by
  unfold piggyback
  split
  · split <;> simp
  · simp

/-- The flush of `transmit`: when it applies, and what it moves. -/
theorem attachQueue_stamp (p : UserPacket) (d : Device) :
    attachQueue (stamp p d) d
      = if d.state == .opened && isSync p.header.flags && decide (0 < d.ls)
            && decide (0 < d.commandQueue.length) then
          ({ stamp p d with commands := p.commands ++ d.commandQueue.map .cmd },
            { d with commandQueue := [] })
        else (stamp p d, d) := by
  unfold attachQueue
  rw [stamp_flags]
  cases hs : isSync p.header.flags
  · simp
  · have e : (stamp p d).header.ls = some d.ls := by
      unfold stamp; rw [hs]; rfl
    have c : (stamp p d).commands = p.commands := by
      unfold stamp; split <;> rfl
    rw [e, c]
    rfl


/-- The first transmission of a packet, in terms of the packet and device before the call:
whether the queue is flushed, and what the object and the queue hold afterwards. -/
theorem transmit_first_queue (self : Nat) (d : Device) (p : UserPacket)
    (hp : d.heap.get? self = some p)
    (hfirst : (!d.pendingPackets.contains self && p.serializedCache.isNone) = true) :
    (transmit self d).device.commandQueue
      = (if d.state == .opened && isSync p.header.flags && decide (0 < d.ls)
            && decide (0 < d.commandQueue.length) then [] else d.commandQueue) ∧
    ∃ p1, (transmit self d).device.heap.get? self = some p1 ∧
      p1.commands = (if d.state == .opened && isSync p.header.flags && decide (0 < d.ls)
            && decide (0 < d.commandQueue.length) then p.commands ++ d.commandQueue.map .cmd
          else p.commands) := by
  have hlt : self < d.heap.length := by
    rw [List.get?_eq_some] at hp
    exact hp.1
  obtain ⟨f1, f2, -, -, f5⟩ := piggyback_facts p d
  obtain ⟨g1, g2, -, -, g5, -⟩ := piggyback_fields p d
  rw [transmit_first_eq self d p hp hfirst]
  obtain ⟨-, a2, p1, a3, a4, -⟩ := transmitFirst_fields self (piggyback p d).1 (piggyback p d).2
  rw [attachQueue_stamp, f1, f2, f5, g2, g5] at a2 a4
  constructor
  · rw [a2]; split <;> simp [g2]
  · refine ⟨p1, ?_, ?_⟩
    · rw [a3, g1, List.get?_eq_getElem?, List.getElem?_set_self hlt]
    · rw [a4]; split
      · rfl
      · unfold stamp; split <;> exact g5

theorem sendCommand_fields (cmd : Command) (d : Device) :
    (sendCommand cmd d).commandQueue = d.commandQueue ++ [cmd] ∧
    (sendCommand cmd d).sent = d.sent ∧ (sendCommand cmd d).heap = d.heap ∧
    (sendCommand cmd d).pendingPackets = d.pendingPackets ∧
    (sendCommand cmd d).incomingPackets = d.incomingPackets ∧
    (sendCommand cmd d).ls = d.ls ∧ (sendCommand cmd d).state = d.state ∧
    (sendCommand cmd d).uid = d.uid ∧ (sendCommand cmd d).emitted = d.emitted ∧
    (sendCommand cmd d).syncInterval = d.syncInterval ∧
    (sendCommand cmd d).communicationTimeout = d.communicationTimeout ∧
    (sendCommand cmd d).nextTicks = d.nextTicks ∧ (sendCommand cmd d).ip = d.ip ∧
    (sendCommand cmd d).socket = d.socket := by
  unfold sendCommand
  simp only
  split <;> simp [setTimer]

theorem connectAux_closed (n rnd : Nat) (d : Device) (hclosed : d.state = .closed) :
    connectAux (n + 1) rnd d = connect rnd d := by
  unfold connect
  rw [connectAux, connectAux]
  simp only [hclosed, beq_self_eq_true, if_true]

theorem connect_open (rnd : Nat) (d : Device) (h : d.state ≠ .closed) :
    connect rnd d = (disconnect d).bind fun _ d1 => connect rnd d1 := by
  have hs : (d.state == ConnectionState.closed) = false := by simpa using h
  cases hd : disconnect d with
  | done a d1 =>
    have hc := (disconnect_spec d).2 d1 (by rw [hd])
    conv => lhs; unfold connect; unfold connectAux
    simp only [hs, Bool.false_eq_true, if_false, hd, Outcome.bind]
    exact connectAux_closed 0 rnd d1 hc
  | threw d1 =>
    conv => lhs; unfold connect; unfold connectAux
    simp only [hs, Bool.false_eq_true, if_false, hd, Outcome.bind]
  | noFuel d1 =>
    conv => lhs; unfold connect; unfold connectAux
    simp only [hs, Bool.false_eq_true, if_false, hd, Outcome.bind]

theorem spliceOut_subset (self : Nat) (l : List Nat) : ∀ x ∈ spliceOut self l, x ∈ l := by
  intro x hx
  unfold spliceOut at hx
  split at hx
  · exact (List.eraseIdx_sublist l _).subset hx
  · exact (List.dropLast_sublist l).subset hx

theorem markAsRead_done (self : Nat) (d : Device) (h : self < d.heap.length) :
    ∃ d1, markAsRead self d = .done () d1 ∧ (∀ x ∈ d1.pendingPackets, x ∈ d.pendingPackets) := by
  unfold markAsRead
  have : ∃ p, d.heap.get? self = some p := ⟨d.heap.get ⟨self, h⟩, List.get?_eq_get h⟩
  obtain ⟨p, hp⟩ := this
  rw [hp]
  refine ⟨_, rfl, ?_⟩
  intro x hx
  have := spliceOut_subset _ _ x hx
  rw [clearTimer_pending, clearTimer_pending] at this
  exact this

theorem forEachMarkAsRead_done (n : Nat) :
    ∀ (k : Nat) (d : Device), (∀ x ∈ d.pendingPackets, x < d.heap.length) →
      ∃ d1, forEachMarkAsRead n k d = .done () d1 ∧
        (∀ x ∈ d1.pendingPackets, x ∈ d.pendingPackets) := by
  induction n with
  | zero => intro k d _; exact ⟨d, rfl, fun x hx => hx⟩
  | succ m ih =>
    intro k d hv
    unfold forEachMarkAsRead
    split
    · exact ih (k + 1) d hv
    · rename_i self hself
      have hmem : self ∈ d.pendingPackets := List.get?_mem hself
      obtain ⟨d1, h1, s1⟩ := markAsRead_done self d (hv self hmem)
      have kb := markAsRead_keepsB self d
      rw [h1] at kb
      simp only [Outcome.device] at kb
      have hv1 : ∀ x ∈ d1.pendingPackets, x < d1.heap.length := by
        intro x hx
        rw [kb.2.2.2.2.1]
        exact hv x (s1 x hx)
      obtain ⟨d2, h2, s2⟩ := ih (k + 1) d1 hv1
      rw [h1]
      exact ⟨d2, h2, fun x hx => s1 x (s2 x hx)⟩


/-- What `disconnect` leaves untouched, however it ends. -/
theorem disconnect_fields (d : Device) :
    (disconnect d).device.ls = d.ls ∧
    (disconnect d).device.incomingPackets = d.incomingPackets ∧
    (disconnect d).device.commandQueue = d.commandQueue ∧
    (disconnect d).device.heap = d.heap ∧ (disconnect d).device.sent = d.sent ∧
    (disconnect d).device.uid = d.uid ∧ (disconnect d).device.ip = d.ip ∧
    (disconnect d).device.commandTimer = d.commandTimer ∧
    (disconnect d).device.nextTicks = d.nextTicks := by
  have c : KeepsB d (clearTimer d.communicationTimeout (clearTimer d.syncInterval d)) :=
    keepsB_trans (clearTimer_keepsB _ _) (clearTimer_keepsB _ _)
  have f := (forEachMarkAsRead_spec
    (clearTimer d.communicationTimeout (clearTimer d.syncInterval d)).pendingPackets.length 0
    (clearTimer d.communicationTimeout (clearTimer d.syncInterval d))).2
  have k := keepsB_trans c f
  unfold disconnect
  simp only
  generalize forEachMarkAsRead
    (clearTimer d.communicationTimeout (clearTimer d.syncInterval d)).pendingPackets.length 0
    (clearTimer d.communicationTimeout (clearTimer d.syncInterval d)) = o at k
  cases o with
  | done a d2 =>
    simp only [Outcome.device] at k
    obtain ⟨⟨-, k2, -, k4, -, k6, k7, -⟩, k9, k10, k11, k12, k13, -, -⟩ := k
    simp only [Outcome.bind, setState_eq, emit, Outcome.device]
    split <;> exact ⟨k9, k10, k11, k12, k13, k2, k6, k7, k4⟩
  | threw d2 =>
    simp only [Outcome.device] at k
    obtain ⟨⟨-, k2, -, k4, -, k6, k7, -⟩, k9, k10, k11, k12, k13, -, -⟩ := k
    exact ⟨k9, k10, k11, k12, k13, k2, k6, k7, k4⟩
  | noFuel d2 =>
    simp only [Outcome.device] at k
    obtain ⟨⟨-, k2, -, k4, -, k6, k7, -⟩, k9, k10, k11, k12, k13, -, -⟩ := k
    exact ⟨k9, k10, k11, k12, k13, k2, k6, k7, k4⟩

/-- A `disconnect` on a device whose pending references are objects of the heap returns, and
emits one state change. -/
theorem disconnect_done (d : Device) (hv : ∀ x ∈ d.pendingPackets, x < d.heap.length) :
    ∃ d1, disconnect d = .done () d1 ∧ d1.state = .closed ∧
      d1.emitted = d.emitted ++ [.connectionStateChange .closed] ∧
      (∀ x ∈ d1.pendingPackets, x ∈ d.pendingPackets) := by
  have c : KeepsB d (clearTimer d.communicationTimeout (clearTimer d.syncInterval d)) :=
    keepsB_trans (clearTimer_keepsB _ _) (clearTimer_keepsB _ _)
  have hp : (clearTimer d.communicationTimeout (clearTimer d.syncInterval d)).pendingPackets
      = d.pendingPackets := by rw [clearTimer_pending, clearTimer_pending]
  have hv1 : ∀ x ∈ (clearTimer d.communicationTimeout (clearTimer d.syncInterval d)).pendingPackets,
      x < (clearTimer d.communicationTimeout (clearTimer d.syncInterval d)).heap.length := by
    intro x hx
    rw [c.2.2.2.2.1]
    rw [hp] at hx
    exact hv x hx
  obtain ⟨d2, h2, s2⟩ := forEachMarkAsRead_done
    (clearTimer d.communicationTimeout (clearTimer d.syncInterval d)).pendingPackets.length 0 _ hv1
  have f := (forEachMarkAsRead_spec
    (clearTimer d.communicationTimeout (clearTimer d.syncInterval d)).pendingPackets.length 0
    (clearTimer d.communicationTimeout (clearTimer d.syncInterval d))).2
  rw [h2] at f
  have k := keepsB_trans c f
  simp only [Outcome.device] at k
  unfold disconnect
  simp only [h2, Outcome.bind, setState_eq, emit]
  refine ⟨_, rfl, ?_, ?_, ?_⟩
  · split <;> rfl
  · split <;> simp [k.1.2.2.1]
  · intro x hx
    rw [← hp]
    apply s2
    revert hx
    split <;> exact fun h => h


theorem transmitFirst_returns (self : Nat) (p : UserPacket) (d : Device) (hb body : List Nat)
    (h1 : bodySerialize (attachQueue (stamp p d) d).1.commands = some body)
    (h2 : headerSerialize (attachQueue (stamp p d) d).1.header
      (attachQueue (stamp p d) d).1.commands = some hb) :
    ∃ d1, transmitFirst self p d = .done () d1 := by
  unfold transmitFirst
  simp only [h1, h2]
  exact ⟨_, rfl⟩

theorem transmit_connect_packet (self rnd : Nat) (D : Device)
    (hp : D.heap.get? self = some (UserPacket.new .null)) (hnew : self ∉ D.pendingPackets)
    (hstate : D.state = .attempting) (huid : D.uid = some rnd) (hls : D.ls = 0)
    (hrnd : rnd ≤ 0xFFFF)
    (hin : ∀ a ∈ D.incomingPackets, ∃ n, a.header.ls = some n ∧ n ≤ 0xFFFF) :
    ∃ d1, transmit self D = .done () d1 ∧
      d1.sent = D.sent ++ [match D.incomingPackets with
        | [] => connectDatagram flags.connect rnd 0
        | a :: _ => connectDatagram (flags.connect ||| flags.ack) rnd (a.header.ls.getD 0)] := by
  have hfirst : (!D.pendingPackets.contains self
      && (UserPacket.new .null).serializedCache.isNone) = true := by
    simpa [UserPacket.new] using hnew
  rw [transmit_first_eq _ _ _ hp hfirst]
  obtain ⟨f1, f2, -, -, f5⟩ := piggyback_facts (UserPacket.new .null) D
  obtain ⟨-, g2, g3, g4, g5, g6, -⟩ := piggyback_fields (UserPacket.new .null) D
  have hq : attachQueue (stamp (piggyback (UserPacket.new .null) D).1 (piggyback (UserPacket.new .null) D).2)
      (piggyback (UserPacket.new .null) D).2
      = (stamp (piggyback (UserPacket.new .null) D).1 (piggyback (UserPacket.new .null) D).2,
        (piggyback (UserPacket.new .null) D).2) := by
    rw [attachQueue_stamp, f2, hstate]; rfl
  have hc : (stamp (piggyback (UserPacket.new .null) D).1 (piggyback (UserPacket.new .null) D).2).commands
      = [.connectCmd] := by
    unfold stamp; split <;> exact g5
  have e1 : bodySerialize (attachQueue (stamp (piggyback (UserPacket.new .null) D).1
      (piggyback (UserPacket.new .null) D).2) (piggyback (UserPacket.new .null) D).2).1.commands
      = some [1, 0, 0, 0, 0, 0, 0, 0] := by
    rw [hq, hc]; rfl
  have m1 : (2 : Nat) &&& 4294967279 = 2 := by decide
  have m2 : (2 : Nat) ||| 16 = 18 := by decide
  have m3 : (18 : Nat) &&& 2 = 2 := by decide
  have m4 : (2 : Nat) &&& 2 = 2 := by decide
  have m5 : (18 : Nat) &&& 16 = 16 := by decide
  cases hI : D.incomingPackets with
  | nil =>
    have hh : (stamp (piggyback (UserPacket.new .null) D).1 (piggyback (UserPacket.new .null) D).2).header
        = ⟨flags.connect, some rnd, some 0, some 0⟩ := by
      simp [stamp, piggyback, hI, UserPacket.new, isAck, isSync, isConnect, flags.connect,
        flags.ack, flags.sync, huid, hls, m1, m2, m3, m4]
    have e2 := headerSerialize_eq 20 flags.connect rnd 0 0 [.connectCmd] (by rfl) (by omega) hrnd
      (by omega) (by omega)
    obtain ⟨d1, hd⟩ := transmitFirst_returns self _ _ _ _ e1 (by rw [hq, hc, hh]; exact e2)
    obtain ⟨hb, body, p1, b1, b2, b3, -⟩ := transmitFirst_done self _ _ d1 hd
    rw [e1] at b1
    rw [hq, hc, hh, e2] at b2
    cases b1; cases b2
    refine ⟨d1, hd, ?_⟩
    rw [b3, g3]
    simp [connectDatagram, isAck, isSync, isConnect, flags.connect, flags.ack, flags.sync]
  | cons a rest =>
    obtain ⟨n, hn, hn2⟩ := hin a (by rw [hI]; simp)
    have hh : (stamp (piggyback (UserPacket.new .null) D).1 (piggyback (UserPacket.new .null) D).2).header
        = ⟨flags.connect ||| flags.ack, some rnd, some 0, some n⟩ := by
      simp [stamp, piggyback, hI, UserPacket.new, isAck, isSync, isConnect, flags.connect,
        flags.ack, flags.sync, huid, hls, hn, m1, m2, m3, m4]
    have e2 := headerSerialize_eq 20 (flags.connect ||| flags.ack) rnd n 0 [.connectCmd] (by rfl)
      (by omega) hrnd hn2 (by omega)
    obtain ⟨d1, hd⟩ := transmitFirst_returns self _ _ _ _ e1 (by rw [hq, hc, hh]; exact e2)
    obtain ⟨hb, body, p1, b1, b2, b3, -⟩ := transmitFirst_done self _ _ d1 hd
    rw [e1] at b1
    rw [hq, hc, hh, e2] at b2
    cases b1; cases b2
    refine ⟨d1, hd, ?_⟩
    rw [b3, g3]
    simp [connectDatagram, isAck, isSync, isConnect, flags.connect, flags.ack, flags.sync, hn, m5]

/-- A `connect` on a closed device with an address sends the connect packet, with the ack of
the oldest unacknowledged inbound packet when there is one. -/
theorem connect_closed_done (rnd : Nat) (d : Device) (hclosed : d.state = .closed)
    (hip : ipTruthy d.ip = true) (hv : ∀ x ∈ d.pendingPackets, x < d.heap.length)
    (hrnd : rnd ≤ 0xFFFF)
    (hin : ∀ a ∈ d.incomingPackets, ∃ n, a.header.ls = some n ∧ n ≤ 0xFFFF) :
    ∃ d1, connect rnd d = .done () d1 ∧
      d1.sent = d.sent ++ [match d.incomingPackets with
        | [] => connectDatagram flags.connect rnd 0
        | a :: _ => connectDatagram (flags.connect ||| flags.ack) rnd (a.header.ls.getD 0)] := by
  rw [connect_closed rnd d hclosed hip]
  have hnew : ¬ d.heap.length ∈ d.pendingPackets := fun h => Nat.lt_irrefl _ (hv _ h)
  exact transmit_connect_packet d.heap.length rnd _ (by simp) hnew rfl rfl rfl hrnd hin

/-- A transmission leaves the command queue as it was, unless it is the first transmission of a
sync packet by an open session with a counter above 0, which empties it. -/
theorem transmit_queue (self : Nat) (d : Device) :
    (transmit self d).device.commandQueue = d.commandQueue ∨
    ((transmit self d).device.commandQueue = [] ∧ d.state = .opened ∧ 0 < d.ls ∧
      ∃ p, d.heap.get? self = some p ∧ isSync p.header.flags = true ∧
        self ∉ d.pendingPackets ∧ p.serializedCache = none) := by
  cases hp : d.heap.get? self with
  | none => left; unfold transmit; rw [hp]; rfl
  | some p =>
    cases hfirst : (!d.pendingPackets.contains self && p.serializedCache.isNone)
    · left
      rw [transmit_again_eq self d p hp hfirst, (transmitAgain_fields _ _ _).2.1]
      exact (piggyback_fields p d).2.1
    · obtain ⟨k1, -⟩ := transmit_first_queue self d p hp hfirst
      by_cases hc : (d.state == .opened && isSync p.header.flags && decide (0 < d.ls)
            && decide (0 < d.commandQueue.length)) = true
      · right
        rw [k1, if_pos hc]
        simp only [Bool.and_eq_true, beq_iff_eq, decide_eq_true_eq] at hc
        simp only [Bool.and_eq_true, Bool.not_eq_true', Option.isNone_iff_eq_none] at hfirst
        refine ⟨rfl, hc.1.1.1, hc.1.2, p, rfl, hc.1.1.2, ?_, hfirst.2⟩
        simpa using hfirst.1
      · left
        rw [k1, if_neg hc]

theorem connect_queue (rnd : Nat) (d : Device) :
    (connect rnd d).device.commandQueue = d.commandQueue := by
  have key : ∀ (self : Nat) (D : Device), D.state = .attempting →
      (transmit self D).device.commandQueue = D.commandQueue := by
    intro self D hD
    rcases transmit_queue self D with h | h
    · exact h
    · rw [hD] at h; exact absurd h.2.1 (by simp)
  have closedCase : ∀ d0 : Device, d0.state = .closed →
      (connect rnd d0).device.commandQueue = d0.commandQueue := by
    intro d0 h0
    by_cases hip : ipTruthy d0.ip = true
    · rw [connect_closed rnd d0 h0 hip]
      exact key _ _ rfl
    · unfold connect connectAux
      simp only [h0, beq_self_eq_true, if_true, hip, Bool.false_eq_true, if_false]
      rfl
  by_cases hc : d.state = .closed
  · exact closedCase d hc
  · rw [connect_open rnd d hc]
    have f := disconnect_fields d
    cases hd : disconnect d with
    | done a d1 =>
      rw [hd] at f
      simp only [Outcome.bind]
      rw [closedCase d1 ((disconnect_spec d).2 d1 hd)]
      exact f.2.2.1
    | threw d1 => rw [hd] at f; exact f.2.2.1
    | noFuel d1 => rw [hd] at f; exact f.2.2.1

/-- A `connect` on a closed device with an address takes the oldest unacknowledged inbound
packet for the ack of its connect packet. -/
theorem connect_closed_incoming (rnd : Nat) (d : Device) (hclosed : d.state = .closed)
    (hip : ipTruthy d.ip = true) :
    (connect rnd d).device.incomingPackets = d.incomingPackets.tail := by
  rw [connect_closed rnd d hclosed hip]
  have key : ∀ (self : Nat) (D : Device), D.heap.get? self = some (UserPacket.new .null) →
      (transmit self D).device.incomingPackets = D.incomingPackets.tail := by
    intro self D hD
    rw [(transmit_heap_get self D _ hD).1]
    unfold piggyback
    rw [if_pos (by decide)]
    cases h : D.incomingPackets
    · simp [h]
    · simp
  exact key _ _ (by simp)

theorem writeUInt16BE_opt (buf : List Nat) (v : Option Nat) (offset : Nat)
    (hv : v.getD 0 ≤ 0xFFFF) (ho : offset + 2 ≤ buf.length) :
    writeUInt16BE buf v offset
      = some ((buf.set offset (v.getD 0 / 256)).set (offset + 1) (v.getD 0 % 256)) := by
  unfold writeUInt16BE
  rw [if_neg]
  omega

/-- The header bytes in general: byte 0 mixes the high byte of the length with the flags. -/
theorem headerSerialize_general (h : Header) (cmds : List BodyItem)
    (hL : packetLength cmds ≤ 0xFFFF) (hu : h.uid.getD 0 ≤ 0xFFFF)
    (hf : isAck h.flags = true → h.fs.getD 0 ≤ 0xFFFF)
    (hl : (isSync h.flags || isConnect h.flags) = true → h.ls.getD 0 ≤ 0xFFFF) :
    headerSerialize h cmds =
      some [(packetLength cmds / 256 ||| h.flags <<< 3) % 256, packetLength cmds % 256,
        h.uid.getD 0 / 256, h.uid.getD 0 % 256,
        if isAck h.flags then h.fs.getD 0 / 256 else 0,
        if isAck h.flags then h.fs.getD 0 % 256 else 0, 0, 0, 0, 0,
        if isSync h.flags || isConnect h.flags then h.ls.getD 0 / 256 else 0,
        if isSync h.flags || isConnect h.flags then h.ls.getD 0 % 256 else 0] := by
  unfold headerSerialize
  rw [newBuffer, writeUInt16BE_opt _ _ _ (by simpa using hL) (by simp)]
  simp only [List.replicate, List.set, List.getD_cons_zero, Option.getD_some]
  rw [writeUInt16BE_opt _ _ _ hu (by simp)]
  simp only [List.set]
  cases hA : isAck h.flags <;> cases hS : (isSync h.flags || isConnect h.flags)
  · simp [fill]
  · simp only [Bool.false_eq_true, if_false, if_true, fill]
    rw [writeUInt16BE_opt _ _ _ (hl hS) (by simp)]
    simp
  · simp only [Bool.false_eq_true, if_false, if_true]
    rw [writeUInt16BE_opt _ _ _ (hf hA) (by simp)]
    simp [fill]
  · simp only [if_true]
    rw [writeUInt16BE_opt _ _ _ (hf hA) (by simp)]
    simp only [fill, List.set]
    rw [writeUInt16BE_opt _ _ _ (hl hS) (by simp)]
    simp

/-- The byte 0 of a header sees the bits 0 to 4 of the flags only. -/
theorem byte0_mod (x f : Nat) : (x ||| f <<< 3) % 256 = (x ||| (f % 32) <<< 3) % 256 := by
  apply Nat.eq_of_testBit_eq
  intro i
  rw [show (256 : Nat) = 2 ^ 8 from rfl, show (32 : Nat) = 2 ^ 5 from rfl]
  simp only [Nat.testBit_mod_two_pow, Nat.testBit_or, Nat.testBit_shiftLeft]
  by_cases h8 : i < 8
  · by_cases h3 : 3 ≤ i
    · have : i - 3 < 5 := by omega
      simp [h8, h3, this]
    · simp [h8, h3]
  · simp [h8]

theorem byte0_repeat (x f : Nat) :
    (x ||| (f ||| flags.repeat_) <<< 3) % 256 = (x ||| f <<< 3) % 256 ||| 0x20 := by
  apply Nat.eq_of_testBit_eq
  intro i
  rw [show (256 : Nat) = 2 ^ 8 from rfl, flags.repeat_]
  simp only [Nat.testBit_mod_two_pow, Nat.testBit_or, Nat.testBit_shiftLeft]
  by_cases h8 : i < 8
  · have a0 : Nat.testBit 32 0 = false := by decide
    have a1 : Nat.testBit 32 1 = false := by decide
    have a2 : Nat.testBit 32 2 = false := by decide
    have a3 : Nat.testBit 32 3 = false := by decide
    have a4 : Nat.testBit 32 4 = false := by decide
    have a5 : Nat.testBit 32 5 = true := by decide
    have a6 : Nat.testBit 32 6 = false := by decide
    have a7 : Nat.testBit 32 7 = false := by decide
    have b0 : Nat.testBit 4 0 = false := by decide
    have b1 : Nat.testBit 4 1 = false := by decide
    have b2 : Nat.testBit 4 2 = true := by decide
    have b3 : Nat.testBit 4 3 = false := by decide
    have b4 : Nat.testBit 4 4 = false := by decide
    interval_cases i <;> simp [a0, a1, a2, a3, a4, a5, a6, a7, b0, b1, b2, b3, b4]
  · have h32 : Nat.testBit 32 i = false :=
      Nat.testBit_lt_two_pow (lt_of_lt_of_le (by decide : 32 < 2 ^ 8)
        (Nat.pow_le_pow_right (by decide) (by omega)))
    simp [h8, h32]


theorem writeUInt16BE_inv (buf : List Nat) (v : Option Nat) (o : Nat) (b : List Nat)
    (h : writeUInt16BE buf v o = some b) : v.getD 0 ≤ 0xFFFF := by
  unfold writeUInt16BE at h
  split at h
  · cases h
  · omega

/-- A header that serializes holds values that fit its fields. -/
theorem headerSerialize_inv (h : Header) (cmds : List BodyItem) (b : List Nat)
    (hb : headerSerialize h cmds = some b) :
    packetLength cmds ≤ 0xFFFF ∧ h.uid.getD 0 ≤ 0xFFFF ∧
    (isAck h.flags = true → h.fs.getD 0 ≤ 0xFFFF) ∧
    ((isSync h.flags || isConnect h.flags) = true → h.ls.getD 0 ≤ 0xFFFF) := by
  unfold headerSerialize at hb
  split at hb
  · cases hb
  · rename_i b0 h0
    have l0 := writeUInt16BE_inv _ _ _ _ h0
    split at hb
    · cases hb
    · rename_i b1 h1
      have l1 := writeUInt16BE_inv _ _ _ _ h1
      split at hb
      · cases hb
      · rename_i b2 h2
        refine ⟨by simpa using l0, l1, ?_, ?_⟩
        · intro ha
          rw [if_pos ha] at h2
          exact writeUInt16BE_inv _ _ _ _ h2
        · intro hs
          rw [if_pos hs] at hb
          exact writeUInt16BE_inv _ _ _ _ hb

/-- The three tests of a flags word see its bits 0, 1 and 4. -/
theorem flags_mod (f g : Nat) (h : f % 32 = g % 32) :
    isSync f = isSync g ∧ isConnect f = isConnect g ∧ isAck f = isAck g := by
  rw [isSync_eq, isSync_eq, isConnect_eq, isConnect_eq, isAck_eq, isAck_eq]
  refine ⟨?_, ?_, ?_⟩ <;> congr 1 <;> apply propext <;> omega

theorem or_repeat_tests (f : Nat) :
    isSync (f ||| flags.repeat_) = isSync f ∧ isConnect (f ||| flags.repeat_) = isConnect f ∧
    isAck (f ||| flags.repeat_) = isAck f := by
  simp only [isSync_testBit, isConnect_testBit, isAck_testBit, Nat.testBit_or, flags.repeat_]
  rw [show Nat.testBit 4 0 = false from by decide, show Nat.testBit 4 1 = false from by decide,
    show Nat.testBit 4 4 = false from by decide]
  simp

/-- Clearing the ack bit of a word that has none leaves its bits 0 to 4 as they were. -/
theorem and_notAck_mod (f : Nat) (h : isAck f = false) :
    (f &&& (0xFFFFFFFF - flags.ack)) % 32 = f % 32 := by
  rw [isAck_testBit] at h
  apply Nat.eq_of_testBit_eq
  intro i
  rw [show (32 : Nat) = 2 ^ 5 from rfl, flags.ack]
  simp only [Nat.testBit_mod_two_pow, Nat.testBit_and]
  by_cases h5 : i < 5
  · have a0 : Nat.testBit (0xFFFFFFFF - 16) 0 = true := by decide
    have a1 : Nat.testBit (0xFFFFFFFF - 16) 1 = true := by decide
    have a2 : Nat.testBit (0xFFFFFFFF - 16) 2 = true := by decide
    have a3 : Nat.testBit (0xFFFFFFFF - 16) 3 = true := by decide
    have a4 : Nat.testBit (0xFFFFFFFF - 16) 4 = false := by decide
    interval_cases i <;> simp [a0, a1, a2, a3, a4, h]
  · simp [h5]

/-- A retransmission that has no ack to take sends the bytes of the first transmission with
the repeat bit set. -/
theorem transmit_again_same (self : Nat) (d2 : Device) (p1 : UserPacket) (H : Header)
    (hb body : List Nat)
    (hget : d2.heap.get? self = some p1) (hcache : p1.serializedCache = some body)
    (hH : p1.header = { H with flags := H.flags ||| flags.repeat_ })
    (hhb : headerSerialize H p1.commands = some hb)
    (hquiet : isAck H.flags = true ∨ d2.incomingPackets = []) :
    ∃ d3, transmit self d2 = .done () d3 ∧ d3.sent = d2.sent ++ [withRepeat (hb ++ body)] ∧
      d3.incomingPackets = d2.incomingPackets := by
  have hfirst : (!d2.pendingPackets.contains self && p1.serializedCache.isNone) = false := by
    rw [hcache]; simp
  obtain ⟨i1, i2, i3, i4⟩ := headerSerialize_inv H p1.commands hb hhb
  obtain ⟨t1, t2, t3⟩ := or_repeat_tests H.flags
  have n1 := headerSerialize_general H p1.commands i1 i2 i3 i4
  rw [hhb] at n1
  simp only [Option.some.injEq] at n1
  -- the header of the retransmission
  have key : headerSerialize (piggyback p1 d2).1.header p1.commands = some (withRepeat hb) ∧
      (piggyback p1 d2).2.incomingPackets = d2.incomingPackets ∧
      (piggyback p1 d2).2.sent = d2.sent := by
    by_cases hack : isAck H.flags = true
    · have e : piggyback p1 d2 = (p1, d2) := by
        unfold piggyback
        rw [hH]
        simp only [t3, hack, Bool.not_true, Bool.false_eq_true, if_false]
      rw [e, hH]
      refine ⟨?_, rfl, rfl⟩
      rw [headerSerialize_general ⟨H.flags ||| flags.repeat_, H.uid, H.ls, H.fs⟩ p1.commands i1 i2
        (by simpa [t3] using i3) (by simpa [t1, t2] using i4)]
      simp only [t1, t2, t3, byte0_repeat]
      rw [n1]
      rfl
    · have hack : isAck H.flags = false := by simpa using hack
      have hin : d2.incomingPackets = [] := by
        rcases hquiet with h | h
        · rw [hack] at h; cases h
        · exact h
      have e : piggyback p1 d2 = ({ p1 with header := { p1.header with
          flags := p1.header.flags &&& (0xFFFFFFFF - flags.ack), fs := some 0 } }, d2) := by
        unfold piggyback
        rw [hH]
        simp only [t3, hack, Bool.not_false, if_true, hin]
      rw [e, hH]
      refine ⟨?_, rfl, rfl⟩
      have hm := and_notAck_mod (H.flags ||| flags.repeat_) (by rw [t3]; exact hack)
      obtain ⟨u1, u2, u3⟩ := flags_mod _ _ hm
      rw [headerSerialize_general ⟨(H.flags ||| flags.repeat_) &&& (0xFFFFFFFF - flags.ack), H.uid,
          H.ls, some 0⟩ p1.commands i1 i2 (by simp [u3, t3, hack])
        (by simpa [u1, u2, t1, t2] using i4)]
      simp only [u1, u2, u3, t1, t2, t3]
      rw [byte0_mod, hm, ← byte0_mod, byte0_repeat, n1]
      simp [hack, withRepeat]
  obtain ⟨k1, k2, k3⟩ := key
  rw [transmit_again_eq self d2 p1 hget hfirst]
  obtain ⟨-, -, -, -, g5, -⟩ := piggyback_fields p1 d2
  obtain ⟨-, -, -, f4, -⟩ := piggyback_facts p1 d2
  have a := transmitAgain_fields self (piggyback p1 d2).1 (piggyback p1 d2).2
  unfold transmitAgain at a ⊢
  rw [g5, k1, f4, hcache] at a ⊢
  simp only [Outcome.device] at a
  refine ⟨_, rfl, ?_, ?_⟩
  · rw [(rearmSync_fields _ _ _).2.2.2.1, k3]
    subst n1
    rfl
  · rw [a.1, k2]


theorem byte0_ack (x g : Nat) :
    (x ||| (g ||| flags.ack) <<< 3) % 256 = (x ||| g <<< 3) % 256 ||| 0x80 := by
  apply Nat.eq_of_testBit_eq
  intro i
  rw [show (256 : Nat) = 2 ^ 8 from rfl, flags.ack]
  simp only [Nat.testBit_mod_two_pow, Nat.testBit_or, Nat.testBit_shiftLeft]
  by_cases h8 : i < 8
  · have a0 : Nat.testBit 128 0 = false := by decide
    have a1 : Nat.testBit 128 1 = false := by decide
    have a2 : Nat.testBit 128 2 = false := by decide
    have a3 : Nat.testBit 128 3 = false := by decide
    have a4 : Nat.testBit 128 4 = false := by decide
    have a5 : Nat.testBit 128 5 = false := by decide
    have a6 : Nat.testBit 128 6 = false := by decide
    have a7 : Nat.testBit 128 7 = true := by decide
    have b0 : Nat.testBit 16 0 = false := by decide
    have b1 : Nat.testBit 16 1 = false := by decide
    have b2 : Nat.testBit 16 2 = false := by decide
    have b3 : Nat.testBit 16 3 = false := by decide
    have b4 : Nat.testBit 16 4 = true := by decide
    interval_cases i <;> simp [a0, a1, a2, a3, a4, a5, a6, a7, b0, b1, b2, b3, b4]
  · have h128 : Nat.testBit 128 i = false :=
      Nat.testBit_lt_two_pow (lt_of_lt_of_le (by decide : 128 < 2 ^ 8)
        (Nat.pow_le_pow_right (by decide) (by omega)))
    simp [h8, h128]

theorem or_ack_tests (f : Nat) :
    isSync (f ||| flags.ack) = isSync f ∧ isConnect (f ||| flags.ack) = isConnect f ∧
    isAck (f ||| flags.ack) = true := by
  simp only [isSync_testBit, isConnect_testBit, isAck_testBit, Nat.testBit_or, flags.ack]
  rw [show Nat.testBit 16 0 = false from by decide, show Nat.testBit 16 1 = false from by decide,
    show Nat.testBit 16 4 = true from by decide]
  simp

/-- A retransmission of a packet without ack, when an inbound packet waits for its ack, sends
the bytes of the first transmission with the repeat bit, the ack bit and the foreign sequence. -/
theorem transmit_again_ack (self : Nat) (d2 : Device) (p1 : UserPacket) (H : Header)
    (hb body : List Nat) (a : AtemPacket) (rest : List AtemPacket)
    (hget : d2.heap.get? self = some p1) (hcache : p1.serializedCache = some body)
    (hH : p1.header = { H with flags := H.flags ||| flags.repeat_ })
    (hhb : headerSerialize H p1.commands = some hb)
    (hack : isAck H.flags = false) (hin : d2.incomingPackets = a :: rest)
    (hfs : a.header.ls.getD 0 ≤ 0xFFFF) :
    ∃ d3, transmit self d2 = .done () d3 ∧
      d3.sent = d2.sent ++ [withAck (a.header.ls.getD 0) (withRepeat (hb ++ body))] ∧
      d3.incomingPackets = rest := by
  have hfirst : (!d2.pendingPackets.contains self && p1.serializedCache.isNone) = false := by
    rw [hcache]; simp
  obtain ⟨i1, i2, i3, i4⟩ := headerSerialize_inv H p1.commands hb hhb
  obtain ⟨t1, t2, t3⟩ := or_repeat_tests H.flags
  obtain ⟨u1, u2, u3⟩ := or_ack_tests (H.flags ||| flags.repeat_)
  have n1 := headerSerialize_general H p1.commands i1 i2 i3 i4
  rw [hhb] at n1
  simp only [Option.some.injEq] at n1
  have e : piggyback p1 d2 = ({ p1 with header := { p1.header with
      flags := p1.header.flags ||| flags.ack, fs := a.header.ls } },
      { d2 with incomingPackets := rest }) := by
    unfold piggyback
    rw [hH]
    simp only [t3, hack, Bool.not_false, if_true, hin]
  have k1 : headerSerialize (piggyback p1 d2).1.header p1.commands
      = some (withAck (a.header.ls.getD 0) (withRepeat hb)) := by
    rw [e, hH]
    rw [headerSerialize_general ⟨H.flags ||| flags.repeat_ ||| flags.ack, H.uid, H.ls,
        a.header.ls⟩ p1.commands i1 i2 (fun _ => hfs) (by simpa [u1, u2, t1, t2] using i4)]
    simp only [u1, u2, u3, t1, t2, t3, byte0_ack, byte0_repeat]
    rw [n1]
    simp [hack, withRepeat, withAck]
  rw [transmit_again_eq self d2 p1 hget hfirst]
  obtain ⟨-, -, -, -, g5, -⟩ := piggyback_fields p1 d2
  obtain ⟨-, -, -, f4, -⟩ := piggyback_facts p1 d2
  have a1 := transmitAgain_fields self (piggyback p1 d2).1 (piggyback p1 d2).2
  unfold transmitAgain at a1 ⊢
  rw [g5, k1, f4, hcache] at a1 ⊢
  simp only [Outcome.device] at a1
  refine ⟨_, rfl, ?_, ?_⟩
  · rw [(rearmSync_fields _ _ _).2.2.2.1, e]
    subst n1
    rfl
  · rw [a1.1, e]

theorem bodySerialize_isSome (cs : List Command) (hc : ∀ c ∈ cs, c.length ≤ 0xFFFF) :
    ∃ body, bodySerialize (cs.map .cmd) = some body := by
  induction cs with
  | nil => exact ⟨[], rfl⟩
  | cons x xs ih =>
    obtain ⟨bb, hbb⟩ := ih (fun c h => hc c (List.mem_cons_of_mem _ h))
    have hx := hc x (List.mem_cons_self _ _)
    simp only [List.map_cons, bodySerialize, BodyItem.serialize, Command.serialize, newBuffer]
    rw [writeUInt16BE_ok _ _ _ hx (by simp), hbb]
    exact ⟨_, rfl⟩

theorem bodySerialize_fits (cs : List Command)
    (h : packetLength (cs.map .cmd) ≤ 0xFFFF) : ∃ body, bodySerialize (cs.map .cmd) = some body := by
  apply bodySerialize_isSome
  intro c hc
  have := length_le_bodyLength cs c hc
  unfold packetLength at h
  omega

/-- Three commands in a row: the first arms the timer, the others find it armed. -/
theorem sendCommand_three (c1 c2 c3 : Command) (d : Device) (hopen : d.state = .opened)
    (hls : 0 < d.ls) (htimer : d.commandTimer = none) :
    sendCommand c3 (sendCommand c2 (sendCommand c1 d))
      = { d with commandQueue := d.commandQueue ++ [c1, c2, c3],
                 timers := d.timers ++ [⟨d.nextId, .command⟩], nextId := d.nextId + 1,
                 commandTimer := some d.nextId } := by
  simp [sendCommand, setTimer, hopen, hls, htimer]


theorem sync_eq (d : Device) :
    sync d = transmit d.heap.length { d with heap := d.heap ++ [UserPacket.new .undefined] } := rfl

/-- What `sync()` does on a device whose pending references are objects of the heap and whose
16-bit fields hold 16-bit values, when the packet fits a datagram: it returns, having sent one
new sync packet, which has taken the whole queue when the session is open with a counter
above 0 and is empty otherwise. -/
theorem sync_spec (d : Device) (hv : ∀ x ∈ d.pendingPackets, x < d.heap.length)
    (hu : d.uid.getD 0 ≤ 0xFFFF) (hl : d.ls ≤ 0xFFFF)
    (hin : ∀ a ∈ d.incomingPackets, a.header.ls.getD 0 ≤ 0xFFFF)
    (cmds : List Command)
    (hc : cmds = if d.state == .opened && decide (0 < d.ls) then d.commandQueue else [])
    (hfit : packetLength (cmds.map .cmd) ≤ 0xFFFF) :
    ∃ d1 p1 hb body, sync d = .done () d1 ∧ d1.heap = d.heap ++ [p1] ∧
      isSync p1.header.flags = true ∧ p1.commands = cmds.map .cmd ∧
      d1.commandQueue = (if d.state == .opened && decide (0 < d.ls) then [] else d.commandQueue) ∧
      d1.sent = d.sent ++ [hb ++ body] ∧ hb.length = 12 ∧
      bodySerialize (cmds.map .cmd) = some body ∧ d1.commandTimer = d.commandTimer ∧
      d1.ls = (if d.state != .attempting then (d.ls + 1) % 0x10000 else d.ls) := by
  rw [sync_eq]
  generalize hD : ({ d with heap := d.heap ++ [UserPacket.new .undefined] } : Device) = D
  have e1 : D.heap = d.heap ++ [UserPacket.new .undefined] := by rw [← hD]
  have e2 : D.pendingPackets = d.pendingPackets := by rw [← hD]
  have e3 : D.state = d.state := by rw [← hD]
  have e4 : D.ls = d.ls := by rw [← hD]
  have e5 : D.commandQueue = d.commandQueue := by rw [← hD]
  have e6 : D.uid = d.uid := by rw [← hD]
  have e7 : D.incomingPackets = d.incomingPackets := by rw [← hD]
  have e8 : D.sent = d.sent := by rw [← hD]
  have e9 : D.commandTimer = d.commandTimer := by rw [← hD]
  have hp : D.heap.get? d.heap.length = some (UserPacket.new .undefined) := by rw [e1]; simp
  have hnew : ¬ d.heap.length ∈ D.pendingPackets := by
    rw [e2]; exact fun h => Nat.lt_irrefl _ (hv _ h)
  have hfirst : (!D.pendingPackets.contains d.heap.length
      && (UserPacket.new .undefined).serializedCache.isNone) = true := by
    simpa [UserPacket.new] using hnew
  obtain ⟨f1, f2, -, -, f5⟩ := piggyback_facts (UserPacket.new .undefined) D
  obtain ⟨g1, g2, g3, g4, g5, g6, g7, -⟩ := piggyback_fields (UserPacket.new .undefined) D
  have hsync : isSync (piggyback (UserPacket.new .undefined) D).1.header.flags = true := by
    rw [f5]; decide
  -- the packet after stamping and flushing
  have hq := attachQueue_stamp (piggyback (UserPacket.new .undefined) D).1
    (piggyback (UserPacket.new .undefined) D).2
  rw [f1, f2, g2, g5, hsync, e3, e4, e5] at hq
  have hcmds : (attachQueue (stamp (piggyback (UserPacket.new .undefined) D).1
      (piggyback (UserPacket.new .undefined) D).2) (piggyback (UserPacket.new .undefined) D).2).1.commands
      = cmds.map .cmd := by
    rw [hq, hc]
    have hs : (stamp (piggyback (UserPacket.new .undefined) D).1
        (piggyback (UserPacket.new .undefined) D).2).commands = [] := by
      unfold stamp; split <;> exact g5
    by_cases hopen : (d.state == .opened && decide (0 < d.ls)) = true
    · by_cases hlen : 0 < d.commandQueue.length
      · simp [hopen, hlen, UserPacket.new]
      · have : d.commandQueue = [] := by
          cases hcq : d.commandQueue with
          | nil => rfl
          | cons x xs => rw [hcq] at hlen; simp at hlen
        simp [hopen, this, hs]
    · simp [hopen, hs]
  have hqueue : (attachQueue (stamp (piggyback (UserPacket.new .undefined) D).1
      (piggyback (UserPacket.new .undefined) D).2) (piggyback (UserPacket.new .undefined) D).2).2.commandQueue
      = (if d.state == .opened && decide (0 < d.ls) then [] else d.commandQueue) := by
    rw [hq]
    by_cases hopen : (d.state == .opened && decide (0 < d.ls)) = true
    · by_cases hlen : 0 < d.commandQueue.length
      · simp [hopen, hlen]
      · have : d.commandQueue = [] := by
          cases hcq : d.commandQueue with
          | nil => rfl
          | cons x xs => rw [hcq] at hlen; simp at hlen
        simp [hopen, this, g2, e5]
    · simp [hopen, g2, e5]
  have q3 := (attachQueue_facts (stamp (piggyback (UserPacket.new .undefined) D).1
    (piggyback (UserPacket.new .undefined) D).2) (piggyback (UserPacket.new .undefined) D).2).2.2
  obtain ⟨body, hbody⟩ := bodySerialize_fits cmds hfit
  -- the header serializes
  have hhead : ∃ hb, headerSerialize (attachQueue (stamp (piggyback (UserPacket.new .undefined) D).1
      (piggyback (UserPacket.new .undefined) D).2) (piggyback (UserPacket.new .undefined) D).2).1.header
      (cmds.map .cmd) = some hb := by
    rw [q3]
    refine ⟨_, headerSerialize_general _ _ hfit ?_ ?_ ?_⟩
    · unfold stamp; split <;> simpa [g4, e6] using hu
    · intro _
      have : (stamp (piggyback (UserPacket.new .undefined) D).1
          (piggyback (UserPacket.new .undefined) D).2).header.fs
          = (piggyback (UserPacket.new .undefined) D).1.header.fs := by
        unfold stamp; split <;> rfl
      rw [this]
      unfold piggyback
      rw [if_pos (by decide)]
      cases hI : D.incomingPackets with
      | nil => simp
      | cons a rest =>
        simp only
        exact hin a (by rw [← e7, hI]; simp)
    · intro _
      unfold stamp
      rw [if_pos (by rw [hsync]; rfl)]
      simpa [f1, e4] using hl
  obtain ⟨hb, hhb⟩ := hhead
  rw [← hcmds] at hbody hhb
  rw [transmit_first_eq _ _ _ hp hfirst]
  obtain ⟨d1, hd1⟩ := transmitFirst_returns d.heap.length _ _ hb body hbody hhb
  obtain ⟨hb', body', p1, b1, b2, b3, b4, b5, b6, b7⟩ := transmitFirst_done _ _ _ d1 hd1
  rw [hbody] at b1; rw [hhb] at b2
  cases b1; cases b2
  have k := transmitFirst_fields d.heap.length (piggyback (UserPacket.new .undefined) D).1
    (piggyback (UserPacket.new .undefined) D).2
  rw [hd1] at k
  simp only [Outcome.device] at k
  have ka := transmitFirst_keepsA d.heap.length (piggyback (UserPacket.new .undefined) D).1
    (piggyback (UserPacket.new .undefined) D).2
  rw [hd1] at ka
  have kp := piggyback_keepsA (UserPacket.new .undefined) D
  have kl := transmitFirst_ls d.heap.length (piggyback (UserPacket.new .undefined) D).1
    (piggyback (UserPacket.new .undefined) D).2
  rw [hd1] at kl
  simp only [Outcome.device, Outcome.isDone, Bool.true_and] at kl
  refine ⟨d1, p1, hb, body, hd1, ?_, ?_, ?_, ?_, ?_, headerSerialize_length _ _ _ hhb, ?_, ?_, ?_⟩
  · rw [b4, g1, e1]; simp
  · rw [b5]; simp only [isSync_or_repeat]; exact hsync
  · rw [b6, hcmds]
  · rw [k.2.1, hqueue]
  · rw [b3, g3, e8]
  · rw [← hcmds]; exact hbody
  · exact (ka.2.2.2.2.2.2.1).trans ((kp.2.2.2.2.2.2.1).trans e9)
  · rw [kl, f1, f2, hsync, e3, e4]; simp

theorem grows_refl (d : Device) : Grows d d :=
  ⟨fun _ p h => ⟨p, h, fun x => x⟩, fun _ h => Or.inl h, fun _ h => Or.inl h⟩

theorem grows_length {d d1 : Device} (h : Grows d d1) : d.heap.length ≤ d1.heap.length := by
  by_contra hc
  have hlt : d1.heap.length < d.heap.length := by omega
  obtain ⟨p1, h1, -⟩ := h.1 d1.heap.length (d.heap.get ⟨_, hlt⟩) (List.get?_eq_get hlt)
  rw [List.get?_eq_some] at h1
  exact Nat.lt_irrefl _ h1.1

theorem grows_trans {a b c : Device} (h1 : Grows a b) (h2 : Grows b c) : Grows a c := by
  refine ⟨?_, ?_, ?_⟩
  · intro self p hp
    obtain ⟨p1, g1, c1⟩ := h1.1 self p hp
    obtain ⟨p2, g2, c2⟩ := h2.1 self p1 g1
    exact ⟨p2, g2, fun h => c2 (c1 h)⟩
  · intro t ht
    rcases h2.2.1 t ht with h | h
    · rcases h1.2.1 t h with h' | h'
      · exact Or.inl h'
      · right
        intro self hk
        obtain ⟨p1, g1, c1⟩ := h' self hk
        obtain ⟨p2, g2, c2⟩ := h2.1 self p1 g1
        exact ⟨p2, g2, c2 c1⟩
    · exact Or.inr h
  · intro x hx
    rcases h2.2.2 x hx with h | h
    · rcases h1.2.2 x h with h' | h'
      · exact Or.inl h'
      · exact Or.inr (lt_of_lt_of_le h' (grows_length h2))
    · exact Or.inr h

/-- A step that keeps the heap, arms no repeat timer and adds no pending reference. -/
theorem grows_frame {d d1 : Device} (hh : d1.heap = d.heap)
    (ht : ∀ t ∈ d1.timers, t ∈ d.timers ∨ ∀ self, t.kind ≠ .retransmit self)
    (hp : ∀ x ∈ d1.pendingPackets, x ∈ d.pendingPackets) : Grows d d1 := by
  refine ⟨?_, ?_, ?_⟩
  · intro self p h
    exact ⟨p, by rw [hh]; exact h, fun x => x⟩
  · intro t h
    rcases ht t h with h' | h'
    · exact Or.inl h'
    · exact Or.inr (fun self hk => absurd hk (h' self))
  · intro x h
    exact Or.inl (hp x h)

theorem sameSyncs_heap {d d1 : Device} (hh : d1.heap = d.heap) : SameSyncs d d1 := by
  intro self p1 h1 h2 h3
  rw [hh] at h1
  exact ⟨p1, h1, h2, h3⟩

theorem sameSyncs_trans {a b c : Device} (h1 : SameSyncs a b) (h2 : SameSyncs b c) :
    SameSyncs a c := by
  intro self p1 g1 g2 g3
  obtain ⟨p, k1, k2, k3⟩ := h2 self p1 g1 g2 g3
  exact h1 self p k1 k2 k3

theorem quietly_refl (d : Device) : Quietly d d := ⟨grows_refl d, rfl, rfl, sameSyncs_heap rfl⟩

theorem quietly_trans {a b c : Device} (h1 : Quietly a b) (h2 : Quietly b c) : Quietly a c :=
  ⟨grows_trans h1.1 h2.1, h2.2.1.trans h1.2.1, h2.2.2.1.trans h1.2.2.1,
    sameSyncs_trans h1.2.2.2 h2.2.2.2⟩

/-- A step that keeps the heap, the counter and the queue, arms no repeat timer and adds no
pending reference. -/
theorem quietly_frame {d d1 : Device} (hh : d1.heap = d.heap)
    (ht : ∀ t ∈ d1.timers, t ∈ d.timers ∨ ∀ self, t.kind ≠ .retransmit self)
    (hp : ∀ x ∈ d1.pendingPackets, x ∈ d.pendingPackets) (hl : d1.ls = d.ls)
    (hq : d1.commandQueue = d.commandQueue) : Quietly d d1 :=
  ⟨grows_frame hh ht hp, hl, hq, sameSyncs_heap hh⟩

theorem wellFormed_iff (d : Device) :
    d.wellFormed = true ↔
      (∀ x ∈ d.pendingPackets, x < d.heap.length) ∧
      (∀ t ∈ d.timers, ∀ self, t.kind = .retransmit self →
        ∃ p, d.heap.get? self = some p ∧ p.serializedCache ≠ none) := by
  unfold Device.wellFormed Device.refsValid Device.timersValid
  simp only [Bool.and_eq_true, List.all_eq_true, decide_eq_true_eq]
  constructor
  · rintro ⟨h1, h2⟩
    refine ⟨h1, ?_⟩
    intro t ht self hk
    have := h2 t ht
    rw [hk] at this
    simp only at this
    cases hg : d.heap.get? self with
    | none => rw [hg] at this; cases this
    | some p =>
      rw [hg] at this
      simp only at this
      refine ⟨p, rfl, ?_⟩
      intro hn
      rw [hn] at this
      cases this
  · rintro ⟨h1, h2⟩
    refine ⟨h1, ?_⟩
    intro t ht
    cases hk : t.kind with
    | retransmit self =>
      obtain ⟨p, hp, hc⟩ := h2 t ht self hk
      simp only [hp]
      cases hs : p.serializedCache with
      | none => exact absurd hs hc
      | some c => rfl
    | messageTimeout => rfl
    | sync => rfl
    | command => rfl
    | communication => rfl

/-- A well-formed device stays well-formed through a step that keeps what it held. -/
theorem wellFormed_grows {d d1 : Device} (hw : d.wellFormed = true) (hg : Grows d d1) :
    d1.wellFormed = true := by
  rw [wellFormed_iff] at hw ⊢
  obtain ⟨w1, w2⟩ := hw
  refine ⟨?_, ?_⟩
  · intro x hx
    rcases hg.2.2 x hx with h | h
    · exact lt_of_lt_of_le (w1 x h) (grows_length hg)
    · exact h
  · intro t ht self hk
    rcases hg.2.1 t ht with h | h
    · obtain ⟨p, hp, hc⟩ := w2 t h self hk
      obtain ⟨p1, g1, c1⟩ := hg.1 self p hp
      exact ⟨p1, g1, c1 hc⟩
    · exact h self hk

theorem Outcome.bind_rel {α β : Type} (R : Device → Device → Prop)
    (htrans : ∀ {a b c : Device}, R a b → R b c → R a c) (d : Device) (o : Outcome α)
    (f : α → Device → Outcome β) (ho : R d o.device)
    (hf : ∀ a d1, o = .done a d1 → R d1 (f a d1).device) : R d (o.bind f).device := by
  cases o with
  | done a d1 => exact htrans ho (hf a d1 rfl)
  | threw d1 => exact ho
  | noFuel d1 => exact ho

theorem clearTimer_timers (h : Option Nat) (d : Device) :
    ∀ t ∈ (clearTimer h d).timers, t ∈ d.timers := by
  intro t ht
  unfold clearTimer at ht
  cases h with
  | none => exact ht
  | some x => exact (List.mem_filter.mp ht).1

theorem armRetransmission_timers (self : Nat) (p : UserPacket) (d : Device) :
    (∀ t ∈ (armRetransmission self p d).2.timers,
      t ∈ d.timers ∨ t.kind = .retransmit self ∨ t.kind = .messageTimeout) ∧
    (∀ x ∈ (armRetransmission self p d).2.pendingPackets, x ∈ d.pendingPackets ∨ x = self) := by
  unfold armRetransmission
  split
  · simp only [setTimer, List.append_assoc, List.mem_append, List.mem_singleton, List.mem_cons,
      List.not_mem_nil, or_false]
    constructor
    · rintro t (h | h | h)
      · exact Or.inl h
      · subst h; exact Or.inr (Or.inl rfl)
      · subst h; exact Or.inr (Or.inr rfl)
    · rintro x (h | h)
      · exact Or.inl h
      · exact Or.inr h
  · exact ⟨fun t h => Or.inl h, fun x h => Or.inl h⟩

theorem rearmSync_timers (self : Nat) (p : UserPacket) (d : Device) :
    ∀ t ∈ (rearmSync self p d).timers, t ∈ d.timers ∨ t.kind = .sync := by
  intro t ht
  unfold rearmSync at ht
  split at ht
  · simp only [setTimer, List.mem_append, List.mem_singleton] at ht
    rcases ht with h | h
    · have := clearTimer_timers _ _ t h
      exact Or.inl this
    · subst h; exact Or.inr rfl
  · exact Or.inl ht

theorem attachQueue_timers (p : UserPacket) (d : Device) :
    (attachQueue p d).2.timers = d.timers := by
  unfold attachQueue
  split <;> rfl

/-- What a first transmission leaves of the heap, the timers and the pending list. -/
theorem transmitFirst_shape (self : Nat) (p : UserPacket) (d : Device) :
    ∃ p1, (transmitFirst self p d).device.heap = d.heap.set self p1 ∧
      (p.serializedCache ≠ none → p1.serializedCache ≠ none) ∧
      (∀ t ∈ (transmitFirst self p d).device.timers, t ∈ d.timers ∨
        ∀ s, t.kind = .retransmit s → s = self ∧ p1.serializedCache ≠ none) ∧
      (∀ x ∈ (transmitFirst self p d).device.pendingPackets, x ∈ d.pendingPackets ∨ x = self) := by
  have h2 := attachQueue_fields (stamp p d) d
  have h3 := attachQueue_timers (stamp p d) d
  have hs : (stamp p d).serializedCache = p.serializedCache := by
    unfold stamp; split <;> rfl
  unfold transmitFirst
  simp only
  generalize attachQueue (stamp p d) d = q at h2 h3
  obtain ⟨g1, -, -, g4, g5⟩ := h2
  rw [hs] at g5
  split
  · refine ⟨q.1, by simp [Outcome.device, store, g1], by rw [g5]; exact fun h => h, ?_, ?_⟩
    · intro t ht; left; simpa [Outcome.device, store, h3] using ht
    · intro x hx; left; simpa [Outcome.device, store, g4] using hx
  · rename_i cache _
    split
    · refine ⟨{ q.1 with serializedCache := some cache }, by simp [Outcome.device, store, g1],
        fun _ => by simp, ?_, ?_⟩
      · intro t ht; left; simpa [Outcome.device, store, h3] using ht
      · intro x hx; left; simpa [Outcome.device, store, g4] using hx
    · rename_i header _
      have a1 := armRetransmission_fields self (setRepeat { q.1 with serializedCache := some cache })
          { q.2 with sent := q.2.sent ++ [header ++ cache] }
      have a2 := armRetransmission_timers self (setRepeat { q.1 with serializedCache := some cache })
          { q.2 with sent := q.2.sent ++ [header ++ cache] }
      generalize armRetransmission self (setRepeat { q.1 with serializedCache := some cache })
          { q.2 with sent := q.2.sent ++ [header ++ cache] } = r at a1 a2
      obtain ⟨r1, -, -, -, -, -, r7⟩ := a1
      have hc : r.1.serializedCache ≠ none := by rw [r7]; simp [setRepeat]
      have a := advanceLs_fields r.1 r.2
      have b := rearmSync_fields self r.1 (advanceLs r.1 r.2)
      have bt := rearmSync_timers self r.1 (advanceLs r.1 r.2)
      simp only [Outcome.device]
      refine ⟨r.1, by rw [b.1, a.1, r1, g1], fun _ => hc, ?_, ?_⟩
      · intro t ht
        rcases bt t ht with h | h
        · rw [a.2.2.2.2.2.2] at h
          rcases a2.1 t h with h' | h' | h'
          · left; simpa [h3] using h'
          · right; intro s hk; rw [h'] at hk; cases hk; exact ⟨rfl, hc⟩
          · right; intro s hk; rw [h'] at hk; cases hk
        · right; intro s hk; rw [h] at hk; cases hk
      · intro x hx
        rw [b.2.2.2.2, a.2.2.2.2.1] at hx
        rcases a2.2 x hx with h | h
        · left; simpa [g4] using h
        · exact Or.inr h

theorem transmitAgain_shape (self : Nat) (p : UserPacket) (d : Device) :
    (transmitAgain self p d).device.heap = d.heap.set self p ∧
    (∀ t ∈ (transmitAgain self p d).device.timers, t ∈ d.timers ∨ t.kind = .sync) ∧
    (transmitAgain self p d).device.pendingPackets = d.pendingPackets := by
  unfold transmitAgain
  split
  · rename_i header cache _ _
    have b := rearmSync_fields self p { d with sent := d.sent ++ [header ++ cache] }
    have bt := rearmSync_timers self p { d with sent := d.sent ++ [header ++ cache] }
    simp only [Outcome.device]
    exact ⟨b.1, bt, b.2.2.2.2⟩
  · exact ⟨rfl, fun t h => Or.inl h, rfl⟩

/-- Every transmission keeps what the device held. -/
theorem transmit_grows (self : Nat) (d : Device) : Grows d (transmit self d).device := by
  cases hp : d.heap.get? self with
  | none =>
    unfold transmit
    rw [hp]
    exact grows_refl d
  | some p =>
    have hlt : self < d.heap.length := by
      rw [List.get?_eq_some] at hp
      exact hp.1
    obtain ⟨-, -, f3, f4, -⟩ := piggyback_facts p d
    obtain ⟨g1, -, -, -, -, -, -, g8, -⟩ := piggyback_fields p d
    -- both branches store some object at `self`
    have key : ∃ p1, (transmit self d).device.heap = d.heap.set self p1 ∧
        (p.serializedCache ≠ none → p1.serializedCache ≠ none) ∧
        (∀ t ∈ (transmit self d).device.timers, t ∈ d.timers ∨
          ∀ s, t.kind = .retransmit s → s = self ∧ p1.serializedCache ≠ none) ∧
        (∀ x ∈ (transmit self d).device.pendingPackets, x ∈ d.pendingPackets ∨ x = self) := by
      cases hfirst : (!d.pendingPackets.contains self && p.serializedCache.isNone)
      · rw [transmit_again_eq self d p hp hfirst]
        obtain ⟨a1, a2, a3⟩ := transmitAgain_shape self (piggyback p d).1 (piggyback p d).2
        refine ⟨(piggyback p d).1, by rw [a1, g1], by rw [f4]; exact fun h => h, ?_, ?_⟩
        · intro t ht
          rcases a2 t ht with h | h
          · left; rw [g8] at h; exact h
          · right; intro s hk; rw [h] at hk; cases hk
        · intro x hx
          rw [a3, f3] at hx
          exact Or.inl hx
      · rw [transmit_first_eq self d p hp hfirst]
        obtain ⟨p1, a1, a2, a3, a4⟩ := transmitFirst_shape self (piggyback p d).1 (piggyback p d).2
        refine ⟨p1, by rw [a1, g1], by rw [f4] at a2; exact a2, ?_, ?_⟩
        · intro t ht
          rcases a3 t ht with h | h
          · left; rw [g8] at h; exact h
          · exact Or.inr h
        · intro x hx
          rcases a4 x hx with h | h
          · left; rw [f3] at h; exact h
          · exact Or.inr h
    obtain ⟨p1, k1, k2, k3, k4⟩ := key
    have hget : (transmit self d).device.heap.get? self = some p1 := by
      rw [k1, List.get?_eq_getElem?, List.getElem?_set_self hlt]
    refine ⟨?_, ?_, ?_⟩
    · intro i q hq
      by_cases hi : i = self
      · subst hi
        rw [hp] at hq
        cases hq
        exact ⟨p1, hget, k2⟩
      · refine ⟨q, ?_, fun h => h⟩
        rw [k1, List.get?_eq_getElem?, List.getElem?_set_ne (Ne.symm hi), ← List.get?_eq_getElem?]
        exact hq
    · intro t ht
      rcases k3 t ht with h | h
      · exact Or.inl h
      · right
        intro s hk
        obtain ⟨e, hc⟩ := h s hk
        subst e
        exact ⟨p1, hget, hc⟩
    · intro x hx
      rcases k4 x hx with h | h
      · exact Or.inl h
      · right
        rw [h, k1, List.length_set]
        exact hlt

theorem alloc_quietly (p : UserPacket) (d : Device) (hc : p.serializedCache = none) :
    Quietly d { d with heap := d.heap ++ [p] } := by
  refine ⟨⟨?_, fun t h => Or.inl h, fun x h => Or.inl h⟩, rfl, rfl, ?_⟩
  · intro self q hq
    refine ⟨q, ?_, fun h => h⟩
    have hlt : self < d.heap.length := by
      rw [List.get?_eq_some] at hq
      exact hq.1
    simp only [List.get?_eq_getElem?] at hq ⊢
    rw [List.getElem?_append_left hlt]
    exact hq
  · intro self p1 h1 h2 h3
    by_cases hlt : self < d.heap.length
    · refine ⟨p1, ?_, h2, h3⟩
      simp only [List.get?_eq_getElem?] at h1 ⊢
      rw [List.getElem?_append_left hlt] at h1
      exact h1
    · have hle : d.heap.length ≤ self := by omega
      simp only [List.get?_eq_getElem?] at h1
      rw [List.getElem?_append_right hle] at h1
      cases hi : self - d.heap.length with
      | zero =>
        rw [hi] at h1
        simp only [List.getElem?_cons_zero, Option.some.injEq] at h1
        subst h1
        exact absurd hc h3
      | succ k =>
        rw [hi] at h1
        simp at h1

theorem sync_grows (d : Device) : Grows d (sync d).device := by
  rw [sync_eq]
  exact grows_trans (alloc_quietly _ d rfl).1 (transmit_grows _ _)

/-- A transmission of a packet without sync flag, or of one that has been transmitted before,
keeps the counter and the command queue. -/
theorem transmit_quietly (self : Nat) (d : Device)
    (h : ∀ p, d.heap.get? self = some p →
      isSync p.header.flags = false ∨ p.serializedCache ≠ none) :
    Quietly d (transmit self d).device := by
  refine ⟨transmit_grows self d, ?_, ?_, ?_⟩
  · cases hp : d.heap.get? self with
    | none => unfold transmit; rw [hp]; rfl
    | some p =>
      rw [transmit_ls self d p hp]
      apply if_neg
      intro hc
      simp only [Bool.and_eq_true, Bool.not_eq_true', Option.isNone_iff_eq_none, bne_iff_ne,
        ne_eq] at hc
      rcases h p hp with h1 | h1
      · rw [h1] at hc; exact absurd hc.2.2.2 (by simp)
      · exact h1 hc.2.1.2
  · rcases transmit_queue self d with h1 | ⟨-, -, -, p, hp, hs, -, hc⟩
    · exact h1
    · rcases h p hp with h2 | h2
      · rw [h2] at hs; cases hs
      · exact absurd hc h2
  · cases hp : d.heap.get? self with
    | none =>
      have e : (transmit self d).device = d := by unfold transmit; rw [hp]; rfl
      rw [e]
      exact sameSyncs_heap rfl
    | some p =>
      have hlt : self < d.heap.length := by
        rw [List.get?_eq_some] at hp
        exact hp.1
      obtain ⟨-, -, -, -, f5⟩ := piggyback_facts p d
      obtain ⟨g1, -⟩ := piggyback_fields p d
      have key : ∃ p1, (transmit self d).device.heap = d.heap.set self p1 ∧
          isSync p1.header.flags = isSync p.header.flags := by
        cases hfirst : (!d.pendingPackets.contains self && p.serializedCache.isNone)
        · rw [transmit_again_eq self d p hp hfirst]
          exact ⟨(piggyback p d).1, by rw [(transmitAgain_fields _ _ _).2.2, g1], f5⟩
        · rw [transmit_first_eq self d p hp hfirst]
          obtain ⟨-, -, p1, a3, -, -, -, a7⟩ :=
            transmitFirst_fields self (piggyback p d).1 (piggyback p d).2
          exact ⟨p1, by rw [a3, g1], by rw [a7, f5]⟩
      obtain ⟨p1, k1, k2⟩ := key
      intro i q hq hs hc
      rw [k1] at hq
      by_cases hi : i = self
      · subst hi
        rw [List.get?_eq_getElem?, List.getElem?_set_self hlt] at hq
        cases hq
        rw [k2] at hs
        rcases h p hp with h2 | h2
        · rw [h2] at hs; cases hs
        · exact ⟨p, hp, hs, h2⟩
      · rw [List.get?_eq_getElem?, List.getElem?_set_ne (Ne.symm hi),
          ← List.get?_eq_getElem?] at hq
        exact ⟨q, hq, hs, hc⟩

theorem respond_quietly (self : AtemPacket) (d : Device) : Quietly d (respond self d).device := by
  unfold respond
  split
  · exact quietly_refl d
  · simp only [alloc]
    apply Outcome.bind_rel Quietly quietly_trans
    · refine quietly_trans (alloc_quietly _ d rfl) (transmit_quietly _ _ ?_)
      intro p hp
      simp only [List.get?_eq_getElem?, List.getElem?_concat_length, Option.some.injEq] at hp
      left
      rw [← hp]
      show isSync flags.ack = false
      decide
    · intro a d1 _
      exact (quietly_frame rfl (fun t h => Or.inl h) (fun x h => h) rfl rfl)

theorem acknowledge_quietly (self : AtemPacket) (d : Device) :
    Quietly d (acknowledge self d).device := by
  unfold acknowledge
  simp only
  split
  · refine quietly_trans ?_ (respond_quietly self _)
    exact (quietly_frame rfl (fun t h => Or.inl h) (fun x h => h) rfl rfl)
  · exact (quietly_frame rfl (fun t h => Or.inl h) (fun x h => h) rfl rfl)

theorem markAsRead_quietly (self : Nat) (d : Device) : Quietly d (markAsRead self d).device := by
  have kb := markAsRead_keepsB self d
  refine quietly_frame kb.2.2.2.2.1 ?_ ?_ kb.2.1 kb.2.2.2.1
  · intro t ht
    left
    unfold markAsRead at ht
    split at ht
    · exact ht
    · simp only [Outcome.device] at ht
      exact clearTimer_timers _ _ t (clearTimer_timers _ _ t ht)
  · intro x hx
    unfold markAsRead at hx
    split at hx
    · exact hx
    · simp only [Outcome.device] at hx
      have := spliceOut_subset _ _ x hx
      rw [clearTimer_pending, clearTimer_pending] at this
      exact this

theorem removePendingLoop_quietly (fs : Option Nat) (fuel : Nat) :
    ∀ (i : Nat) (d : Device), Quietly d (removePendingLoop fs fuel i d).device := by
  induction fuel with
  | zero =>
    intro i d
    unfold removePendingLoop
    split <;> exact quietly_refl d
  | succ f ih =>
    intro i d
    unfold removePendingLoop
    split
    · cases hg : d.pendingPackets.get? i with
      | none => exact quietly_refl d
      | some self =>
        simp only
        cases hp : d.heap.get? self with
        | none => exact quietly_refl d
        | some p =>
          simp only
          split
          · apply Outcome.bind_rel Quietly quietly_trans
            · exact markAsRead_quietly self d
            · intro a d1 _
              exact ih (i + 1) d1
          · exact ih (i + 1) d
    · exact quietly_refl d

theorem forEachMarkAsRead_quietly (n : Nat) :
    ∀ (k : Nat) (d : Device), Quietly d (forEachMarkAsRead n k d).device := by
  induction n with
  | zero => intro k d; exact quietly_refl d
  | succ m ih =>
    intro k d
    unfold forEachMarkAsRead
    split
    · exact ih (k + 1) d
    · rename_i self _
      apply Outcome.bind_rel Quietly quietly_trans
      · exact markAsRead_quietly self d
      · intro a d1 _
        exact ih (k + 1) d1

theorem clearTimer_quietly (h : Option Nat) (d : Device) : Quietly d (clearTimer h d) := by
  have kb := clearTimer_keepsB h d
  exact quietly_frame kb.2.2.2.2.1 (fun t ht => Or.inl (clearTimer_timers h d t ht))
    (fun x hx => by rw [clearTimer_pending] at hx; exact hx) kb.2.1 kb.2.2.2.1

theorem setTimer_quietly (k : TimerKind) (d : Device) (hk : ∀ self, k ≠ .retransmit self) :
    Quietly d (setTimer k d).2 := by
  refine (quietly_frame rfl ?_ (fun x h => h) rfl rfl)
  intro t ht
  simp only [setTimer, List.mem_append, List.mem_singleton] at ht
  rcases ht with h | h
  · exact Or.inl h
  · subst h; exact Or.inr hk

theorem emitted_quietly (d : Device) (ns : List Notification) :
    Quietly d { d with emitted := ns } :=
  (quietly_frame rfl (fun _ h => Or.inl h) (fun _ h => h) rfl rfl)

theorem disconnect_quietly (d : Device) : Quietly d (disconnect d).device := by
  unfold disconnect
  simp only
  apply Outcome.bind_rel Quietly quietly_trans
  · exact quietly_trans (quietly_trans (clearTimer_quietly _ _) (clearTimer_quietly _ _))
      (forEachMarkAsRead_quietly _ _ _)
  · intro a d2 _
    rw [setState_eq]
    simp only [Outcome.bind, Outcome.device, emit]
    split
    · exact (quietly_frame rfl (fun t h => Or.inl h) (fun x h => h) rfl rfl)
    · exact (quietly_frame rfl (fun t h => Or.inl h) (fun x h => h) rfl rfl)

theorem handshake_quietly (msg : List Nat) (h : Header) (d : Device) :
    Quietly d (handshake msg h d).device := by
  unfold handshake
  split
  · split
    · rw [setState_eq]
      exact (quietly_frame rfl (fun _ h => Or.inl h) (fun _ h => h) rfl rfl)
    · exact quietly_refl d
  · split
    · split
      · rw [setState_eq]
        simp only [Outcome.bind, Outcome.device]
        have a : Quietly d (emit (.connectionStateChange .opened) { d with state := .opened }) :=
          (quietly_frame rfl (fun _ h => Or.inl h) (fun _ h => h) rfl rfl)
        have b := clearTimer_quietly
          (emit (.connectionStateChange .opened) { d with state := .opened }).syncInterval
          (emit (.connectionStateChange .opened) { d with state := .opened })
        have c := setTimer_quietly .sync (clearTimer
          (emit (.connectionStateChange .opened) { d with state := .opened }).syncInterval
          (emit (.connectionStateChange .opened) { d with state := .opened }))
          (fun _ hk => by cases hk)
        refine quietly_trans (quietly_trans a (quietly_trans b c)) ?_
        exact (quietly_frame rfl (fun _ h => Or.inl h) (fun _ h => h) rfl rfl)
      · exact quietly_refl d
    · exact quietly_refl d

theorem decodeBody_quietly (fuel : Nat) (msg : List Nat) (h : Header) (id : Nat) (d : Device) :
    Quietly d (decodeBody fuel msg h id d).device := by
  obtain ⟨ns, e, -⟩ := decodeBody_keeps fuel msg h id d
  rw [e]
  exact emitted_quietly d _

theorem AtemPacket.new_quietly (fuel : Nat) (msg : List Nat) (d : Device) :
    Quietly d (AtemPacket.new fuel msg d).device := by
  unfold AtemPacket.new
  split
  · apply Outcome.bind_rel Quietly quietly_trans
    · refine quietly_trans ?_ (handshake_quietly _ _ _)
      exact (quietly_frame rfl (fun _ h => Or.inl h) (fun _ h => h) rfl rfl)
    · intro a d1 _
      exact decodeBody_quietly _ _ _ _ _
  · exact quietly_refl d

theorem handlePacket_quietly (packet : AtemPacket) (d : Device) :
    Quietly d (handlePacket packet d).device := by
  unfold handlePacket
  split
  · apply Outcome.bind_rel Quietly quietly_trans
    · unfold confirmPending
      split
      · exact removePendingLoop_quietly _ _ _ _
      · exact quietly_refl d
    · intro a d1 _
      apply Outcome.bind_rel Quietly quietly_trans
      · unfold acknowledgeIfDue
        split
        · exact acknowledge_quietly _ _
        · exact quietly_refl d1
      · intro a2 d2 _
        simp only [Outcome.device]
        unfold resetCommunicationTimeout
        split
        · have b := clearTimer_quietly d2.communicationTimeout d2
          have c := setTimer_quietly .communication (clearTimer d2.communicationTimeout d2)
            (fun _ hk => by cases hk)
          refine quietly_trans (quietly_trans b c) ?_
          exact (quietly_frame rfl (fun _ h => Or.inl h) (fun _ h => h) rfl rfl)
        · exact clearTimer_quietly _ _
  · exact quietly_refl d

theorem messageHandler_quietly (fuel : Nat) (msg : List Nat) (d : Device) :
    Quietly d (messageHandler fuel msg d).device := by
  unfold messageHandler
  apply Outcome.bind_rel Quietly quietly_trans
  · exact AtemPacket.new_quietly _ _ _
  · intro a d1 _
    exact handlePacket_quietly _ _

theorem sendCommand_grows (cmd : Command) (d : Device) : Grows d (sendCommand cmd d) := by
  unfold sendCommand
  simp only
  split
  · refine grows_frame rfl ?_ (fun _ h => h)
    intro t ht
    simp only [setTimer, List.mem_append, List.mem_singleton] at ht
    rcases ht with h | h
    · exact Or.inl h
    · subst h; exact Or.inr (fun _ hk => by cases hk)
  · exact grows_frame rfl (fun _ h => Or.inl h) (fun _ h => h)

theorem connect_grows (rnd : Nat) (d : Device) : Grows d (connect rnd d).device := by
  have closedCase : ∀ d0 : Device, d0.state = .closed → Grows d0 (connect rnd d0).device := by
    intro d0 h0
    by_cases hip : ipTruthy d0.ip = true
    · rw [connect_closed rnd d0 h0 hip]
      refine grows_trans ?_ (transmit_grows _ _)
      have := (alloc_quietly (UserPacket.new .null) d0 rfl).1
      refine grows_trans this ?_
      exact grows_frame rfl (fun _ h => Or.inl h) (fun _ h => h)
    · unfold connect connectAux
      simp only [h0, beq_self_eq_true, if_true, hip, Bool.false_eq_true, if_false]
      exact grows_frame rfl (fun _ h => Or.inl h) (fun _ h => h)
  by_cases hc : d.state = .closed
  · exact closedCase d hc
  · rw [connect_open rnd d hc]
    refine Outcome.bind_rel Grows grows_trans d _ _ (disconnect_quietly d).1 ?_
    intro a d1 h1
    exact closedCase d1 ((disconnect_spec d).2 d1 h1)

theorem expire_quietly (id : Nat) (d : Device) : Quietly d (expire id d) :=
  (quietly_frame rfl (fun _ h => Or.inl (List.mem_filter.mp h).1) (fun _ h => h) rfl rfl)

theorem commandTimerCallback_grows (d : Device) : Grows d (commandTimerCallback d).device := by
  unfold commandTimerCallback
  apply Outcome.bind_rel Grows grows_trans
  · split
    · exact sync_grows d
    · exact grows_refl d
  · intro a d1 _
    exact grows_frame rfl (fun _ h => Or.inl h) (fun _ h => h)

theorem communicationTimeoutCallback_grows (rnd : Nat) (d : Device) :
    Grows d (communicationTimeoutCallback rnd d).device := by
  unfold communicationTimeoutCallback
  apply Outcome.bind_rel Grows grows_trans
  · exact grows_trans (emitted_quietly d _).1 (disconnect_quietly _).1
  · intro a d1 _
    exact connect_grows rnd d1

theorem fire_grows (rnd id : Nat) (d : Device) : Grows d (fire rnd id d).device := by
  unfold fire
  split
  · exact grows_refl d
  · rename_i t _
    cases t.kind with
    | retransmit self => exact transmit_grows self d
    | messageTimeout => exact grows_trans (expire_quietly id d).1 (emitted_quietly _ _).1
    | sync => exact sync_grows d
    | command => exact grows_trans (expire_quietly id d).1 (commandTimerCallback_grows _)
    | communication =>
      exact grows_trans (expire_quietly id d).1 (communicationTimeoutCallback_grows rnd _)

/-- Every event keeps what the device held. -/
theorem step_grows (e : Event) (d : Device) : Grows d (step e d).device := by
  cases e with
  | message fuel msg => exact (messageHandler_quietly fuel msg d).1
  | command cmd => exact sendCommand_grows cmd d
  | nextTick =>
    show Grows d (match d.nextTicks with
      | [] => Outcome.done () d
      | a :: rest => respond a { d with nextTicks := rest }).device
    cases d.nextTicks with
    | nil => exact grows_refl d
    | cons a rest =>
      refine grows_trans ?_ (respond_quietly a _).1
      exact grows_frame rfl (fun _ h => Or.inl h) (fun _ h => h)
  | timer id rnd => exact fire_grows rnd id d

/-- A `connect()` on a well-formed device leaves the counter 0, however it ends. -/
theorem connect_ls (rnd : Nat) (d : Device) (hw : d.wellFormed = true) :
    (connect rnd d).device.ls = 0 := by
  have closedCase : ∀ d0 : Device, d0.state = .closed → (connect rnd d0).device.ls = 0 := by
    intro d0 h0
    by_cases hip : ipTruthy d0.ip = true
    · exact (connect_state_ls rnd d0 h0 hip).2.1
    · unfold connect connectAux
      simp only [h0, beq_self_eq_true, if_true, hip, Bool.false_eq_true, if_false]
      rfl
  by_cases hc : d.state = .closed
  · exact closedCase d hc
  · obtain ⟨d1, h1, c1, -⟩ := disconnect_done d ((wellFormed_iff d).mp hw).1
    rw [connect_open rnd d hc, h1]
    exact closedCase d1 c1

/-- A `connect()` transmits no sync packet. -/
theorem connect_sameSyncs (rnd : Nat) (d : Device) : SameSyncs d (connect rnd d).device := by
  have closedCase : ∀ d0 : Device, d0.state = .closed → SameSyncs d0 (connect rnd d0).device := by
    intro d0 h0
    by_cases hip : ipTruthy d0.ip = true
    · rw [connect_closed rnd d0 h0 hip]
      have a := (alloc_quietly (UserPacket.new .null) d0 rfl).2.2.2
      have key : ∀ D : Device, D.heap = d0.heap ++ [UserPacket.new .null] →
          SameSyncs d0 (transmit d0.heap.length D).device := by
        intro D hD
        have b := (transmit_quietly d0.heap.length D (fun p hp => by
          rw [hD] at hp
          simp only [List.get?_eq_getElem?, List.getElem?_concat_length, Option.some.injEq] at hp
          left
          rw [← hp]
          decide)).2.2.2
        refine sameSyncs_trans ?_ b
        intro self p1 h1 h2 h3
        rw [hD] at h1
        exact a self p1 h1 h2 h3
      exact key _ rfl
    · unfold connect connectAux
      simp only [h0, beq_self_eq_true, if_true, hip, Bool.false_eq_true, if_false]
      exact sameSyncs_heap rfl
  by_cases hc : d.state = .closed
  · exact closedCase d hc
  · rw [connect_open rnd d hc]
    have q := (disconnect_quietly d).2.2.2
    cases hd : disconnect d with
    | done a d1 =>
      rw [hd] at q
      exact sameSyncs_trans q (closedCase d1 ((disconnect_spec d).2 d1 hd))
    | threw d1 => rw [hd] at q; exact q
    | noFuel d1 => rw [hd] at q; exact q

/-- An event that does not call `sync()`, on a well-formed device: no sync packet is
transmitted for the first time, the command queue keeps what it held, and the counter stays, or
is 0 after a reconnect. -/
theorem step_quiet (e : Event) (d : Device) (hw : d.wellFormed = true)
    (hq : e.callsSync d = false) :
    (∃ more, (step e d).device.commandQueue = d.commandQueue ++ more) ∧
    (e.reconnects d = false → (step e d).device.ls = d.ls) ∧
    (e.reconnects d = true → (step e d).device.ls = 0) ∧
    SameSyncs d (step e d).device := by
  have fromQuietly : ∀ d1 : Device, Quietly d d1 →
      (∃ more, d1.commandQueue = d.commandQueue ++ more) ∧ d1.ls = d.ls ∧ SameSyncs d d1 :=
    fun d1 h => ⟨⟨[], by rw [h.2.2.1]; simp⟩, h.2.1, h.2.2.2⟩
  cases e with
  | message fuel msg =>
    obtain ⟨a, b, c⟩ := fromQuietly _ (messageHandler_quietly fuel msg d)
    exact ⟨a, fun _ => b, (fun h => by cases h), c⟩
  | command cmd =>
    have f := sendCommand_fields cmd d
    exact ⟨⟨[cmd], f.1⟩, fun _ => f.2.2.2.2.2.1, (fun h => by cases h), sameSyncs_heap f.2.2.1⟩
  | nextTick =>
    have key : Quietly d (step .nextTick d).device := by
      show Quietly d (match d.nextTicks with
        | [] => Outcome.done () d
        | a :: rest => respond a { d with nextTicks := rest }).device
      cases d.nextTicks with
      | nil => exact quietly_refl d
      | cons a rest =>
        refine quietly_trans ?_ (respond_quietly a _)
        exact (quietly_frame rfl (fun _ h => Or.inl h) (fun _ h => h) rfl rfl)
    obtain ⟨a, b, c⟩ := fromQuietly _ key
    exact ⟨a, fun _ => b, (fun h => by cases h), c⟩
  | timer id rnd =>
    simp only [Event.callsSync, Event.reconnects] at hq ⊢
    have hs : step (.timer id rnd) d = fire rnd id d := rfl
    rw [hs]
    unfold fire
    cases hf : d.timers.find? (fun t => t.id == id) with
    | none =>
      simp only
      exact ⟨⟨[], by simp [Outcome.device]⟩, fun _ => rfl, (fun h => by cases h),
        sameSyncs_heap rfl⟩
    | some t =>
      rw [hf] at hq
      simp only at hq ⊢
      have hmem : t ∈ d.timers := List.mem_of_find?_eq_some hf
      cases hk : t.kind with
      | retransmit self =>
        simp only
        obtain ⟨p, hp, hc⟩ := ((wellFormed_iff d).mp hw).2 t hmem self hk
        have key := transmit_quietly self d (fun q hq' => by
          rw [hp] at hq'; cases hq'; exact Or.inr hc)
        obtain ⟨a, b, c⟩ := fromQuietly _ key
        exact ⟨a, fun _ => b, (fun h => by simp at h), c⟩
      | messageTimeout =>
        simp only
        have key : Quietly d (emit .messageTimeout (expire id d)) :=
          quietly_trans (expire_quietly id d) (emitted_quietly _ _)
        obtain ⟨a, b, c⟩ := fromQuietly _ key
        exact ⟨a, fun _ => b, (fun h => by simp at h), c⟩
      | sync => rw [hk] at hq; simp at hq
      | command =>
        rw [hk] at hq
        simp only [decide_eq_false_iff_not] at hq
        simp only
        have he : (expire id d).commandQueue = d.commandQueue := rfl
        unfold commandTimerCallback
        rw [he, if_neg hq]
        have key : Quietly d { expire id d with commandTimer := none } :=
          quietly_trans (expire_quietly id d)
            (quietly_frame rfl (fun _ h => Or.inl h) (fun _ h => h) rfl rfl)
        obtain ⟨a, b, c⟩ := fromQuietly _ key
        exact ⟨a, fun _ => b, (fun h => by simp at h), c⟩
      | communication =>
        simp only
        have q0 : Quietly d (emit .connectionLost (expire id d)) :=
          quietly_trans (expire_quietly id d) (emitted_quietly _ _)
        refine ⟨⟨[], ?_⟩, (fun h => by simp at h), fun _ => ?_, ?_⟩
        · unfold communicationTimeoutCallback
          have f := disconnect_fields (emit .connectionLost (expire id d))
          cases hd : disconnect (emit .connectionLost (expire id d)) with
          | done a d1 =>
            rw [hd] at f
            have f3 : d1.commandQueue = d.commandQueue := f.2.2.1
            simp only [Outcome.bind]
            rw [connect_queue, f3]
            simp
          | threw d1 =>
            rw [hd] at f
            have f3 : d1.commandQueue = d.commandQueue := f.2.2.1
            simp only [Outcome.bind, Outcome.device]
            rw [f3]; simp
          | noFuel d1 =>
            rw [hd] at f
            have f3 : d1.commandQueue = d.commandQueue := f.2.2.1
            simp only [Outcome.bind, Outcome.device]
            rw [f3]; simp
        · unfold communicationTimeoutCallback
          have w1 : (emit .connectionLost (expire id d)).wellFormed = true :=
            wellFormed_grows hw q0.1
          obtain ⟨d1, h1, c1, -⟩ := disconnect_done _ ((wellFormed_iff _).mp w1).1
          rw [h1]
          simp only [Outcome.bind]
          have w2 : d1.wellFormed = true := by
            have := (disconnect_quietly (emit .connectionLost (expire id d))).1
            rw [h1] at this
            exact wellFormed_grows w1 this
          exact connect_ls rnd d1 w2
        · unfold communicationTimeoutCallback
          have q1 := (disconnect_quietly (emit .connectionLost (expire id d))).2.2.2
          cases hd : disconnect (emit .connectionLost (expire id d)) with
          | done a d1 =>
            rw [hd] at q1
            exact sameSyncs_trans q0.2.2.2 (sameSyncs_trans q1 (connect_sameSyncs rnd d1))
          | threw d1 => rw [hd] at q1; exact sameSyncs_trans q0.2.2.2 q1
          | noFuel d1 => rw [hd] at q1; exact sameSyncs_trans q0.2.2.2 q1

theorem run_grows (es : List Event) : ∀ d : Device, Grows d (run es d) := by
  induction es with
  | nil => intro d; exact grows_refl d
  | cons e es ih => intro d; exact grows_trans (step_grows e d) (ih _)

/-- Events that do not call `sync()`, after a `connect()`: the counter stays 0, the queue
keeps what it held, and no sync packet is transmitted for the first time. -/
theorem quiet_run (es : List Event) :
    ∀ d : Device, d.wellFormed = true → d.ls = 0 → quiet es d = true →
      (run es d).wellFormed = true ∧ (run es d).ls = 0 ∧
      (∃ more, (run es d).commandQueue = d.commandQueue ++ more) ∧ SameSyncs d (run es d) := by
  induction es with
  | nil => intro d hw hl _; exact ⟨hw, hl, ⟨[], by simp [run]⟩, sameSyncs_heap rfl⟩
  | cons e es ih =>
    intro d hw hl hq
    simp only [quiet, Bool.and_eq_true, Bool.not_eq_true'] at hq
    obtain ⟨⟨m1, q1⟩, l1, l2, s1⟩ := step_quiet e d hw hq.1
    have hl1 : (step e d).device.ls = 0 := by
      cases hr : e.reconnects d
      · rw [l1 hr]; exact hl
      · exact l2 hr
    obtain ⟨w2, l3, ⟨m2, q2⟩, s2⟩ :=
      ih (step e d).device (wellFormed_grows hw (step_grows e d)) hl1 hq.2
    refine ⟨w2, l3, ⟨m1 ++ m2, ?_⟩, sameSyncs_trans s1 s2⟩
    show (run es (step e d).device).commandQueue = _
    rw [q2, q1, List.append_assoc]

/-- Events that neither call `sync()` nor reconnect: the counter stays and the queue keeps what
it held. -/
theorem steady_run (es : List Event) :
    ∀ d : Device, d.wellFormed = true → steady es d = true →
      (run es d).wellFormed = true ∧ (run es d).ls = d.ls ∧
      ∃ more, (run es d).commandQueue = d.commandQueue ++ more := by
  induction es with
  | nil => intro d hw _; exact ⟨hw, rfl, [], by simp [run]⟩
  | cons e es ih =>
    intro d hw hq
    simp only [steady, Bool.and_eq_true, Bool.not_eq_true'] at hq
    obtain ⟨⟨m1, q1⟩, l1, -⟩ := step_quiet e d hw hq.1.1
    obtain ⟨w2, l3, m2, q2⟩ := ih (step e d).device (wellFormed_grows hw (step_grows e d)) hq.2
    refine ⟨w2, ?_, m1 ++ m2, ?_⟩
    · show (run es (step e d).device).ls = _
      rw [l3, l1 hq.1.2]
    · show (run es (step e d).device).commandQueue = _
      rw [q2, q1, List.append_assoc]

/-- What `sync()` leaves, however it ends, on a device whose pending references are objects of
the heap. -/
theorem sync_facts (d : Device) (hv : ∀ x ∈ d.pendingPackets, x < d.heap.length) :
    (sync d).device.commandQueue
      = (if d.state == .opened && decide (0 < d.ls) then [] else d.commandQueue) ∧
    (∃ p1, (sync d).device.heap.get? d.heap.length = some p1 ∧ isSync p1.header.flags = true ∧
      p1.commands
        = (if d.state == .opened && decide (0 < d.ls) then d.commandQueue.map .cmd else [])) ∧
    (sync d).device.ls
      = (if (sync d).isDone && d.state != .attempting then (d.ls + 1) % 0x10000 else d.ls) ∧
    (∀ d1, sync d = .done () d1 → ∃ hb body, d1.sent = d.sent ++ [hb ++ body] ∧ hb.length = 12 ∧
      bodySerialize (if d.state == .opened && decide (0 < d.ls) then d.commandQueue.map .cmd
        else []) = some body) := by
  rw [sync_eq]
  generalize hD : ({ d with heap := d.heap ++ [UserPacket.new .undefined] } : Device) = D
  have e1 : D.heap = d.heap ++ [UserPacket.new .undefined] := by rw [← hD]
  have e2 : D.pendingPackets = d.pendingPackets := by rw [← hD]
  have e3 : D.state = d.state := by rw [← hD]
  have e4 : D.ls = d.ls := by rw [← hD]
  have e5 : D.commandQueue = d.commandQueue := by rw [← hD]
  have e8 : D.sent = d.sent := by rw [← hD]
  have hp : D.heap.get? d.heap.length = some (UserPacket.new .undefined) := by rw [e1]; simp
  have hnew : ¬ d.heap.length ∈ D.pendingPackets := by
    rw [e2]; exact fun h => Nat.lt_irrefl _ (hv _ h)
  have hfirst : (!D.pendingPackets.contains d.heap.length
      && (UserPacket.new .undefined).serializedCache.isNone) = true := by
    simpa [UserPacket.new] using hnew
  have hcond : (D.state == .opened && isSync (UserPacket.new .undefined).header.flags
      && decide (0 < D.ls) && decide (0 < D.commandQueue.length))
      = (d.state == .opened && decide (0 < d.ls) && decide (0 < d.commandQueue.length)) := by
    rw [e3, e4, e5]
    simp [UserPacket.new, isSync, flags.sync]
  have hq : (if (d.state == .opened && decide (0 < d.ls) && decide (0 < d.commandQueue.length))
        = true then ([] : List Command) else d.commandQueue)
      = (if d.state == .opened && decide (0 < d.ls) then [] else d.commandQueue) := by
    by_cases h1 : (d.state == .opened && decide (0 < d.ls)) = true
    · by_cases h2 : 0 < d.commandQueue.length
      · simp [h1, h2]
      · have : d.commandQueue = [] := by
          cases hcq : d.commandQueue with
          | nil => rfl
          | cons x xs => rw [hcq] at h2; simp at h2
        simp [h1, this]
    · simp [h1]
  have hc : (if (d.state == .opened && decide (0 < d.ls) && decide (0 < d.commandQueue.length))
        = true then (UserPacket.new .undefined).commands ++ d.commandQueue.map .cmd
        else (UserPacket.new .undefined).commands)
      = (if d.state == .opened && decide (0 < d.ls) then d.commandQueue.map .cmd else []) := by
    by_cases h1 : (d.state == .opened && decide (0 < d.ls)) = true
    · by_cases h2 : 0 < d.commandQueue.length
      · simp [h1, h2, UserPacket.new]
      · have : d.commandQueue = [] := by
          cases hcq : d.commandQueue with
          | nil => rfl
          | cons x xs => rw [hcq] at h2; simp at h2
        simp [h1, this, UserPacket.new]
    · simp [h1, UserPacket.new]
  obtain ⟨k1, p1, k2, k3⟩ := transmit_first_queue d.heap.length D _ hp hfirst
  rw [hcond, e5] at k1 k3
  rw [hq] at k1
  rw [hc] at k3
  have hsync : isSync p1.header.flags = true := by
    have hlt : d.heap.length < D.heap.length := by rw [e1]; simp
    rw [transmit_first_eq _ _ _ hp hfirst] at k2
    obtain ⟨-, -, p2, a3, -, -, -, a7⟩ := transmitFirst_fields d.heap.length
      (piggyback (UserPacket.new .undefined) D).1 (piggyback (UserPacket.new .undefined) D).2
    rw [a3, (piggyback_fields _ _).1, List.get?_eq_getElem?, List.getElem?_set_self hlt] at k2
    cases k2
    rw [a7, (piggyback_facts _ _).2.2.2.2]
    decide
  refine ⟨k1, ⟨p1, k2, hsync, k3⟩, ?_, ?_⟩
  · rw [transmit_ls _ _ _ hp, hfirst, e3, e4]
    simp [UserPacket.new, isSync, flags.sync]
  · intro d1 hd
    rw [transmit_first_eq _ _ _ hp hfirst] at hd
    obtain ⟨hb, body, p2, b1, b2, b3, -⟩ := transmitFirst_done _ _ _ d1 hd
    obtain ⟨f1, f2, -, -, f5⟩ := piggyback_facts (UserPacket.new .undefined) D
    obtain ⟨-, g2, g3, -, g5, -⟩ := piggyback_fields (UserPacket.new .undefined) D
    rw [attachQueue_stamp, f1, f2, f5, g2, g5, hcond, e5] at b1
    have b1' : bodySerialize (if (d.state == .opened && decide (0 < d.ls)
        && decide (0 < d.commandQueue.length)) = true
        then (UserPacket.new .undefined).commands ++ d.commandQueue.map .cmd
        else (UserPacket.new .undefined).commands) = some body := by
      split
      · rename_i h; rw [if_pos h] at b1; exact b1
      · rename_i h
        rw [if_neg h] at b1
        have : (stamp (piggyback (UserPacket.new .undefined) D).1
            (piggyback (UserPacket.new .undefined) D).2).commands
            = (UserPacket.new .undefined).commands := by
          unfold stamp; split <;> exact g5
        rw [← this]
        exact b1
    rw [hc] at b1'
    exact ⟨hb, body, by rw [b3, g3, e8], headerSerialize_length _ _ _ b2, b1'⟩

/-- An event that calls `sync()`, on a device whose pending references are objects of the
heap: what it leaves, however it ends. -/
theorem step_callsSync (e : Event) (d : Device)
    (hv : ∀ x ∈ d.pendingPackets, x < d.heap.length) (hc : e.callsSync d = true) :
    (step e d).device.commandQueue
      = (if d.state == .opened && decide (0 < d.ls) then [] else d.commandQueue) ∧
    (∃ p1, (step e d).device.heap.get? d.heap.length = some p1 ∧
      isSync p1.header.flags = true ∧
      p1.commands
        = (if d.state == .opened && decide (0 < d.ls) then d.commandQueue.map .cmd else [])) ∧
    (step e d).device.ls
      = (if (step e d).isDone && d.state != .attempting then (d.ls + 1) % 0x10000 else d.ls) ∧
    (∀ d1, step e d = .done () d1 → ∃ hb body, d1.sent = d.sent ++ [hb ++ body] ∧
      hb.length = 12 ∧
      bodySerialize (if d.state == .opened && decide (0 < d.ls) then d.commandQueue.map .cmd
        else []) = some body) := by
  cases e with
  | message fuel msg => simp [Event.callsSync] at hc
  | command cmd => simp [Event.callsSync] at hc
  | nextTick => simp [Event.callsSync] at hc
  | timer id rnd =>
    simp only [Event.callsSync] at hc
    have hs : step (.timer id rnd) d = fire rnd id d := rfl
    rw [hs]
    unfold fire
    cases hf : d.timers.find? (fun t => t.id == id) with
    | none => rw [hf] at hc; simp at hc
    | some t =>
      rw [hf] at hc
      obtain ⟨tid, kind⟩ := t
      cases kind with
      | retransmit self => simp at hc
      | messageTimeout => simp at hc
      | communication => simp at hc
      | sync => exact sync_facts d hv
      | command =>
        simp only [decide_eq_true_eq] at hc
        simp only
        have f := sync_facts (expire id d) hv
        have x1 : (expire id d).commandQueue = d.commandQueue := rfl
        have x2 : (expire id d).state = d.state := rfl
        have x3 : (expire id d).ls = d.ls := rfl
        have x4 : (expire id d).heap = d.heap := rfl
        have x5 : (expire id d).sent = d.sent := rfl
        rw [x1, x2, x3, x4, x5] at f
        unfold commandTimerCallback
        rw [x1, if_pos hc]
        cases ho : sync (expire id d) with
        | done a d1 =>
          rw [ho] at f
          obtain ⟨f1, f2, f3, f4⟩ := f
          exact ⟨f1, f2, f3, fun d2 h2 => by
            simp only [Outcome.bind, Outcome.done.injEq, true_and] at h2
            subst h2
            exact f4 d1 rfl⟩
        | threw d1 =>
          rw [ho] at f
          obtain ⟨f1, f2, f3, -⟩ := f
          exact ⟨f1, f2, f3, fun d2 h2 => by simp [Outcome.bind] at h2⟩
        | noFuel d1 =>
          rw [ho] at f
          obtain ⟨f1, f2, f3, -⟩ := f
          exact ⟨f1, f2, f3, fun d2 h2 => by simp [Outcome.bind] at h2⟩

theorem Outcome.eq_done (o : Outcome Unit) (h : o.isDone = true) : o = .done () o.device := by
  cases o with
  | done a d => rfl
  | threw d => cases h
  | noFuel d => cases h

/-- The header of the object that a first transmission stores: session id and local sequence
are the ones stamped at the start of the call. -/
theorem transmitFirst_header (self : Nat) (p : UserPacket) (d : Device) :
    ∃ p1, (transmitFirst self p d).device.heap = d.heap.set self p1 ∧
      p1.header.ls = (stamp p d).header.ls ∧ p1.header.uid = (stamp p d).header.uid := by
  have h1 := attachQueue_facts (stamp p d) d
  have h2 := attachQueue_fields (stamp p d) d
  unfold transmitFirst
  simp only
  generalize attachQueue (stamp p d) d = q at h1 h2
  obtain ⟨-, -, q3⟩ := h1
  obtain ⟨g1, -⟩ := h2
  split
  · exact ⟨q.1, by simp [Outcome.device, store, g1], by rw [q3], by rw [q3]⟩
  · rename_i cache _
    split
    · exact ⟨{ q.1 with serializedCache := some cache },
        by simp [Outcome.device, store, g1], by rw [← q3], by rw [← q3]⟩
    · rename_i header _
      have h3 := armRetransmission_fields self (setRepeat { q.1 with serializedCache := some cache })
          { q.2 with sent := q.2.sent ++ [header ++ cache] }
      have h4 := armRetransmission_facts self (setRepeat { q.1 with serializedCache := some cache })
          { q.2 with sent := q.2.sent ++ [header ++ cache] }
      generalize armRetransmission self (setRepeat { q.1 with serializedCache := some cache })
          { q.2 with sent := q.2.sent ++ [header ++ cache] } = r at h3 h4
      obtain ⟨r1, -⟩ := h3
      obtain ⟨-, -, r8⟩ := h4
      have a := advanceLs_fields r.1 r.2
      have b := rearmSync_fields self r.1 (advanceLs r.1 r.2)
      simp only [Outcome.device]
      refine ⟨r.1, by rw [b.1, a.1, r1, g1], ?_, ?_⟩
      · rw [r8]; simp only [setRepeat]; rw [q3]
      · rw [r8]; simp only [setRepeat]; rw [q3]

/-- The object that the first transmission of a sync or connect packet stores has the counter
as its local sequence and the session id of the device. -/
theorem transmit_first_header (self : Nat) (d : Device) (p : UserPacket)
    (hp : d.heap.get? self = some p)
    (hfirst : (!d.pendingPackets.contains self && p.serializedCache.isNone) = true)
    (hs : (isSync p.header.flags || isConnect p.header.flags) = true) :
    ∃ p1, (transmit self d).device.heap.get? self = some p1 ∧ p1.header.ls = some d.ls ∧
      p1.header.uid = d.uid := by
  have hlt : self < d.heap.length := by
    rw [List.get?_eq_some] at hp
    exact hp.1
  obtain ⟨f1, -, -, -, -⟩ := piggyback_facts p d
  obtain ⟨g1, -, -, g4, -⟩ := piggyback_fields p d
  have hflags : (isSync (piggyback p d).1.header.flags
      || isConnect (piggyback p d).1.header.flags) = true := by
    unfold piggyback
    split
    · split
      · simp only [isSync_or_ack]
        have := (or_ack_tests p.header.flags).2.1
        rw [this]; exact hs
      · have hm := and_notAck_mod p.header.flags (by simpa using ‹(!isAck p.header.flags) = true›)
        obtain ⟨u1, u2, -⟩ := flags_mod _ _ hm
        rw [u1, u2]; exact hs
    · exact hs
  rw [transmit_first_eq self d p hp hfirst]
  obtain ⟨p1, a1, a2, a3⟩ := transmitFirst_header self (piggyback p d).1 (piggyback p d).2
  refine ⟨p1, by rw [a1, g1, List.get?_eq_getElem?, List.getElem?_set_self hlt], ?_, ?_⟩
  · rw [a2]; unfold stamp; rw [if_pos hflags]; simp [f1]
  · rw [a3]; unfold stamp; rw [if_pos hflags]; simp [g4]

/-! ### Decoding, acknowledgements and the liveness timer -/

/-- A record that declares the length 0 stops the cursor: when its listener returns without
emitting, the loop uses up every iteration budget, emitting the two notifications of the record
once per iteration. -/
theorem decodeCommands_zero (body : List Nat) (cursor : Nat) (hc : cursor < body.length - 1)
    (hz : readUInt16BE body cursor = some 0)
    (hl : listen (bufToString body (cursor + 4) (cursor + 8)) (slice body (cursor + 8) cursor)
      = ([], true)) (fuel : Nat) :
    ∀ (cmds : List Command) (d : Device),
      ∃ d1, decodeCommands fuel body cursor cmds d = .noFuel d1 ∧
        d1.emitted.length = d.emitted.length + 2 * fuel := by
  induction fuel with
  | zero =>
    intro cmds d
    unfold decodeCommands
    rw [if_pos hc]
    exact ⟨d, rfl, rfl⟩
  | succ n ih =>
    intro cmds d
    unfold decodeCommands
    rw [if_pos hc, hz]
    simp only [Nat.add_zero, hl, if_true]
    obtain ⟨d1, h1, h2⟩ := ih (cmds ++ [⟨bufToString body (cursor + 4) (cursor + 8),
        slice body (cursor + 8) cursor⟩])
      (emitAll []
        (emit (.named (bufToString body (cursor + 4) (cursor + 8)) (slice body (cursor + 8) cursor))
          (emit (.rawCommand ⟨bufToString body (cursor + 4) (cursor + 8),
            slice body (cursor + 8) cursor⟩) d)))
    refine ⟨d1, h1, ?_⟩
    rw [h2]
    simp only [emit, emitAll, List.length_append, List.length_singleton, List.length_nil]
    omega

/-- The decoding loop performs no read past the end of the body: when it throws, a listener has
thrown on one of the records it visits. -/
theorem decodeCommands_threw (body : List Nat) (fuel : Nat) :
    ∀ (cursor : Nat) (cmds : List Command) (d : Device) (x : Device),
      decodeCommands fuel body cursor cmds d = .threw x →
      ∃ r ∈ visitedRecords fuel body cursor, (listen r.2.name r.2.data).2 = false := by
  induction fuel with
  | zero =>
    intro cursor cmds d x h
    unfold decodeCommands at h
    split at h <;> cases h
  | succ n ih =>
    intro cursor cmds d x h
    unfold decodeCommands at h
    unfold visitedRecords
    split at h
    · rename_i hc
      rw [if_pos hc]
      obtain ⟨v, hv⟩ := readUInt16BE_isSome body cursor (by omega)
      rw [hv] at h
      simp only [hv, Option.getD_some]
      simp only at h
      split at h
      · obtain ⟨r, hr, hr2⟩ := ih _ _ _ x h
        exact ⟨r, List.mem_cons_of_mem _ hr, hr2⟩
      · rename_i hl
        exact ⟨_, List.mem_cons_self _ _, by simpa using hl⟩
    · cases h

/-- When every record that the loop visits declares a length other than 0 and has a listener
that returns, every iteration advances the cursor, and a budget of one iteration per byte of the
body suffices for the loop to return: it has pushed the visited commands and emitted their
notifications. -/
theorem decodeCommands_returns (body : List Nat) (fuel : Nat) :
    ∀ (cursor : Nat) (cmds : List Command) (d : Device),
      (∀ r ∈ visitedRecords fuel body cursor,
        r.1 ≠ 0 ∧ (listen r.2.name r.2.data).2 = true) →
      body.length ≤ cursor + fuel + 1 →
      decodeCommands fuel body cursor cmds d
        = .done (cmds ++ (visitedRecords fuel body cursor).map fun r => r.2)
            (emitAll (commandNotifications ((visitedRecords fuel body cursor).map fun r => r.2))
              d) := by
  induction fuel with
  | zero =>
    intro cursor cmds d _ hf
    rw [decodeCommands_stop 0 body cursor cmds d (by omega)]
    simp [visitedRecords, commandNotifications, emitAll]
  | succ n ih =>
    intro cursor cmds d hv hf
    by_cases hc : cursor < body.length - 1
    · obtain ⟨v, hr⟩ := readUInt16BE_isSome body cursor (by omega)
      unfold visitedRecords at hv
      rw [if_pos hc] at hv
      simp only [hr, Option.getD_some] at hv
      obtain ⟨hv0, hl⟩ := hv _ (List.mem_cons_self _ _)
      simp only at hv0 hl
      conv_lhs => unfold decodeCommands
      rw [if_pos hc, hr]
      simp only
      rw [if_pos hl, ih _ _ _ (fun r hr => hv r (List.mem_cons_of_mem _ hr)) (by omega)]
      conv_rhs => unfold visitedRecords
      rw [if_pos hc]
      simp only [hr, Option.getD_some, List.map_cons, commandNotifications, emitAll, emit,
        List.append_assoc, List.singleton_append, List.cons_append, List.nil_append]
    · rw [decodeCommands_stop _ body cursor cmds d hc]
      cases n <;> simp [visitedRecords, hc, commandNotifications, emitAll]

/-- The constructor on `zeroRecord`, received by the open session 5: the decoding loop uses up
every iteration budget. -/
theorem zeroRecord_new (fuel : Nat) :
    ∃ d1, AtemPacket.new fuel zeroRecord openDevice = .noFuel d1 ∧
      d1.emitted.length = 2 * fuel := by
  rw [AtemPacket.new_decode fuel zeroRecord openDevice 5 0 2 0x0814 (by decide) (by decide)
    (by decide) (by decide) (by decide) (by decide) (by decide)]
  rw [handshake_noop _ _ _ (by decide) (by decide)]
  obtain ⟨d1, h1, h2⟩ := decodeCommands_zero (slice zeroRecord 12 zeroRecord.length) 0
    (by decide) (by decide) (by decide) fuel [] (nextObject openDevice)
  refine ⟨d1, ?_, ?_⟩
  · simp only [Outcome.device]
    rw [h1]
    rfl
  · rw [h2]
    simp [nextObject, openDevice, Device.init]

/-- The last block of the constructor performs no read past the end of a datagram that has its
first two bytes: when it throws, a listener has thrown on one of the records of the body that
the loop visits. -/
theorem decodeBody_threw (fuel : Nat) (msg : List Nat) (h : Header) (id : Nat) (d x : Device)
    (h2 : 2 ≤ msg.length) (ht : decodeBody fuel msg h id d = .threw x) :
    ∃ r ∈ visitedRecords fuel (slice msg 12 msg.length) 0,
      (listen r.2.name r.2.data).2 = false := by
  obtain ⟨word, hw⟩ := readUInt16BE_isSome msg 0 (by omega)
  unfold decodeBody at ht
  rw [hw] at ht
  split at ht
  · cases ht
  · simp only at ht
    split at ht
    · cases hd : decodeCommands fuel (slice msg 12 msg.length) 0 [] d with
      | done a d1 => rw [hd] at ht; cases ht
      | threw d1 => exact decodeCommands_threw _ _ _ _ _ _ hd
      | noFuel d1 => rw [hd] at ht; cases ht
    · split at ht <;> cases ht

/-- The packet that the last block of the constructor returns has the identity and the header
it was given. -/
theorem decodeBody_packet (fuel : Nat) (msg : List Nat) (h : Header) (id : Nat) (d d1 : Device)
    (pkt : AtemPacket) (hd : decodeBody fuel msg h id d = .done pkt d1) :
    pkt.id = id ∧ pkt.header = h := by
  unfold decodeBody at hd
  split at hd
  · cases hd; exact ⟨rfl, rfl⟩
  · split at hd
    · cases hd
    · split at hd
      · cases hc : decodeCommands fuel (slice msg 12 msg.length) 0 [] d with
        | done a d2 =>
          rw [hc] at hd
          simp only [Outcome.bind] at hd
          cases hd; exact ⟨rfl, rfl⟩
        | threw d2 => rw [hc] at hd; cases hd
        | noFuel d2 => rw [hc] at hd; cases hd
      · split at hd <;> (cases hd; exact ⟨rfl, rfl⟩)

/-- The last block of the constructor returns when the decoding loop does: when every record
that the loop visits declares a length other than 0 and has a listener that returns, and the
budget is one iteration per byte of the body. -/
theorem decodeBody_returns (fuel : Nat) (msg : List Nat) (h : Header) (id : Nat) (d : Device)
    (h2 : 2 ≤ msg.length)
    (hv : ∀ r ∈ visitedRecords fuel (slice msg 12 msg.length) 0,
      r.1 ≠ 0 ∧ (listen r.2.name r.2.data).2 = true)
    (hfuel : msg.length ≤ fuel + 13) :
    ∃ pkt d1, decodeBody fuel msg h id d = .done pkt d1 := by
  obtain ⟨word, hw⟩ := readUInt16BE_isSome msg 0 (by omega)
  unfold decodeBody
  rw [hw]
  split
  · exact ⟨_, _, rfl⟩
  · simp only
    split
    · have hlen : (slice msg 12 msg.length).length ≤ 0 + fuel + 1 := by
        simp only [slice, List.length_drop, List.length_take]
        omega
      rw [decodeCommands_returns (slice msg 12 msg.length) fuel 0 [] d hv hlen]
      exact ⟨_, _, rfl⟩
    · split <;> exact ⟨_, _, rfl⟩

/-- The first two bytes of a serialized header, read as a 16-bit word, are the total length
with the flags from bit 11 on. -/
theorem header_word (L f : Nat) (hL : L ≤ 0xFFFF) (hf : f < 32) :
    (L / 256 ||| f <<< 3) % 256 * 256 + L % 256 = L ||| f <<< 11 := by
  have h1 : L / 256 < 2 ^ 8 := by omega
  have h2 : f <<< 3 < 2 ^ 8 := by rw [Nat.shiftLeft_eq]; omega
  have h3 : (L / 256 ||| f <<< 3) < 256 := Nat.or_lt_two_pow h1 h2
  rw [Nat.mod_eq_of_lt h3, Nat.mul_comm]
  have h4 : 2 ^ 8 * (L / 2 ^ 8 ||| f <<< 3) + L % 2 ^ 8
      = 2 ^ 8 * (L / 2 ^ 8 ||| f <<< 3) ||| L % 2 ^ 8 :=
    Nat.mul_add_lt_is_or (Nat.mod_lt _ (by decide)) _
  have h5 : 256 * (L / 256 ||| f <<< 3) + L % 256 = 2 ^ 8 * (L / 2 ^ 8 ||| f <<< 3) + L % 2 ^ 8 :=
    rfl
  rw [h5, h4]
  apply Nat.eq_of_testBit_eq
  intro i
  simp only [Nat.testBit_or, Nat.testBit_mul_pow_two, Nat.testBit_mod_two_pow,
    Nat.testBit_shiftLeft, ← Nat.shiftRight_eq_div_pow, Nat.testBit_shiftRight]
  by_cases a : i < 8
  · have a1 : ¬ 8 ≤ i := by omega
    have a2 : ¬ 11 ≤ i := by omega
    simp [a, a1, a2]
  · have a1 : 8 ≤ i := by omega
    have a3 : 8 + (i - 8) = i := by omega
    by_cases b : 11 ≤ i
    · have b1 : 3 ≤ i - 8 := by omega
      have b2 : i - 8 - 3 = i - 11 := by omega
      simp [a, a1, a3, b, b1, b2]
    · have b1 : ¬ 3 ≤ i - 8 := by omega
      simp [a, a1, a3, b, b1]

/-- The flags that the receiver reads from byte 0 are the flags of the packet together with
the bits of the total length from bit 11 on. -/
theorem header_flags (L f : Nat) (hL : L ≤ 0xFFFF) (hf : f < 32) :
    ((L / 256 ||| f <<< 3) % 256) >>> 3 = f ||| L >>> 11 := by
  have h1 : L / 256 < 2 ^ 8 := by omega
  have h2 : f <<< 3 < 2 ^ 8 := by rw [Nat.shiftLeft_eq]; omega
  have h3 : (L / 256 ||| f <<< 3) < 256 := Nat.or_lt_two_pow h1 h2
  have e : L / 256 = L >>> 8 := by rw [Nat.shiftRight_eq_div_pow]
  rw [Nat.mod_eq_of_lt h3, e]
  apply Nat.eq_of_testBit_eq
  intro i
  have a : 8 + (3 + i) = 11 + i := by omega
  simp [Nat.testBit_or, Nat.testBit_shiftLeft, Nat.testBit_shiftRight, a, Bool.or_comm]

/-- The low 11 bits of the word are the total length modulo 2048. -/
theorem header_length (L f : Nat) : (L ||| f <<< 11) &&& 0x7FF = L % 2048 := by
  rw [show (0x7FF : Nat) = 2 ^ 11 - 1 from rfl, Nat.and_pow_two_sub_one_eq_mod,
    show (2048 : Nat) = 2 ^ 11 from rfl]
  apply Nat.eq_of_testBit_eq
  intro i
  simp only [Nat.testBit_mod_two_pow, Nat.testBit_or, Nat.testBit_shiftLeft]
  by_cases a : i < 11
  · have a1 : ¬ 11 ≤ i := by omega
    simp [a, a1]
  · simp [a]

/-- The decoded flags are the flags of the packet exactly when every overflowing bit of the
length is a flag the packet has. -/
theorem lor_eq_left_iff (f x : Nat) : f ||| x = f ↔ x &&& f = x := by
  constructor
  · intro h
    apply Nat.eq_of_testBit_eq
    intro i
    have := congrArg (fun n => Nat.testBit n i) h
    simp only [Nat.testBit_or] at this
    simp only [Nat.testBit_and]
    cases hx : x.testBit i <;> cases hf : f.testBit i <;> simp_all
  · intro h
    apply Nat.eq_of_testBit_eq
    intro i
    have := congrArg (fun n => Nat.testBit n i) h
    simp only [Nat.testBit_and] at this
    simp only [Nat.testBit_or]
    cases hx : x.testBit i <;> cases hf : f.testBit i <;> simp_all

/-- What the receiver reads from a serialized header of a packet with five-bit flags: the
16-bit word at offset 0 is the total length with the flags from bit 11 on, and the flags are
those of the packet together with the bits of the length from bit 11 on. -/
theorem headerSerialize_word (h : Header) (cmds : List BodyItem) (b rest : List Nat)
    (hb : headerSerialize h cmds = some b) (hflags : h.flags < 32) :
    readUInt16BE (b ++ rest) 0 = some (packetLength cmds ||| h.flags <<< 11) ∧
    (parseHeader (b ++ rest)).flags = h.flags ||| packetLength cmds >>> 11 := by
  obtain ⟨i1, i2, i3, i4⟩ := headerSerialize_inv h cmds b hb
  rw [headerSerialize_general h cmds i1 i2 i3 i4] at hb
  cases hb
  constructor
  · simp only [readUInt16BE, parseHeader, List.cons_append, List.length_cons]
    rw [if_pos (by omega)]
    simp only [List.getD_cons_zero, List.getD_cons_succ, Nat.zero_add]
    rw [header_word _ _ i1 hflags]
  · simp only [parseHeader, List.cons_append, List.headD_cons]
    exact header_flags _ _ i1 hflags

/-- The ack block of `transmit` keeps the flags within five bits. -/
theorem piggyback_flags_lt (p : UserPacket) (d : Device) (h : p.header.flags < 32) :
    (piggyback p d).1.header.flags < 32 := by
  unfold piggyback
  split
  · split
    · exact Nat.or_lt_two_pow (n := 5) h (by decide)
    · exact Nat.lt_of_le_of_lt Nat.and_le_left h
  · exact h

/-- The length of a body is the sum of the lengths of its parts. -/
theorem bodyLength_append (a b : List BodyItem) :
    bodyLength (a ++ b) = bodyLength a + bodyLength b := by
  induction a with
  | nil => simp [bodyLength]
  | cons x xs ih => rw [List.cons_append, bodyLength_cons, bodyLength_cons, ih, Nat.add_assoc]

/-- Every queued command adds at least its 8 header bytes to the body. -/
theorem bodyLength_queue (q : List Command) : 8 * q.length ≤ bodyLength (q.map .cmd) := by
  induction q with
  | nil => simp
  | cons c cs ih =>
    rw [List.map_cons, bodyLength_cons, List.length_cons]
    simp only [BodyItem.length, Command.length]
    omega

/-- The handles that `clearTimer` leaves armed. -/
theorem clearTimer_mem (h : Option Nat) (d : Device) (t : Timer) :
    t ∈ (clearTimer h d).timers ↔ t ∈ d.timers ∧ h ≠ some t.id := by
  cases h with
  | none => simp [clearTimer]
  | some x =>
    simp only [clearTimer, List.mem_filter, bne_iff_ne, ne_eq, Option.some.injEq]
    constructor
    · rintro ⟨a, b⟩; exact ⟨a, fun e => b e.symm⟩
    · rintro ⟨a, b⟩; exact ⟨a, fun e => b e.symm⟩

/-- The timers across the handshake step of the constructor: it arms only the heartbeat, clears
only the handle of the heartbeat, and touches no timer for a connect-flagged packet. -/
theorem handshake_timers (msg : List Nat) (h : Header) (d : Device) :
    (∀ t ∈ (handshake msg h d).device.timers, t ∈ d.timers ∨ t.kind = .sync) ∧
    (∀ t ∈ d.timers, d.syncInterval ≠ some t.id → t ∈ (handshake msg h d).device.timers) ∧
    d.nextId ≤ (handshake msg h d).device.nextId ∧
    (isConnect h.flags = true → (handshake msg h d).device.timers = d.timers) := by
  by_cases hA : d.state = .attempting ∧ isSync h.flags = true
  · have e : handshake msg h d = .done ()
        { emit (.connectionStateChange .establishing) { d with state := .establishing } with
          uid := h.uid } := by
      unfold handshake
      simp [hA.1, hA.2, setState_eq, Outcome.bind]
    rw [e]
    exact ⟨fun t ht => Or.inl ht, fun t ht _ => ht, Nat.le_refl _, fun _ => rfl⟩
  · by_cases hB : d.state = .establishing ∧ msg.length = 12 ∧ isConnect h.flags = false
    · have e : handshake msg h d = .done ()
          { (setTimer .sync (clearTimer d.syncInterval
              (emit (.connectionStateChange .opened) { d with state := .opened }))).2 with
            syncInterval := some (setTimer .sync (clearTimer d.syncInterval
              (emit (.connectionStateChange .opened) { d with state := .opened }))).1 } := by
        unfold handshake
        simp [hB.1, hB.2.1, hB.2.2, setState_eq, Outcome.bind, emit]
      rw [e]
      have hm := clearTimer_mem d.syncInterval
        (emit (.connectionStateChange .opened) { d with state := .opened })
      have hn := (clearTimer_fields d.syncInterval
        (emit (.connectionStateChange .opened) { d with state := .opened })).2.2.2.2.2.2.2.1
      generalize clearTimer d.syncInterval
        (emit (.connectionStateChange .opened) { d with state := .opened }) = c at hm hn
      simp only [Outcome.device, setTimer, List.mem_append, List.mem_singleton]
      refine ⟨?_, ?_, ?_, ?_⟩
      · intro t ht
        rcases ht with ht | ht
        · exact Or.inl ((hm t).mp ht).1
        · right; rw [ht]
      · intro t ht hne
        exact Or.inl ((hm t).mpr ⟨ht, hne⟩)
      · rw [hn]
        exact Nat.le_succ _
      · intro hc
        rw [hB.2.2] at hc
        cases hc
    · rw [handshake_noop msg h d hA hB]
      exact ⟨fun t ht => Or.inl ht, fun t ht _ => ht, Nat.le_refl _, fun _ => rfl⟩

/-- What a returning constructor leaves: the packet has the next identity and the parsed
header; pending references, heap, queues, sent datagrams and the liveness handle are as
before; the session id and the state are those after the handshake step. -/
theorem AtemPacket.new_done (fuel : Nat) (msg : List Nat) (d d1 : Device) (packet : AtemPacket)
    (hnew : AtemPacket.new fuel msg d = .done packet d1) :
    12 ≤ msg.length ∧ packet.id = d.nextId ∧ packet.header = parseHeader msg ∧
    d1.pendingPackets = d.pendingPackets ∧ d1.heap = d.heap ∧
    d1.incomingPackets = d.incomingPackets ∧ d1.nextTicks = d.nextTicks ∧ d1.sent = d.sent ∧
    d1.communicationTimeout = d.communicationTimeout ∧
    d1.uid = (if d.state = .attempting ∧ isSync packet.header.flags = true
      then packet.header.uid else d.uid) ∧
    d1.state = (if d.state = .attempting ∧ isSync packet.header.flags = true then .establishing
      else if d.state = .establishing ∧ msg.length = 12 ∧ isConnect packet.header.flags = false
        then .opened
      else d.state) ∧
    (∀ t ∈ d1.timers, t ∈ d.timers ∨ t.kind = .sync) ∧
    (∀ t ∈ d.timers, d.syncInterval ≠ some t.id → t ∈ d1.timers) ∧
    d.nextId < d1.nextId ∧
    (isConnect packet.header.flags = true → d1.timers = d.timers) := by
  by_cases h12 : 12 ≤ msg.length
  · rw [AtemPacket.new_long fuel msg d h12] at hnew
    obtain ⟨k1, k2⟩ := decodeBody_packet _ _ _ _ _ _ _ hnew
    obtain ⟨ns, hk, -⟩ := decodeBody_keeps fuel msg (parseHeader msg) d.nextId
      (handshake msg (parseHeader msg) (nextObject d)).device
    rw [hnew] at hk
    obtain ⟨-, -, s3, s4, -, s6, s7, -, s9, s10, s11, s12⟩ :=
      handshake_spec msg (parseHeader msg) (nextObject d)
    obtain ⟨t1, t2, t3, t4⟩ := handshake_timers msg (parseHeader msg) (nextObject d)
    generalize (handshake msg (parseHeader msg) (nextObject d)).device = hd at *
    have hk1 : d1 = { hd with emitted := hd.emitted ++ ns } := hk
    subst hk1
    rw [k2]
    exact ⟨h12, k1, rfl, s6, s9, s7, s11, s10, s12, s3, s4, t1, t2,
      Nat.lt_of_lt_of_le (Nat.lt_succ_self _) t3, t4⟩
  · rw [AtemPacket.new_short fuel msg d (by omega)] at hnew
    cases hnew

/-- The timers that `markAsRead` leaves armed were armed before. -/
theorem markAsRead_timers (self : Nat) (d : Device) :
    ∀ t ∈ (markAsRead self d).device.timers, t ∈ d.timers := by
  intro t ht
  unfold markAsRead at ht
  split at ht
  · exact ht
  · simp only [Outcome.device] at ht
    exact clearTimer_timers _ _ t (clearTimer_timers _ _ t ht)

/-- The loop of `removePendingPackets` returns when every pending reference is an object of
the heap; the timers it leaves armed were armed before. -/
theorem removePendingLoop_returns (fs : Option Nat) (fuel : Nat) :
    ∀ (i : Nat) (d : Device), (∀ x ∈ d.pendingPackets, x < d.heap.length) →
      d.pendingPackets.length ≤ i + fuel →
      ∃ d1, removePendingLoop fs fuel i d = .done () d1 ∧ ∀ t ∈ d1.timers, t ∈ d.timers := by
  induction fuel with
  | zero =>
    intro i d hv hle
    unfold removePendingLoop
    rw [if_neg (by omega)]
    exact ⟨d, rfl, fun t ht => ht⟩
  | succ f ih =>
    intro i d hv hle
    unfold removePendingLoop
    split
    · rename_i hi
      have hg : d.pendingPackets.get? i = some (d.pendingPackets.get ⟨i, hi⟩) :=
        List.get?_eq_get hi
      have hself := hv _ (List.get_mem d.pendingPackets i hi)
      generalize d.pendingPackets.get ⟨i, hi⟩ = self at hg hself
      have hp : d.heap.get? self = some (d.heap.get ⟨self, hself⟩) := List.get?_eq_get hself
      rw [hg]
      simp only
      rw [hp]
      simp only
      split
      · obtain ⟨d1, hm, hsub⟩ := markAsRead_done self d hself
        have hkeep := markAsRead_keepsB self d
        have hlen := markAsRead_pending_length self d d1 hm
        have htim := markAsRead_timers self d
        rw [hm] at hkeep htim ⊢
        simp only [Outcome.bind]
        have hheap : d1.heap = d.heap := hkeep.2.2.2.2.1
        obtain ⟨d2, h2, ht2⟩ := ih (i + 1) d1
          (fun x hx => by rw [hheap]; exact hv x (hsub x hx)) (by omega)
        exact ⟨d2, h2, fun t ht => htim t (ht2 t ht)⟩
      · exact ih (i + 1) d hv (by omega)
    · exact ⟨d, rfl, fun t ht => ht⟩

/-- The first step of `messageHandler` returns when every pending reference is an object of the
heap. -/
theorem confirmPending_returns (packet : AtemPacket) (d : Device)
    (hv : ∀ x ∈ d.pendingPackets, x < d.heap.length) :
    ∃ d1, confirmPending packet d = .done () d1 ∧ KeepsB d d1 ∧
      (∀ t ∈ d1.timers, t ∈ d.timers) ∧ (∀ x ∈ d1.pendingPackets, x < d1.heap.length) := by
  have hk := confirmPending_keepsB packet d
  have hq := removePendingLoop_quietly packet.header.fs d.pendingPackets.length 0 d
  unfold confirmPending at hk ⊢
  split
  · rename_i hc
    rw [if_pos hc] at hk
    obtain ⟨d1, h1, h2⟩ := removePendingLoop_returns packet.header.fs d.pendingPackets.length 0 d
      hv (by omega)
    unfold removePendingPackets at hk ⊢
    rw [h1] at hk hq ⊢
    refine ⟨d1, rfl, hk, h2, ?_⟩
    intro x hx
    rcases hq.1.2.2 x hx with h | h
    · have : d1.heap = d.heap := hk.2.2.2.2.1
      rw [this]
      exact hv x h
    · exact h
  · exact ⟨d, rfl, keepsB_refl d, fun t ht => ht, hv⟩

/-- The header of an ack-only packet, serialized. -/
theorem headerSerialize_ackOnly (uid fs ls : Option Nat) (hu : uid.getD 0 ≤ 0xFFFF)
    (hf : fs.getD 0 ≤ 0xFFFF) :
    headerSerialize ⟨flags.ack, uid, ls, fs⟩ [] = some (ackDatagram (uid.getD 0) (fs.getD 0)) := by
  have a1 : isAck flags.ack = true := by decide
  have a2 : (isSync flags.ack || isConnect flags.ack) = false := by decide
  rw [headerSerialize_general _ _ (by decide) hu (fun _ => hf)
    (fun h => by rw [a2] at h; cases h)]
  simp only [a1, a2, if_true, Bool.false_eq_true, if_false, ackDatagram]
  rfl

/-- The first transmission of an ack-only packet that has just been constructed: the call
returns, one datagram has been sent, the ack-only header with the session id of the device and
the foreign sequence of the packet, and nothing else than the heap and the sent datagrams has
changed. -/
theorem transmit_ackOnly (D : Device) (fs : Option Nat)
    (hv : ∀ x ∈ D.pendingPackets, x < D.heap.length) (hu : D.uid.getD 0 ≤ 0xFFFF)
    (hf : fs.getD 0 ≤ 0xFFFF) :
    transmit D.heap.length
        { D with heap := D.heap ++ [{ UserPacket.new .undefined with
          header := { (UserPacket.new .undefined).header with flags := flags.ack, fs := fs } }] }
      = .done () { D with heap := D.heap ++ [sentAck D.uid fs],
                          sent := D.sent ++ [ackDatagram (D.uid.getD 0) (fs.getD 0)] } := by
  have hnot : D.pendingPackets.contains D.heap.length = false := by
    rw [Bool.eq_false_iff]
    intro hc
    have := hv _ (by simpa using hc)
    omega
  have hs := headerSerialize_ackOnly D.uid fs none hu hf
  unfold transmit
  simp only [List.get?_eq_getElem?, List.getElem?_concat_length]
  simp only [piggyback, UserPacket.new, show isAck flags.ack = true from by decide,
    Bool.not_true, Bool.false_eq_true, if_false, hnot, Bool.not_false, Option.isNone_none,
    Bool.and_self, if_true]
  unfold transmitFirst
  simp only [stamp, show isSync flags.ack = false from by decide,
    show isConnect flags.ack = false from by decide, Bool.or_self, Bool.false_eq_true, if_false,
    attachQueue, Bool.and_false, Bool.false_and, bodySerialize, hs]
  simp only [setRepeat, armRetransmission,
    show isSync (flags.ack ||| flags.repeat_) = false from by decide,
    show isConnect (flags.ack ||| flags.repeat_) = false from by decide, Bool.or_self,
    Bool.false_eq_true, if_false, advanceLs, Bool.and_false, rearmSync, Bool.false_and, store,
    List.append_nil, sentAck]
  simp

/-- The index that `indexOf` finds for an object of the list: the position of the first
element with its identity. -/
theorem findIdx_present (pre post : List AtemPacket) (self : AtemPacket)
    (hpre : ∀ a ∈ pre, a.id ≠ self.id) :
    (pre ++ self :: post).findIdx? (fun a => a.id == self.id) = some pre.length := by
  rw [List.findIdx?_append]
  have h1 : pre.findIdx? (fun a => a.id == self.id) = none := by
    rw [List.findIdx?_eq_none_iff]
    intro x hx
    simpa using hpre x hx
  rw [h1]
  simp

/-- The index that `indexOf` finds for an object that is not in the list. -/
theorem findIdx_absent (l : List AtemPacket) (self : AtemPacket)
    (h : ∀ a ∈ l, a.id ≠ self.id) :
    l.findIdx? (fun a => a.id == self.id) = none := by
  rw [List.findIdx?_eq_none_iff]
  intro x hx
  simpa using h x hx

/-- The function `respond` for a packet that is still in the unacked-inbound queue: it sends
the ack-only datagram with the local sequence of the packet as foreign sequence and removes
that packet from the queue. -/
theorem respond_present (self : AtemPacket) (D : Device) (pre post : List AtemPacket)
    (hq : D.incomingPackets = pre ++ self :: post) (hpre : ∀ a ∈ pre, a.id ≠ self.id)
    (hv : ∀ x ∈ D.pendingPackets, x < D.heap.length) (hu : D.uid.getD 0 ≤ 0xFFFF)
    (hl : self.header.ls.getD 0 ≤ 0xFFFF) :
    respond self D
      = .done () { D with heap := D.heap ++ [sentAck D.uid self.header.ls],
                          sent := D.sent ++ [ackDatagram (D.uid.getD 0) (self.header.ls.getD 0)],
                          incomingPackets := pre ++ post } := by
  unfold respond
  rw [hq, findIdx_present pre post self hpre]
  simp only [alloc]
  have ht := transmit_ackOnly D self.header.ls hv hu hl
  rw [ht]
  simp only [Outcome.bind, hq]
  rw [List.eraseIdx_append_of_length_le (Nat.le_refl _)]
  simp

/-- The function `respond` for a packet that has left the unacked-inbound queue does nothing. -/
theorem respond_absent (self : AtemPacket) (D : Device)
    (h : ∀ a ∈ D.incomingPackets, a.id ≠ self.id) : respond self D = .done () D := by
  unfold respond
  rw [findIdx_absent _ _ h]

/-- The second step of `messageHandler`: when an acknowledgement is due, the packet is appended
to the unacked-inbound queue; in the Attempting state its ack-only response is sent at once and
the packet leaves the queue again, in any other state `respond` is handed to
`process.nextTick`. When none is due nothing changes. No timer is touched. -/
theorem acknowledgeIfDue_spec (packet : AtemPacket) (c : Device)
    (hv : ∀ x ∈ c.pendingPackets, x < c.heap.length) (hu : c.uid.getD 0 ≤ 0xFFFF)
    (hl : packet.header.ls.getD 0 ≤ 0xFFFF)
    (hfresh : ∀ a ∈ c.incomingPackets, a.id ≠ packet.id) :
    ∃ d2, acknowledgeIfDue packet c = .done () d2 ∧ d2.timers = c.timers ∧
      d2.communicationTimeout = c.communicationTimeout ∧ d2.nextId = c.nextId ∧
      ((c.state != .establishing && isSync packet.header.flags
          || isConnect packet.header.flags) = false → d2 = c) ∧
      ((c.state != .establishing && isSync packet.header.flags
          || isConnect packet.header.flags) = true → c.state = .attempting →
        d2.incomingPackets = c.incomingPackets ∧ d2.nextTicks = c.nextTicks ∧
        d2.sent = c.sent ++ [ackDatagram (c.uid.getD 0) (packet.header.ls.getD 0)]) ∧
      ((c.state != .establishing && isSync packet.header.flags
          || isConnect packet.header.flags) = true → c.state ≠ .attempting →
        d2.incomingPackets = c.incomingPackets ++ [packet] ∧
        d2.nextTicks = c.nextTicks ++ [packet] ∧ d2.sent = c.sent) := by
  unfold acknowledgeIfDue
  cases hdue : (c.state != .establishing && isSync packet.header.flags
      || isConnect packet.header.flags) with
  | false =>
    simp only [Bool.false_eq_true, if_false]
    exact ⟨c, rfl, rfl, rfl, rfl, fun _ => rfl, by simp, by simp⟩
  | true =>
    simp only [if_true]
    unfold acknowledge
    by_cases hs : c.state = .attempting
    · have hr := respond_present packet { c with incomingPackets := c.incomingPackets ++ [packet] }
        c.incomingPackets [] rfl hfresh hv hu hl
      simp only [hs, beq_self_eq_true, if_true]
      rw [hs] at hr
      rw [hr]
      refine ⟨_, rfl, rfl, rfl, rfl, by simp, fun _ _ => ⟨by simp, rfl, rfl⟩,
        fun _ h => absurd rfl h⟩
    · have hb : (c.state == ConnectionState.attempting) = false := by
        rw [Bool.eq_false_iff]
        intro h
        exact hs (by simpa using h)
      simp only [hb, Bool.false_eq_true, if_false]
      exact ⟨_, rfl, rfl, rfl, rfl, by simp, fun _ h => absurd h hs,
        fun _ _ => ⟨rfl, rfl, rfl⟩⟩

/-- The last step of `messageHandler`: the liveness timer with the handle the device holds is
cleared; for a packet without connect flag a new one is armed under a fresh handle, for a
connect-flagged packet none is armed and the stale handle is kept. -/
theorem resetCommunicationTimeout_spec (packet : AtemPacket) (d : Device) :
    (resetCommunicationTimeout packet d).incomingPackets = d.incomingPackets ∧
    (resetCommunicationTimeout packet d).nextTicks = d.nextTicks ∧
    (resetCommunicationTimeout packet d).sent = d.sent ∧
    (isConnect packet.header.flags = false →
      (resetCommunicationTimeout packet d).communicationTimeout = some d.nextId ∧
      (⟨d.nextId, .communication⟩ : Timer) ∈ (resetCommunicationTimeout packet d).timers ∧
      ∀ x ∈ (resetCommunicationTimeout packet d).timers,
        x = ⟨d.nextId, .communication⟩ ∨ (x ∈ d.timers ∧ d.communicationTimeout ≠ some x.id)) ∧
    (isConnect packet.header.flags = true →
      (resetCommunicationTimeout packet d).communicationTimeout = d.communicationTimeout ∧
      ∀ x ∈ (resetCommunicationTimeout packet d).timers,
        x ∈ d.timers ∧ d.communicationTimeout ≠ some x.id) := by
  obtain ⟨-, -, -, c4, -, -, -, c8, -, c10, c11, c12, -⟩ :=
    clearTimer_fields d.communicationTimeout d
  have hm := clearTimer_mem d.communicationTimeout d
  unfold resetCommunicationTimeout
  cases hc : isConnect packet.header.flags with
  | false =>
    simp only [Bool.not_false, if_true, setTimer]
    refine ⟨c4, c11, c10, fun _ => ⟨by rw [c8], ?_, ?_⟩, by simp⟩
    · rw [c8]
      exact List.mem_append_right _ (List.mem_singleton.mpr rfl)
    · intro x hx
      rcases List.mem_append.mp hx with h | h
      · exact Or.inr ((hm x).mp h)
      · left
        rw [List.mem_singleton.mp h, c8]
  | true =>
    simp only [Bool.not_true, Bool.false_eq_true, if_false]
    exact ⟨c4, c11, c10, by simp, fun _ => ⟨c12, fun x hx => (hm x).mp hx⟩⟩

/-- A 16-bit read from a buffer of bytes is at most `0xFFFF`. -/
theorem readUInt16BE_le (buf : List Nat) (o v : Nat) (hb : ∀ b ∈ buf, b < 256)
    (h : readUInt16BE buf o = some v) : v ≤ 0xFFFF := by
  have hg : ∀ i, buf.getD i 0 < 256 := by
    intro i
    rw [List.getD_eq_getElem?_getD]
    cases hi : buf[i]? with
    | none => simp
    | some x =>
      obtain ⟨hlt, hx⟩ := List.getElem?_eq_some_iff.mp hi
      exact hb x (hx ▸ List.getElem_mem hlt)
  unfold readUInt16BE at h
  split at h
  · cases h
    have h1 := hg o
    have h2 := hg (o + 1)
    omega
  · cases h

/-- The body of `messageHandler` on a packet addressed to the session, for a device whose
pending references are objects of the heap: it returns; the packet is recorded and answered as
`acknowledgeIfDue` decides, and the liveness timer is reset as `resetCommunicationTimeout`
decides. -/
theorem handlePacket_spec (packet : AtemPacket) (d : Device)
    (haddr : (d.uid == packet.header.uid || isConnect packet.header.flags) = true)
    (hv : ∀ x ∈ d.pendingPackets, x < d.heap.length) (hu : d.uid.getD 0 ≤ 0xFFFF)
    (hl : packet.header.ls.getD 0 ≤ 0xFFFF)
    (hfresh : ∀ a ∈ d.incomingPackets, a.id ≠ packet.id) :
    ∃ r, handlePacket packet d = .done () r ∧
      ((d.state != .establishing && isSync packet.header.flags
          || isConnect packet.header.flags) = false →
        r.incomingPackets = d.incomingPackets ∧ r.nextTicks = d.nextTicks ∧ r.sent = d.sent) ∧
      ((d.state != .establishing && isSync packet.header.flags
          || isConnect packet.header.flags) = true → d.state = .attempting →
        r.incomingPackets = d.incomingPackets ∧ r.nextTicks = d.nextTicks ∧
        r.sent = d.sent ++ [ackDatagram (d.uid.getD 0) (packet.header.ls.getD 0)]) ∧
      ((d.state != .establishing && isSync packet.header.flags
          || isConnect packet.header.flags) = true → d.state ≠ .attempting →
        r.incomingPackets = d.incomingPackets ++ [packet] ∧
        r.nextTicks = d.nextTicks ++ [packet] ∧ r.sent = d.sent) ∧
      (isConnect packet.header.flags = false →
        r.communicationTimeout = some d.nextId ∧
        (⟨d.nextId, .communication⟩ : Timer) ∈ r.timers ∧
        ∀ x ∈ r.timers,
          x = ⟨d.nextId, .communication⟩ ∨ (x ∈ d.timers ∧ d.communicationTimeout ≠ some x.id)) ∧
      (isConnect packet.header.flags = true →
        r.communicationTimeout = d.communicationTimeout ∧
        ∀ x ∈ r.timers, x ∈ d.timers ∧ d.communicationTimeout ≠ some x.id) := by
  obtain ⟨c, hc, hk, htim, hcv⟩ := confirmPending_returns packet d hv
  obtain ⟨⟨k1, k2, -, k4, k5, -⟩, -, k7, -, -, k10, -, k12⟩ := hk
  obtain ⟨d2, ha, a1, a2, a3, a4, a5, a6⟩ := acknowledgeIfDue_spec packet c hcv
    (by rw [k2]; exact hu) hl (by rw [k7]; exact hfresh)
  obtain ⟨r1, r2, r3, r4, r5⟩ := resetCommunicationTimeout_spec packet d2
  rw [k1, k2, k4, k7, k10] at a5
  rw [k1, k4, k7, k10] at a6
  rw [k1] at a4
  refine ⟨resetCommunicationTimeout packet d2, ?_, ?_, ?_, ?_, ?_, ?_⟩
  · unfold handlePacket
    rw [if_pos haddr, hc]
    simp only [Outcome.bind]
    rw [ha]
  · intro h
    have := a4 h
    rw [r1, r2, r3, this]
    exact ⟨k7, k4, k10⟩
  · intro h hs
    obtain ⟨b1, b2, b3⟩ := a5 h hs
    exact ⟨r1.trans b1, r2.trans b2, r3.trans b3⟩
  · intro h hs
    obtain ⟨b1, b2, b3⟩ := a6 h hs
    exact ⟨r1.trans b1, r2.trans b2, r3.trans b3⟩
  · intro h
    obtain ⟨b1, b2, b3⟩ := r4 h
    rw [a3, k12] at b1 b2 b3
    rw [a1, a2, k5] at b3
    refine ⟨b1, b2, fun x hx => ?_⟩
    rcases b3 x hx with e | ⟨e1, e2⟩
    · exact Or.inl e
    · exact Or.inr ⟨htim x e1, e2⟩
  · intro h
    obtain ⟨b1, b2⟩ := r5 h
    rw [a2, k5] at b1 b2
    rw [a1] at b2
    exact ⟨b1, fun x hx => ⟨htim x (b2 x hx).1, (b2 x hx).2⟩⟩

/-- The device a returning constructor leaves is in the Attempting state only when the device
was, and it then holds the session id it held. -/
theorem AtemPacket.new_attempting (fuel : Nat) (msg : List Nat) (d d1 : Device)
    (packet : AtemPacket) (hnew : AtemPacket.new fuel msg d = .done packet d1)
    (hs : d1.state = .attempting) : d1.uid = d.uid := by
  obtain ⟨-, -, -, -, -, -, -, -, -, n10, n11, -⟩ := AtemPacket.new_done fuel msg d d1 packet hnew
  by_cases hA : d.state = .attempting ∧ isSync packet.header.flags = true
  · rw [if_pos hA] at n11
    rw [n11] at hs
    cases hs
  · rw [if_neg hA] at n10
    exact n10

/-- The session id and the local sequence of a packet read from a datagram of bytes fit in 16
bits, and so does the session id the device holds after the constructor. -/
theorem AtemPacket.new_bounds (fuel : Nat) (msg : List Nat) (d d1 : Device)
    (packet : AtemPacket) (hnew : AtemPacket.new fuel msg d = .done packet d1)
    (hbytes : ∀ b ∈ msg, b < 256) (huid : d.uid.getD 0 ≤ 0xFFFF) :
    packet.header.ls.getD 0 ≤ 0xFFFF ∧ d1.uid.getD 0 ≤ 0xFFFF := by
  obtain ⟨-, -, n3, -, -, -, -, -, -, n10, -⟩ := AtemPacket.new_done fuel msg d d1 packet hnew
  have h1 : packet.header.ls.getD 0 ≤ 0xFFFF := by
    rw [n3]
    simp only [parseHeader]
    cases h : readUInt16BE msg 10 with
    | none => simp
    | some v => exact readUInt16BE_le msg 10 v hbytes h
  have h2 : packet.header.uid.getD 0 ≤ 0xFFFF := by
    rw [n3]
    simp only [parseHeader]
    cases h : readUInt16BE msg 2 with
    | none => simp
    | some v => exact readUInt16BE_le msg 2 v hbytes h
  refine ⟨h1, ?_⟩
  rw [n10]
  split
  · exact h2
  · exact huid

/-! ## The claims -/

/-- C1 (code defect). Cumulative acknowledgment: with pending confirmations at the local
sequences 3, 4 and 5, an inbound acknowledgement with foreign sequence 4 should leave exactly 5.
The loop of `removePendingPackets` removes the entry at sequence 3, which moves the entry at
sequence 4 to the index the loop has just left, so that entry is skipped: 4 and 5 remain. -/
theorem C1_removePendingPackets_skips :
    pendingSequences threePending = [3, 4, 5] ∧
    isAck ackOfFour.header.flags = true ∧ ackOfFour.header.fs = some 4 ∧
    (removePendingPackets ackOfFour threePending).isDone = true ∧
    pendingSequences (removePendingPackets ackOfFour threePending).device = [4, 5] := by
  decide

/-- C2 (the claim fails). The two commands of `programAndCut` have 4-character ASCII names, and
the sync packet of the session 5 that carries them has the total length 28; its serialization is
`programDatagram`. Decoded by the open session 5, the constructor delivers the first command,
`PrgI` with its empty payload (`rawCommand` and the per-name notification are emitted), the
listener of the device for `PrgI` reads byte 0 of the empty payload and throws, and the
constructor throws with it, whatever the iteration budget: no packet is returned and the second
command is never decoded. -/
theorem C2_counterexample :
    (∀ c ∈ programAndCut, c.name.length = 4 ∧ ∀ x ∈ c.name, x < 128) ∧
    packetLength (programAndCut.map .cmd) = 28 ∧
    headerSerialize ⟨flags.sync, some 5, some 1, some 0⟩ (programAndCut.map .cmd)
      = some (programDatagram.take 12) ∧
    bodySerialize (programAndCut.map .cmd) = some (programDatagram.drop 12) ∧
    openDevice.uid = some 5 ∧
    ∀ fuel, AtemPacket.new (fuel + 1) programDatagram openDevice
      = .threw { nextObject openDevice with
          emitted := [.rawCommand ⟨[0x50, 0x72, 0x67, 0x49], []⟩,
                      .named [0x50, 0x72, 0x67, 0x49] []] } :=
  ⟨by decide, by decide, by decide, by decide, by decide, fun _ => rfl⟩

/-- C2 (amended). Round trip: a packet without connect flag (a sync packet in particular) that
carries commands with 4-character ASCII names and a total length of at most 2047 is serialized
by `header.serialize` followed by `body.serialize`. When the listener of the device returns for
every command, the constructor `AtemPacket` of a device holding the same session id decodes the
bytes into the same commands in the same order; the notifications of the decoding are handshake
state changes followed, for each command in order, by `rawCommand`, the per-name notification
and what the listener of the device emits for it, and no error is among them. When the listener throws for a command, and returns for the commands before it, the
constructor throws once it has delivered that command: it returns no packet, and it has emitted
the notifications of the commands before and `rawCommand`, the per-name notification and what
the listener emitted before it threw. -/
theorem C2_roundtrip_amended (cmds : List Command) (flags uid fs ls fuel : Nat) (d : Device)
    (hname : ∀ c ∈ cmds, c.name.length = 4 ∧ ∀ x ∈ c.name, x < 128)
    (hL : packetLength (cmds.map .cmd) ≤ 2047)
    (hconnect : isConnect flags = false)
    (huid : uid ≤ 65535) (hfs : fs ≤ 65535) (hls : ls ≤ 65535)
    (hd : d.uid = some uid) (hfuel : cmds.length ≤ fuel) :
    ∃ hb bb,
      headerSerialize ⟨flags, some uid, some ls, some fs⟩ (cmds.map .cmd) = some hb ∧
      bodySerialize (cmds.map .cmd) = some bb ∧
      ((∀ c ∈ cmds, (listen c.name c.data).2 = true) →
        ∃ pkt d1, AtemPacket.new fuel (hb ++ bb) d = .done pkt d1 ∧
          pkt.commands = cmds ∧
          ∃ pre, d1.emitted = d.emitted ++ pre ++ commandNotifications cmds ∧
            (∀ n ∈ pre, ∃ s, n = Notification.connectionStateChange s) ∧
            ∀ n ∈ pre ++ commandNotifications cmds, ∀ e, n ≠ Notification.error e) ∧
      (∀ good c rest, cmds = good ++ c :: rest →
        (∀ x ∈ good, (listen x.name x.data).2 = true) → (listen c.name c.data).2 = false →
        ∃ d1 pre, AtemPacket.new fuel (hb ++ bb) d = .threw d1 ∧
          d1.emitted = d.emitted ++ pre ++ commandNotifications good ++
            (.rawCommand c :: .named c.name c.data :: (listen c.name c.data).1) ∧
          ∀ n ∈ pre, ∃ s, n = Notification.connectionStateChange s) := by
  have hc : ∀ c ∈ cmds, c.name.length = 4 ∧ (∀ x ∈ c.name, x < 128) ∧ c.length ≤ 0xFFFF := by
    intro c h
    have := length_le_bodyLength cmds c h
    unfold packetLength at hL
    exact ⟨(hname c h).1, (hname c h).2, by omega⟩
  obtain ⟨bb, hbb, hlen⟩ := bodySerialize_some cmds hc
  obtain ⟨hb, hhb, hb12, -, hrest⟩ :=
    headerSerialize_spec _ flags uid fs ls (cmds.map .cmd) rfl hL huid hfs hls
  obtain ⟨hfl, ⟨w, hw, hwL⟩, h2, h4, -, -, -, -, h10⟩ := hrest bb
  refine ⟨hb, bb, hhb, hbb, ?_⟩
  have hcon : isConnect ((hb ++ bb).headD 0 >>> 3) = false := by
    rw [hfl, isConnect_eq]
    rw [isConnect_eq] at hconnect
    simp only [decide_eq_false_iff_not] at hconnect ⊢
    omega
  have hmsg : (hb ++ bb).length = w &&& 0x7FF := by
    rw [hwL, List.length_append, hb12, hlen]; rfl
  rw [AtemPacket.new_decode fuel (hb ++ bb) d uid _ _ w h2 h4 h10 hw hcon hmsg hd]
  have hslice : slice (hb ++ bb) 12 (hb ++ bb).length = bb := by
    unfold slice
    rw [List.take_length, ← hb12, List.drop_left]
  rw [hslice]
  obtain ⟨-, ⟨pre, hpre, hpre2⟩, -⟩ := handshake_spec (hb ++ bb)
    ⟨(hb ++ bb).headD 0 >>> 3, some uid,
      some (if isSync flags || isConnect flags then ls else 0),
      some (if isAck flags then fs else 0)⟩ (nextObject d)
  constructor
  · intro hlis
    have hdec := decodeCommands_serialized cmds [] [] (handshake (hb ++ bb)
      ⟨(hb ++ bb).headD 0 >>> 3, some uid,
        some (if isSync flags || isConnect flags then ls else 0),
        some (if isAck flags then fs else 0)⟩ (nextObject d)).device fuel bb hc hlis hfuel hbb
    simp only [List.nil_append, List.length_nil] at hdec
    rw [hdec]
    refine ⟨_, _, rfl, rfl, pre, ?_, hpre2, ?_⟩
    · simp only [hpre]
      rfl
    · intro n hn e
      rcases List.mem_append.mp hn with h | h
      · obtain ⟨s, rfl⟩ := hpre2 n h
        intro x; cases x
      · exact commandNotifications_noError cmds n h e
  · intro good c rest hsplit hgood hthrow
    subst hsplit
    have hdec := decodeCommands_serialized_throws good c rest [] [] (handshake (hb ++ bb)
      ⟨(hb ++ bb).headD 0 >>> 3, some uid,
        some (if isSync flags || isConnect flags then ls else 0),
        some (if isAck flags then fs else 0)⟩ (nextObject d)).device fuel bb hc hgood hthrow
      (by simp at hfuel; omega) hbb
    simp only [List.nil_append, List.length_nil] at hdec
    rw [hdec]
    refine ⟨_, pre, rfl, ?_, hpre2⟩
    simp only [hpre]
    rfl

/-- C2 (amended), at the two commands `CPgI` and `DCut`, for which the device has no listener,
in a sync packet for an open session 5. -/
theorem C2_roundtrip_amended_witness :
    ∃ hb bb,
      headerSerialize ⟨flags.sync, some 5, some 1, some 0⟩ (twoCommands.map .cmd) = some hb ∧
      bodySerialize (twoCommands.map .cmd) = some bb ∧
      ∃ pkt d1, AtemPacket.new 2 (hb ++ bb) openDevice = .done pkt d1 ∧
      pkt.commands = twoCommands ∧
      ∃ pre, d1.emitted = openDevice.emitted ++ pre ++ commandNotifications twoCommands ∧
        ∀ n ∈ pre, ∃ s, n = Notification.connectionStateChange s := by
  obtain ⟨hb, bb, h1, h2, h3, -⟩ := C2_roundtrip_amended twoCommands flags.sync 5 0 1 2
    openDevice (by decide) (by decide) (by decide) (by decide) (by decide) (by decide)
    (by decide) (by decide)
  obtain ⟨pkt, d1, h4, h5, pre, h6, h7, -⟩ := h3 (by decide)
  exact ⟨hb, bb, h1, h2, pkt, d1, h4, h5, pre, h6, h7⟩

/-- C3. Header layout: for flags below 32, session id and sequences below 65536 and a command
list of total length `L = 12 + Σ (8 + payload length)` at most 2047, `header.serialize` returns
12 bytes; the low 11 bits of the first two bytes are `L`, the high 5 bits of byte 0 are the
flags, bytes 2-3 the session id, bytes 4-5 the foreign sequence under the ack flag and zero
otherwise, bytes 6-9 zero, bytes 10-11 the local sequence under the sync or connect flag and zero
otherwise. -/
theorem C3_header_layout (flags uid fs ls : Nat) (cmds : List Command)
    (hflags : flags < 32) (huid : uid ≤ 65535) (hfs : fs ≤ 65535) (hls : ls ≤ 65535)
    (hL : 12 + (cmds.map fun c => 8 + c.data.length).sum ≤ 2047) :
    ∃ b w, headerSerialize ⟨flags, some uid, some ls, some fs⟩ (cmds.map .cmd) = some b ∧
      b.length = 12 ∧ (∀ x ∈ b, x < 256) ∧
      readUInt16BE b 0 = some w ∧
      w % 2048 = 12 + (cmds.map fun c => 8 + c.data.length).sum ∧
      b.headD 0 >>> 3 = flags ∧
      readUInt16BE b 2 = some uid ∧
      readUInt16BE b 4 = some (if isAck flags then fs else 0) ∧
      b.getD 6 0 = 0 ∧ b.getD 7 0 = 0 ∧ b.getD 8 0 = 0 ∧ b.getD 9 0 = 0 ∧
      readUInt16BE b 10 = some (if isSync flags || isConnect flags then ls else 0) := by
  have hlen : packetLength (cmds.map .cmd) = 12 + (cmds.map fun c => 8 + c.data.length).sum := by
    unfold packetLength; rw [bodyLength_eq_sum]
  obtain ⟨b, hb, hb12, hbytes, hrest⟩ :=
    headerSerialize_spec _ flags uid fs ls (cmds.map .cmd) hlen hL huid hfs hls
  obtain ⟨hfl, ⟨w, hw, hwL⟩, h2, h4, h6, h7, h8, h9, h10⟩ := hrest []
  rw [List.append_nil] at hfl hw h2 h4 h6 h7 h8 h9 h10
  refine ⟨b, w, hb, hb12, hbytes, hw, ?_, ?_, h2, h4, h6, h7, h8, h9, h10⟩
  · rw [← hwL, show (0x7FF : Nat) = 2 ^ 11 - 1 from rfl, Nat.and_pow_two_sub_one_eq_mod]
  · rw [hfl]; omega

/-- C3, at a sync packet with ack flag that carries the two commands `CPgI` and `DCut`. -/
theorem C3_header_layout_witness :
    ∃ b w, headerSerialize ⟨17, some 5, some 9, some 3⟩ (twoCommands.map .cmd) = some b ∧
      b.length = 12 ∧ (∀ x ∈ b, x < 256) ∧
      readUInt16BE b 0 = some w ∧
      w % 2048 = 12 + (twoCommands.map fun c => 8 + c.data.length).sum ∧
      b.headD 0 >>> 3 = 17 ∧
      readUInt16BE b 2 = some 5 ∧
      readUInt16BE b 4 = some (if isAck 17 then 3 else 0) ∧
      b.getD 6 0 = 0 ∧ b.getD 7 0 = 0 ∧ b.getD 8 0 = 0 ∧ b.getD 9 0 = 0 ∧
      readUInt16BE b 10 = some (if isSync 17 || isConnect 17 then 9 else 0) :=
  C3_header_layout 17 5 3 9 twoCommands (by decide) (by decide) (by decide) (by decide)
    (by decide)

/-- C4 (the claim fails). The body of `overlongRecord` has 8 bytes and its first record declares
100; session id and total length match. The decoding reports no error: it returns a packet
with one command, `ABCD` with an empty payload, and emits `rawCommand` and the per-name
notification for it. -/
theorem C4_counterexample :
    isConnect (overlongRecord.headD 0 >>> 3) = false ∧
    (readUInt16BE overlongRecord 0).map (· &&& 0x7FF) = some overlongRecord.length ∧
    readUInt16BE overlongRecord 2 = openDevice.uid ∧
    readUInt16BE (slice overlongRecord 12 overlongRecord.length) 0 = some 100 ∧
    (slice overlongRecord 12 overlongRecord.length).length = 8 ∧
    ∃ pkt d1, AtemPacket.new 1 overlongRecord openDevice = .done pkt d1 ∧
      pkt.commands = [⟨[0x41, 0x42, 0x43, 0x44], []⟩] ∧
      d1.emitted = [.rawCommand ⟨[0x41, 0x42, 0x43, 0x44], []⟩,
        .named [0x41, 0x42, 0x43, 0x44] []] :=
  ⟨by decide, by decide, by decide, by decide, by decide, _, _, rfl, by decide, by decide⟩

/-- C4 (amended). Malformed body: for a datagram of at least 12 bytes without connect flag,
with matching session id and matching total length, whose first command record declares a
length greater than the body size, the decoding reports no error and runs one iteration: it
delivers exactly one command record, whose name is decoded from bytes 4-7 of the body and whose
payload is the body from offset 8 to its end, and emits `rawCommand` and the per-name
notification for it after the handshake notifications. When the listener of the device for that
name returns, the constructor returns the packet with exactly that record, having emitted also
what the listener emits. When the listener throws, the constructor throws after these
notifications and returns no packet. No read of the loop goes past the end of the body. -/
theorem C4_malformed_body_amended (fuel : Nat) (msg : List Nat) (d : Device)
    (word cmdLength : Nat) (h12 : 12 ≤ msg.length)
    (hcon : isConnect (msg.headD 0 >>> 3) = false)
    (h0 : readUInt16BE msg 0 = some word) (hlen : msg.length = word &&& 0x7FF)
    (hu : d.uid = readUInt16BE msg 2)
    (hdecl : readUInt16BE (slice msg 12 msg.length) 0 = some cmdLength)
    (hbig : (slice msg 12 msg.length).length < cmdLength) (hfuel : 1 ≤ fuel) :
    ∃ pre, (∀ n ∈ pre, ∃ s, n = Notification.connectionStateChange s) ∧
      ((listen (bufToString (slice msg 12 msg.length) 4 8)
          ((slice msg 12 msg.length).drop 8)).2 = true →
        ∃ pkt d1, AtemPacket.new fuel msg d = .done pkt d1 ∧
          pkt.commands = [⟨bufToString (slice msg 12 msg.length) 4 8,
            (slice msg 12 msg.length).drop 8⟩] ∧
          d1.emitted = d.emitted ++ pre ++ commandNotifications pkt.commands) ∧
      ((listen (bufToString (slice msg 12 msg.length) 4 8)
          ((slice msg 12 msg.length).drop 8)).2 = false →
        ∃ d1, AtemPacket.new fuel msg d = .threw d1 ∧
          d1.emitted = d.emitted ++ pre ++
            (.rawCommand ⟨bufToString (slice msg 12 msg.length) 4 8,
                (slice msg 12 msg.length).drop 8⟩
              :: .named (bufToString (slice msg 12 msg.length) 4 8)
                ((slice msg 12 msg.length).drop 8)
              :: (listen (bufToString (slice msg 12 msg.length) 4 8)
                ((slice msg 12 msg.length).drop 8)).1)) := by
  obtain ⟨uid, h2⟩ := readUInt16BE_isSome msg 2 (by omega)
  obtain ⟨fs, h4⟩ := readUInt16BE_isSome msg 4 (by omega)
  obtain ⟨ls, h10⟩ := readUInt16BE_isSome msg 10 (by omega)
  rw [h2] at hu
  rw [AtemPacket.new_decode fuel msg d uid fs ls word h2 h4 h10 h0 hcon hlen hu]
  obtain ⟨-, ⟨pre, hpre, hpre2⟩, -⟩ := handshake_spec msg
    ⟨msg.headD 0 >>> 3, some uid, some ls, some fs⟩ (nextObject d)
  generalize (handshake msg ⟨msg.headD 0 >>> 3, some uid, some ls, some fs⟩
    (nextObject d)).device = hd at hpre ⊢
  generalize slice msg 12 msg.length = body at hdecl hbig ⊢
  have hb2 : 2 ≤ body.length := by
    unfold readUInt16BE at hdecl
    split at hdecl
    · omega
    · cases hdecl
  obtain ⟨f, rfl⟩ : ∃ f, fuel = f + 1 := ⟨fuel - 1, by omega⟩
  have hdata : slice body 8 cmdLength = body.drop 8 := by
    unfold slice
    rw [List.take_of_length_le (by omega)]
  unfold decodeCommands
  rw [if_pos (by omega), hdecl]
  simp only [Nat.zero_add, hdata]
  refine ⟨pre, hpre2, ?_, ?_⟩
  · intro hl
    rw [if_pos hl, decodeCommands_stop _ _ _ _ _ (by omega)]
    simp only [Outcome.bind, List.nil_append]
    refine ⟨_, _, rfl, rfl, ?_⟩
    simp only [emit, emitAll, hpre, commandNotifications]
    simp [nextObject]
  · intro hl
    rw [if_neg (by simp [hl])]
    simp only [Outcome.bind]
    refine ⟨_, rfl, ?_⟩
    simp only [emit, emitAll, hpre]
    simp [nextObject]

/-- C4 (amended), at `overlongRecord` received by an open session 5: the device has no listener
for the name `ABCD`, and the constructor returns the packet with the truncated record. -/
theorem C4_malformed_body_amended_witness :
    ∃ pkt d1, AtemPacket.new 1 overlongRecord openDevice = .done pkt d1 ∧
      pkt.commands = [⟨bufToString (slice overlongRecord 12 overlongRecord.length) 4 8,
        (slice overlongRecord 12 overlongRecord.length).drop 8⟩] ∧
      ∃ pre, d1.emitted = openDevice.emitted ++ pre ++ commandNotifications pkt.commands ∧
        ∀ n ∈ pre, ∃ s, n = Notification.connectionStateChange s := by
  obtain ⟨pre, h1, h2, -⟩ := C4_malformed_body_amended 1 overlongRecord openDevice 0x0814 100
    (by decide) (by decide) (by decide) (by decide) (by decide) (by decide) (by decide)
    (by decide)
  obtain ⟨pkt, d1, h3, h4, h5⟩ := h2 (by decide)
  exact ⟨pkt, d1, h3, h4, pre, h5, h1⟩

/-- C5. State progression: `connect()` on a closed device with an address leaves the state
Attempting and the sequence counter 0; handling then any sync-flagged packet (a datagram with
its 12-byte header) leaves the state Establishing and the session identity equal to the session
id of that packet; handling then any packet of exactly 12 bytes without connect flag leaves the
state Open. Each device is the one the call leaves behind, however the call ends. -/
theorem C5_state_progression (rnd : Nat) (d : Device) (msg1 msg2 : List Nat) (fuel1 fuel2 : Nat)
    (hclosed : d.state = .closed) (hip : ipTruthy d.ip = true)
    (hlen1 : 12 ≤ msg1.length) (hsync : isSync (msg1.headD 0 >>> 3) = true)
    (hlen2 : msg2.length = 12) (hnc : isConnect (msg2.headD 0 >>> 3) = false) :
    (connect rnd d).device.state = .attempting ∧ (connect rnd d).device.ls = 0 ∧
    (messageHandler fuel1 msg1 (connect rnd d).device).device.state = .establishing ∧
    (messageHandler fuel1 msg1 (connect rnd d).device).device.uid = readUInt16BE msg1 2 ∧
    (messageHandler fuel2 msg2
      (messageHandler fuel1 msg1 (connect rnd d).device).device).device.state = .opened := by
  obtain ⟨c1, c2, -⟩ := connect_state_ls rnd d hclosed hip
  obtain ⟨s1, u1⟩ := messageHandler_state fuel1 msg1 (connect rnd d).device hlen1
  rw [if_pos ⟨c1, hsync⟩] at s1 u1
  obtain ⟨s2, -⟩ := messageHandler_state fuel2 msg2
    (messageHandler fuel1 msg1 (connect rnd d).device).device (by omega)
  rw [if_neg (by rw [s1]; simp), if_pos ⟨s1, hlen2, hnc⟩] at s2
  exact ⟨c1, c2, s1, u1, s2⟩

/-- C5, at `connect()` on `configuredDevice` followed by two header-only sync packets. -/
theorem C5_state_progression_witness :
    (connect 77 configuredDevice).device.state = .attempting ∧
    (connect 77 configuredDevice).device.ls = 0 ∧
    (messageHandler 1 syncReply (connect 77 configuredDevice).device).device.state
      = .establishing ∧
    (messageHandler 1 syncReply (connect 77 configuredDevice).device).device.uid
      = readUInt16BE syncReply 2 ∧
    (messageHandler 1 syncReply
      (messageHandler 1 syncReply (connect 77 configuredDevice).device).device).device.state
      = .opened :=
  C5_state_progression 77 configuredDevice syncReply syncReply 1 1 (by decide) (by decide)
    (by decide) (by decide) (by decide) (by decide)

/-- C6 (the claim fails). After `connect()` on `configuredDevice`, the connect-flagged
`connectReply` and then the 12-byte sync-flagged `syncReply` are handled; all three calls
return. The states announced are Attempting and Establishing, and the final state is
Establishing, not Open: the connect-flagged reply carries no sync flag and leaves the state
Attempting. -/
theorem C6_counterexample :
    configuredDevice.state = .closed ∧ ipTruthy configuredDevice.ip = true ∧
    isConnect (connectReply.headD 0 >>> 3) = true ∧
    syncReply.length = 12 ∧ isSync (syncReply.headD 0 >>> 3) = true ∧
    (connect 77 configuredDevice).isDone = true ∧
    (messageHandler 1 connectReply (connect 77 configuredDevice).device).isDone = true ∧
    (messageHandler 1 syncReply
      (messageHandler 1 connectReply (connect 77 configuredDevice).device).device).isDone
      = true ∧
    stateChanges (messageHandler 1 syncReply
      (messageHandler 1 connectReply (connect 77 configuredDevice).device).device).device.emitted
      = [.attempting, .establishing] ∧
    (messageHandler 1 syncReply
      (messageHandler 1 connectReply (connect 77 configuredDevice).device).device).device.state
      = .establishing := by
  decide

/-- C6 (amended). End-to-end handshake: after `connect()` on a closed device with an address,
handling a connect-flagged reply and then a 12-byte sync-flagged reply without connect flag
announces the states Attempting, Establishing, Open and ends in Open when the connect-flagged
reply also carries the sync flag; when it does not, the states announced are Attempting,
Establishing and the final state is Establishing. -/
theorem C6_handshake_amended (rnd : Nat) (d : Device) (msg1 msg2 : List Nat) (fuel1 fuel2 : Nat)
    (hclosed : d.state = .closed) (hip : ipTruthy d.ip = true)
    (hlen1 : 12 ≤ msg1.length) (_hc1 : isConnect (msg1.headD 0 >>> 3) = true)
    (hlen2 : msg2.length = 12) (hs2 : isSync (msg2.headD 0 >>> 3) = true)
    (hc2 : isConnect (msg2.headD 0 >>> 3) = false) :
    stateChanges (messageHandler fuel2 msg2
        (messageHandler fuel1 msg1 (connect rnd d).device).device).device.emitted
      = stateChanges d.emitted ++
        (if isSync (msg1.headD 0 >>> 3) = true then [.attempting, .establishing, .opened]
          else [.attempting, .establishing]) ∧
    (messageHandler fuel2 msg2
        (messageHandler fuel1 msg1 (connect rnd d).device).device).device.state
      = (if isSync (msg1.headD 0 >>> 3) = true then .opened else .establishing) := by
  obtain ⟨c1, -, -, c4⟩ := connect_state_ls rnd d hclosed hip
  obtain ⟨s1, -⟩ := messageHandler_state fuel1 msg1 (connect rnd d).device hlen1
  have e1 := messageHandler_stateChanges fuel1 msg1 (connect rnd d).device hlen1
  obtain ⟨s2, -⟩ := messageHandler_state fuel2 msg2
    (messageHandler fuel1 msg1 (connect rnd d).device).device (by omega)
  have e2 := messageHandler_stateChanges fuel2 msg2
    (messageHandler fuel1 msg1 (connect rnd d).device).device (by omega)
  have c4' : stateChanges (connect rnd d).device.emitted
      = stateChanges d.emitted ++ [.attempting] := by
    rw [c4]; simp [stateChanges, Notification.state?]
  by_cases hs1 : isSync (msg1.headD 0 >>> 3) = true
  · rw [if_pos ⟨c1, hs1⟩] at s1 e1
    have hne : ¬ ((messageHandler fuel1 msg1 (connect rnd d).device).device.state = .attempting ∧
        isSync (msg2.headD 0 >>> 3) = true) := by rw [s1]; simp
    rw [if_neg hne, if_pos ⟨s1, hlen2, hc2⟩] at s2 e2
    rw [e2, e1, c4', s2, if_pos hs1, if_pos hs1]
    simp
  · have hne : ¬ ((connect rnd d).device.state = .attempting ∧
        isSync (msg1.headD 0 >>> 3) = true) := fun h => hs1 h.2
    have hne2 : ¬ ((connect rnd d).device.state = .establishing ∧ msg1.length = 12 ∧
        isConnect (msg1.headD 0 >>> 3) = false) := by rw [c1]; simp
    rw [if_neg hne, if_neg hne2] at s1 e1
    rw [c1] at s1
    rw [if_pos ⟨s1, hs2⟩] at s2 e2
    rw [e2, e1, c4', s2, if_neg hs1, if_neg hs1]
    simp

/-- C6 (amended), at `connectReply` and `syncReply` after `connect()` on `configuredDevice`. -/
theorem C6_handshake_amended_witness :
    stateChanges (messageHandler 1 syncReply
        (messageHandler 1 connectReply (connect 77 configuredDevice).device).device).device.emitted
      = stateChanges configuredDevice.emitted ++
        (if isSync (connectReply.headD 0 >>> 3) = true then [.attempting, .establishing, .opened]
          else [.attempting, .establishing]) ∧
    (messageHandler 1 syncReply
        (messageHandler 1 connectReply (connect 77 configuredDevice).device).device).device.state
      = (if isSync (connectReply.headD 0 >>> 3) = true then .opened else .establishing) :=
  C6_handshake_amended 77 configuredDevice connectReply syncReply 1 1 (by decide) (by decide)
    (by decide) (by decide) (by decide) (by decide) (by decide)

/-- C7 (code defect). Every assignment to the connection state emits `connectionStateChange`
with the new state, but no assignment emits `connected`: the setter compares the state object
with the number 2, which is never equal. The assignment of `ConnectionState.open` returns with
exactly one new notification, the state change, and without the sync packet that the listener
of `connected` would send. -/
theorem C7_setState_never_connected (d : Device) (s : ConnectionState) :
    setState s d = .done () { d with state := s,
                                     emitted := d.emitted ++ [.connectionStateChange s] } ∧
    (setState .opened d).device.emitted = d.emitted ++ [.connectionStateChange .opened] ∧
    (setState .opened d).device.sent = d.sent ∧
    (setState .opened d).device.heap = d.heap :=
  ⟨setState_eq s d, by rw [setState_eq]; rfl, by rw [setState_eq]; rfl, by rw [setState_eq]; rfl⟩

/-- C8 (the claim fails). The session `establishingDevice` holds the identity 5; the 12-byte
packet `foreignSync` has no connect flag and the session id 6. Handling it returns and leaves
the state Open. -/
theorem C8_counterexample :
    establishingDevice.state = .establishing ∧ establishingDevice.uid = some 5 ∧
    isConnect (foreignSync.headD 0 >>> 3) = false ∧ readUInt16BE foreignSync 2 = some 6 ∧
    (messageHandler 0 foreignSync establishingDevice).isDone = true ∧
    (messageHandler 0 foreignSync establishingDevice).device.state = .opened := by
  decide

/-- C8 (amended). Identity mismatch: for a session in state Open, or in state Establishing
when the datagram is not exactly 12 bytes long, and every inbound packet without connect flag
whose session id differs from the held identity, handling the packet never runs out of
iterations, returns exactly when the datagram has its 12 header bytes, and leaves the connection
state, session identity, sequence counter, pending confirmations, unacked-inbound queue and
command queue unchanged; it delivers no command: the only notification it may add is one
error. -/
theorem C8_identity_mismatch_amended (fuel : Nat) (msg : List Nat) (d : Device) (u : Nat)
    (hu : readUInt16BE msg 2 = some u) (hne : d.uid ≠ some u)
    (hnc : isConnect (msg.headD 0 >>> 3) = false)
    (hs : d.state = .opened ∨ (d.state = .establishing ∧ msg.length ≠ 12)) :
    ((messageHandler fuel msg d).isDone = true ↔ 12 ≤ msg.length) ∧
    (∀ x, messageHandler fuel msg d ≠ .noFuel x) ∧
    (messageHandler fuel msg d).device.state = d.state ∧
    (messageHandler fuel msg d).device.uid = d.uid ∧
    (messageHandler fuel msg d).device.ls = d.ls ∧
    (messageHandler fuel msg d).device.pendingPackets = d.pendingPackets ∧
    (messageHandler fuel msg d).device.incomingPackets = d.incomingPackets ∧
    (messageHandler fuel msg d).device.commandQueue = d.commandQueue ∧
    ((messageHandler fuel msg d).device.emitted = d.emitted ∨
      ∃ e, (messageHandler fuel msg d).device.emitted = d.emitted ++ [.error e]) := by
  by_cases h12 : 12 ≤ msg.length
  · obtain ⟨word, hw⟩ := readUInt16BE_isSome msg 0 (by omega)
    have hn1 : ¬ ((nextObject d).state = .attempting ∧ isSync (parseHeader msg).flags = true) := by
      rcases hs with h | h
      · simp [nextObject, h]
      · simp [nextObject, h.1]
    have hn2 : ¬ ((nextObject d).state = .establishing ∧ msg.length = 12 ∧
        isConnect (parseHeader msg).flags = false) := by
      rcases hs with h | h
      · simp [nextObject, h]
      · intro hh; exact h.2 hh.2.1
    have hm : ¬ (msg.length = word &&& 0x7FF ∧ (parseHeader msg).uid = (nextObject d).uid) := by
      intro hh
      apply hne
      have := hh.2
      simp only [parseHeader, nextObject, hu] at this
      exact this.symm
    have e : messageHandler fuel msg d = .done () (emit (.error (if msg.length ≠ word &&& 0x7FF
          then .messageLengthMismatch else .uidMismatch)) (nextObject d)) := by
      unfold messageHandler
      rw [AtemPacket.new_long fuel msg d h12, handshake_noop msg _ _ hn1 hn2]
      simp only [Outcome.device]
      rw [decodeBody_mismatch fuel msg _ _ _ word hnc hw hm]
      simp only [Outcome.bind, handlePacket]
      have : ((emit (.error (if msg.length ≠ word &&& 0x7FF
          then .messageLengthMismatch else .uidMismatch)) (nextObject d)).uid
            == (parseHeader msg).uid) = false := by
        rw [Bool.eq_false_iff]
        intro hh
        simp only [beq_iff_eq, emit, nextObject, parseHeader, hu] at hh
        exact hne hh
      rw [this]
      simp only [Bool.false_or]
      have hnc' : isConnect (parseHeader msg).flags = false := hnc
      rw [hnc']
      simp
    rw [e]
    refine ⟨(by simp [Outcome.isDone, h12]), (by intro x hx; cases hx), rfl, rfl, rfl, rfl, rfl,
      rfl, Or.inr ⟨_, rfl⟩⟩
  · have e : messageHandler fuel msg d = .threw d := by
      unfold messageHandler
      rw [AtemPacket.new_short fuel msg d (by omega)]
      rfl
    rw [e]
    refine ⟨(by simp [Outcome.isDone, h12]), (by intro x hx; cases hx), rfl, rfl, rfl, rfl, rfl,
      rfl, Or.inl rfl⟩

/-- C8 (amended), at the 14-byte `wrongSessionPacket` received by `establishingDevice`. -/
theorem C8_identity_mismatch_amended_witness :
    ((messageHandler 0 wrongSessionPacket establishingDevice).isDone = true
      ↔ 12 ≤ wrongSessionPacket.length) ∧
    (∀ x, messageHandler 0 wrongSessionPacket establishingDevice ≠ .noFuel x) ∧
    (messageHandler 0 wrongSessionPacket establishingDevice).device.state
      = establishingDevice.state ∧
    (messageHandler 0 wrongSessionPacket establishingDevice).device.uid
      = establishingDevice.uid ∧
    (messageHandler 0 wrongSessionPacket establishingDevice).device.ls = establishingDevice.ls ∧
    (messageHandler 0 wrongSessionPacket establishingDevice).device.pendingPackets
      = establishingDevice.pendingPackets ∧
    (messageHandler 0 wrongSessionPacket establishingDevice).device.incomingPackets
      = establishingDevice.incomingPackets ∧
    (messageHandler 0 wrongSessionPacket establishingDevice).device.commandQueue
      = establishingDevice.commandQueue ∧
    ((messageHandler 0 wrongSessionPacket establishingDevice).device.emitted
        = establishingDevice.emitted ∨
      ∃ e, (messageHandler 0 wrongSessionPacket establishingDevice).device.emitted
        = establishingDevice.emitted ++ [.error e]) :=
  C8_identity_mismatch_amended 0 wrongSessionPacket establishingDevice 6 (by decide) (by decide)
    (by decide) (Or.inr ⟨by decide, by decide⟩)

/-- C9 (the claim fails). The open session `threePending` holds the identity 7; the
acknowledgement `badLengthAck` has 12 bytes, a length field of 13, no connect flag and the
session id 7. Handling it returns, reports the length mismatch, and still confirms a pending
packet: the pending confirmations change from 3, 4, 5 to 4, 5. -/
theorem C9_counterexample :
    isConnect (badLengthAck.headD 0 >>> 3) = false ∧
    (readUInt16BE badLengthAck 0).map (· &&& 0x7FF) = some 13 ∧ badLengthAck.length = 12 ∧
    (messageHandler 0 badLengthAck threePending).isDone = true ∧
    (messageHandler 0 badLengthAck threePending).device.emitted
      = [.error .messageLengthMismatch] ∧
    pendingSequences threePending = [3, 4, 5] ∧
    pendingSequences (messageHandler 0 badLengthAck threePending).device = [4, 5] := by
  decide

/-- C9 (amended). Length mismatch: for every inbound packet of at least 12 bytes without
connect flag whose 11-bit total-length field differs from the number of bytes received, the
constructor returns a packet with an empty command list, and handling the packet adds, after the
notifications of a handshake transition, exactly the error `Message length mismatch` and no
command notification. The header is still processed: the state changes by the handshake
transitions only (sync flag while Attempting, 12 bytes while Establishing), and when the session
id differs from the held identity and the packet does not make the session adopt its id, the
handling returns with the pending confirmations and the unacked-inbound queue unchanged. -/
theorem C9_length_mismatch_amended (fuel : Nat) (msg : List Nat) (d : Device) (word : Nat)
    (h12 : 12 ≤ msg.length) (hw : readUInt16BE msg 0 = some word)
    (hmis : msg.length ≠ word &&& 0x7FF)
    (hnc : isConnect (msg.headD 0 >>> 3) = false) :
    (∃ pkt d1, AtemPacket.new fuel msg d = .done pkt d1 ∧ pkt.commands = []) ∧
    (∃ pre, (messageHandler fuel msg d).device.emitted
        = d.emitted ++ pre ++ [.error .messageLengthMismatch] ∧
      ∀ n ∈ pre, ∃ s, n = Notification.connectionStateChange s) ∧
    (messageHandler fuel msg d).device.state
      = (if d.state = .attempting ∧ isSync (msg.headD 0 >>> 3) = true then .establishing
        else if d.state = .establishing ∧ msg.length = 12 then .opened
        else d.state) ∧
    (d.uid ≠ readUInt16BE msg 2 →
      ¬ (d.state = .attempting ∧ isSync (msg.headD 0 >>> 3) = true) →
      (messageHandler fuel msg d).isDone = true ∧
      (messageHandler fuel msg d).device.pendingPackets = d.pendingPackets ∧
      (messageHandler fuel msg d).device.incomingPackets = d.incomingPackets) := by
  have hnew : AtemPacket.new fuel msg d
      = .done ⟨d.nextId, parseHeader msg, []⟩ (emit (.error .messageLengthMismatch)
          (handshake msg (parseHeader msg) (nextObject d)).device) := by
    rw [AtemPacket.new_long fuel msg d h12,
      decodeBody_mismatch fuel msg _ _ _ word hnc hw (fun h => hmis h.1), if_pos hmis]
  obtain ⟨-, ⟨pre, hpre, hpre2⟩, hu, -, -, hp, hi, -⟩ :=
    handshake_spec msg (parseHeader msg) (nextObject d)
  obtain ⟨-, -, m3⟩ := messageHandler_after_new fuel msg d
  obtain ⟨s1, -⟩ := messageHandler_state fuel msg d h12
  refine ⟨⟨_, _, hnew, rfl⟩, ⟨pre, ?_, hpre2⟩, ?_, ?_⟩
  · rw [m3, hnew, Outcome.device_done]
    simp only [emit, hpre]
    rfl
  · rw [s1]
    simp only [hnc, and_true]
  · intro hud hna
    have hu' : (handshake msg (parseHeader msg) (nextObject d)).device.uid = d.uid := by
      rw [hu, if_neg (by simpa [nextObject, parseHeader] using hna)]
      rfl
    have e : messageHandler fuel msg d = .done () (emit (.error .messageLengthMismatch)
          (handshake msg (parseHeader msg) (nextObject d)).device) := by
      unfold messageHandler
      rw [hnew]
      simp only [Outcome.bind, handlePacket]
      have : ((emit (.error .messageLengthMismatch)
          (handshake msg (parseHeader msg) (nextObject d)).device).uid
            == (parseHeader msg).uid) = false := by
        rw [Bool.eq_false_iff]
        intro hh
        simp only [beq_iff_eq, emit, hu'] at hh
        exact hud hh
      have hnc' : isConnect (parseHeader msg).flags = false := hnc
      simp only [this, hnc', Bool.or_self, Bool.false_eq_true, if_false]
    rw [e]
    exact ⟨rfl, hp, hi⟩

/-- C9 (amended), at `badLengthAck` received by the open session `threePending`. -/
theorem C9_length_mismatch_amended_witness :
    (∃ pkt d1, AtemPacket.new 0 badLengthAck threePending = .done pkt d1 ∧ pkt.commands = []) ∧
    (∃ pre, (messageHandler 0 badLengthAck threePending).device.emitted
        = threePending.emitted ++ pre ++ [.error .messageLengthMismatch] ∧
      ∀ n ∈ pre, ∃ s, n = Notification.connectionStateChange s) ∧
    (messageHandler 0 badLengthAck threePending).device.state
      = (if threePending.state = .attempting ∧ isSync (badLengthAck.headD 0 >>> 3) = true
          then .establishing
        else if threePending.state = .establishing ∧ badLengthAck.length = 12 then .opened
        else threePending.state) ∧
    (threePending.uid ≠ readUInt16BE badLengthAck 2 →
      ¬ (threePending.state = .attempting ∧ isSync (badLengthAck.headD 0 >>> 3) = true) →
      (messageHandler 0 badLengthAck threePending).isDone = true ∧
      (messageHandler 0 badLengthAck threePending).device.pendingPackets
        = threePending.pendingPackets ∧
      (messageHandler 0 badLengthAck threePending).device.incomingPackets
        = threePending.incomingPackets) :=
  C9_length_mismatch_amended 0 badLengthAck threePending 0x800D (by decide) (by decide)
    (by decide) (by decide)

/-- C10. Sequence counter: when a sync packet is transmitted for the first time (it is not
pending and has no serialized cache) while the state is not Attempting, and the call returns,
the counter goes from `n` to `(n + 1) mod 65536`; every other call of `transmit` (a
retransmission, a packet without sync flag, any packet while Attempting) leaves the counter as
it was, however the call ends. -/
theorem C10_sequence_counter (self : Nat) (d d1 : Device) (p : UserPacket)
    (hp : d.heap.get? self = some p) :
    (self ∉ d.pendingPackets → p.serializedCache = none → isSync p.header.flags = true →
      d.state ≠ .attempting → transmit self d = .done () d1 →
      d1.ls = (d.ls + 1) % 65536) ∧
    (¬ (self ∉ d.pendingPackets ∧ p.serializedCache = none ∧ isSync p.header.flags = true ∧
        d.state ≠ .attempting) →
      (transmit self d).device.ls = d.ls) := by
  have key := transmit_ls self d p hp
  constructor
  · intro h1 h2 h3 h4 h5
    rw [h5] at key
    have hc : d.pendingPackets.contains self = false := by simpa using h1
    have hs : (d.state != .attempting) = true := by simpa using h4
    rw [hc, h2, h3, hs] at key
    simpa [Outcome.device, Outcome.isDone] using key
  · intro h
    rw [key]
    apply if_neg
    intro hh
    apply h
    simp only [Bool.and_eq_true, Bool.not_eq_true', Option.isNone_iff_eq_none, bne_iff_ne,
      ne_eq] at hh
    refine ⟨?_, hh.2.1.2, hh.2.2.2, hh.2.2.1⟩
    simpa using hh.2.1.1

/-- C10, at the wraparound: a new sync packet sent by an open session whose counter is 65535
leaves the counter 0. -/
theorem C10_sequence_counter_witness :
    wrappingDevice.ls = 65535 ∧ (transmit 0 wrappingDevice).isDone = true ∧
    (transmit 0 wrappingDevice).device.ls = 0 :=
  ⟨by decide, by decide,
    (C10_sequence_counter 0 wrappingDevice (transmit 0 wrappingDevice).device
      (UserPacket.new .undefined) (by decide)).1 (by decide) (by decide) (by decide) (by decide)
      (by rfl)⟩

/-- C11, counterexample: `connect()` is called on an open session that has a command queued
and its batch timer armed (`disconnect` cancels neither). The batch timer fires while the new
run is Attempting: `sync()` transmits the first new sync packet of the run, with local sequence
0 and no command, and the counter stays 0. After the handshake the heartbeat transmits the
next new sync packet, while Open: its local sequence is 0 again, it carries no command, and
the command queued before the first is still in the queue. -/
theorem C11_counterexample :
    batchingDevice.commandQueue = [⟨[0x44, 0x43, 0x75, 0x74], []⟩] ∧
    (connect 78 batchingDevice).isDone = true ∧
    (connect 78 batchingDevice).device.state = .attempting ∧
    (Event.timer 11 0).callsSync (connect 78 batchingDevice).device = true ∧
    (step (.timer 11 0) (connect 78 batchingDevice).device).isDone = true ∧
    ((step (.timer 11 0) (connect 78 batchingDevice).device).device.heap.get? 5).map
      (fun p => (isSync p.header.flags, p.header.ls, p.commands)) = some (true, some 0, []) ∧
    (step (.timer 11 0) (connect 78 batchingDevice).device).device.sent.length
      = (connect 78 batchingDevice).device.sent.length + 1 ∧
    quiet handshakeEvents (step (.timer 11 0) (connect 78 batchingDevice).device).device = true ∧
    (run (.timer 11 0 :: handshakeEvents) (connect 78 batchingDevice).device).state = .opened ∧
    (Event.timer 20 0).callsSync
      (run (.timer 11 0 :: handshakeEvents) (connect 78 batchingDevice).device) = true ∧
    (step (.timer 20 0)
      (run (.timer 11 0 :: handshakeEvents) (connect 78 batchingDevice).device)).isDone = true ∧
    ((step (.timer 20 0)
      (run (.timer 11 0 :: handshakeEvents) (connect 78 batchingDevice).device)).device.heap.get?
        8).map (fun p => (isSync p.header.flags, p.header.ls, p.commands))
      = some (true, some 0, []) ∧
    (step (.timer 20 0)
      (run (.timer 11 0 :: handshakeEvents) (connect 78 batchingDevice).device)).device.commandQueue
      = [⟨[0x44, 0x43, 0x75, 0x74], []⟩] := by
  decide

/-- C11 (amended). Handshake-first-sync emptiness: take a run that starts with `connect()` on
a well-formed device `d0` and goes on with events none of which calls `sync()`, up to the state
`d` in which an event `e` (the heartbeat, or the batch timer with commands queued) calls it.
Up to `d` the run has transmitted no new sync packet: every sync packet that has been
transmitted is an object that `d0` held already. The new sync packet of `e` (the object
constructed at the end of the heap) carries an empty command list and leaves the command queue
as it was, whatever the queue holds, and its datagram is a 12-byte header. When that
transmission returned outside Attempting, then after any further events that neither call
`sync()` nor reconnect, the next event that calls `sync()` while Open transmits a packet whose
command list starts with all the commands queued before the first one, and empties the queue.
When the first packet was transmitted while Attempting (a batch timer that the previous session
left armed), the counter is still 0 and the next new sync packet is empty too and leaves the
queue as it is. -/
theorem C11_first_sync_amended (rnd : Nat) (d0 d d1 d2 : Device) (es es2 : List Event)
    (e e2 : Event) (hw : d0.wellFormed = true)
    (hd : d = run es (connect rnd d0).device) (hquiet : quiet es (connect rnd d0).device = true)
    (he : e.callsSync d = true) (hd1 : d1 = (step e d).device) (hd2 : d2 = run es2 d1)
    (he2 : e2.callsSync d2 = true) :
    (∀ self p, d.heap.get? self = some p → isSync p.header.flags = true →
      p.serializedCache ≠ none → self < d0.heap.length) ∧
    d0.heap.length ≤ d.heap.length ∧
    d1.commandQueue = d.commandQueue ∧
    (∃ p, d1.heap.get? d.heap.length = some p ∧ isSync p.header.flags = true ∧ p.commands = []) ∧
    (step e d = .done () d1 → ∃ hb, d1.sent = d.sent ++ [hb] ∧ hb.length = 12) ∧
    (step e d = .done () d1 → d.state ≠ .attempting → steady es2 d1 = true →
      d2.state = .opened →
      ∃ p more, (step e2 d2).device.heap.get? d2.heap.length = some p ∧
        isSync p.header.flags = true ∧ p.commands = (d.commandQueue ++ more).map .cmd ∧
        (step e2 d2).device.commandQueue = []) ∧
    (d.state = .attempting → quiet es2 d1 = true →
      (step e2 d2).device.commandQueue = d2.commandQueue ∧
      ∃ p, (step e2 d2).device.heap.get? d2.heap.length = some p ∧
        isSync p.header.flags = true ∧ p.commands = []) := by
  have w0 : (connect rnd d0).device.wellFormed = true := wellFormed_grows hw (connect_grows rnd d0)
  obtain ⟨wd, ld, -, sd⟩ := quiet_run es _ w0 (connect_ls rnd d0 hw) hquiet
  have gd : Grows d0 d := by
    rw [hd]; exact grows_trans (connect_grows rnd d0) (run_grows es _)
  rw [← hd] at wd ld sd
  obtain ⟨s1, ⟨p, s2, s3, s4⟩, s5, s6⟩ := step_callsSync e d ((wellFormed_iff d).mp wd).1 he
  have hcond : (d.state == .opened && decide (0 < d.ls)) = false := by rw [ld]; simp
  rw [hcond] at s1 s4 s6
  simp only [Bool.false_eq_true, if_false] at s1 s4 s6
  rw [← hd1] at s1 s2 s5
  have w1 : d1.wellFormed = true := by rw [hd1]; exact wellFormed_grows wd (step_grows e d)
  refine ⟨?_, grows_length gd, s1, ⟨p, s2, s3, s4⟩, ?_, ?_, ?_⟩
  · intro self q hq hs hc
    obtain ⟨q0, h0, -, -⟩ := sameSyncs_trans (connect_sameSyncs rnd d0) sd self q hq hs hc
    rw [List.get?_eq_some] at h0
    exact h0.1
  · intro hdone
    obtain ⟨hb, body, b1, b2, b3⟩ := s6 d1 hdone
    have : body = [] := by
      simp only [bodySerialize, Option.some.injEq] at b3
      exact b3.symm
    subst this
    exact ⟨hb, by simpa using b1, b2⟩
  · intro hdone hstate hsteady hopen
    have l1 : d1.ls = 1 := by
      rw [s5, hdone, ld]
      have : (d.state != .attempting) = true := by simpa using hstate
      simp [Outcome.isDone, this]
    obtain ⟨w2, l2, more, q2⟩ := steady_run es2 d1 w1 hsteady
    rw [← hd2] at w2 l2 q2
    obtain ⟨t1, ⟨p2, t2, t3, t4⟩, -, -⟩ :=
      step_callsSync e2 d2 ((wellFormed_iff d2).mp w2).1 he2
    have hc2 : (d2.state == .opened && decide (0 < d2.ls)) = true := by
      rw [hopen, l2, l1]; rfl
    rw [hc2] at t1 t4
    simp only [if_true] at t1 t4
    exact ⟨p2, more, t2, t3, by rw [t4, q2, s1], t1⟩
  · intro hstate hq2
    have l1 : d1.ls = 0 := by
      rw [s5, ld, hstate]
      simp
    obtain ⟨w2, l2, -⟩ := quiet_run es2 d1 w1 l1 hq2
    rw [← hd2] at w2 l2
    obtain ⟨t1, ⟨p2, t2, t3, t4⟩, -, -⟩ :=
      step_callsSync e2 d2 ((wellFormed_iff d2).mp w2).1 he2
    have hc2 : (d2.state == .opened && decide (0 < d2.ls)) = false := by rw [l2]; simp
    rw [hc2] at t1 t4
    simp only [Bool.false_eq_true, if_false] at t1 t4
    exact ⟨t1, p2, t2, t3, t4⟩

/-- C11 (amended), on the session of `example.js`: three commands are submitted after the
handshake. The first heartbeat (the timer with the handle 6) sends an empty sync packet and
leaves the three commands queued; the next heartbeat (the handle 10) sends a sync packet that
carries them and empties the queue. -/
theorem C11_first_sync_amended_witness :
    configuredDevice.wellFormed = true ∧ waitingDevice.commandQueue = threeCommands ∧
    (step (.timer 6 0) waitingDevice).device.commandQueue = threeCommands ∧
    (∃ p, (step (.timer 6 0) waitingDevice).device.heap.get? waitingDevice.heap.length = some p ∧
      isSync p.header.flags = true ∧ p.commands = []) ∧
    ∃ p more, (step (.timer 10 0) (step (.timer 6 0) waitingDevice).device).device.heap.get?
        (step (.timer 6 0) waitingDevice).device.heap.length = some p ∧
      isSync p.header.flags = true ∧ p.commands = (threeCommands ++ more).map .cmd ∧
      (step (.timer 10 0) (step (.timer 6 0) waitingDevice).device).device.commandQueue = [] :=
  have h := C11_first_sync_amended 77 configuredDevice waitingDevice
    (step (.timer 6 0) waitingDevice).device (step (.timer 6 0) waitingDevice).device
    (handshakeEvents ++ threeCommands.map .command) [] (.timer 6 0) (.timer 10 0)
    (by decide) (by unfold waitingDevice; rfl) (by decide) (by decide) rfl (by decide) (by decide)
  ⟨by decide, by decide, h.2.2.1, h.2.2.2.1,
    h.2.2.2.2.2.1 (Outcome.eq_done _ (by decide)) (by decide) (by decide) (by decide)⟩

/-- C12, counterexample: right after the handshake the session is open, no batch timer is
armed and the counter is still 0. Three commands submitted in a row arm no timer: the armed
timers are the ones there were before, and `commandTimer` holds no handle. -/
theorem C12_counterexample :
    handshakenDevice.state = .opened ∧ handshakenDevice.commandTimer = none ∧
    handshakenDevice.ls = 0 ∧
    (run (threeCommands.map .command) handshakenDevice).timers = handshakenDevice.timers ∧
    (run (threeCommands.map .command) handshakenDevice).commandTimer = none ∧
    (run (threeCommands.map .command) handshakenDevice).commandQueue = threeCommands := by
  decide

/-- C12 (amended). Batching: take an open session whose counter is above 0 and that has no
batch timer armed (its timer handles are below the next fresh one, its pending references are
objects of its heap, its 16-bit fields hold 16-bit values). Three commands submitted in a row
arm exactly one batch timer, send nothing and construct nothing. When that timer fires next
and the whole queue fits a datagram, the call returns having cleared the timer handle and sent
exactly one datagram, a new sync packet whose command list is the whole queue: the commands
that were queued before, then the three commands in submission order. -/
theorem C12_batching_amended (rnd : Nat) (c1 c2 c3 : Command) (d : Device)
    (hopen : d.state = .opened) (hls : 0 < d.ls) (htimer : d.commandTimer = none)
    (hfresh : ∀ t ∈ d.timers, t.id < d.nextId)
    (hv : ∀ x ∈ d.pendingPackets, x < d.heap.length)
    (hu : d.uid.getD 0 ≤ 0xFFFF) (hl : d.ls ≤ 0xFFFF)
    (hin : ∀ a ∈ d.incomingPackets, a.header.ls.getD 0 ≤ 0xFFFF)
    (hfit : packetLength ((d.commandQueue ++ [c1, c2, c3]).map .cmd) ≤ 0xFFFF) :
    (sendCommand c3 (sendCommand c2 (sendCommand c1 d))).timers
      = d.timers ++ [⟨d.nextId, .command⟩] ∧
    (sendCommand c3 (sendCommand c2 (sendCommand c1 d))).commandTimer = some d.nextId ∧
    (sendCommand c3 (sendCommand c2 (sendCommand c1 d))).commandQueue
      = d.commandQueue ++ [c1, c2, c3] ∧
    (sendCommand c3 (sendCommand c2 (sendCommand c1 d))).sent = d.sent ∧
    (sendCommand c3 (sendCommand c2 (sendCommand c1 d))).heap = d.heap ∧
    ∃ d4 p1 hb body,
      fire rnd d.nextId (sendCommand c3 (sendCommand c2 (sendCommand c1 d))) = .done () d4 ∧
      d4.commandTimer = none ∧ d4.commandQueue = [] ∧
      d4.heap = d.heap ++ [p1] ∧ isSync p1.header.flags = true ∧
      p1.commands = (d.commandQueue ++ [c1, c2, c3]).map .cmd ∧
      d4.sent = d.sent ++ [hb ++ body] ∧ hb.length = 12 ∧
      bodySerialize ((d.commandQueue ++ [c1, c2, c3]).map .cmd) = some body := by
  rw [sendCommand_three c1 c2 c3 d hopen hls htimer]
  refine ⟨rfl, rfl, rfl, rfl, rfl, ?_⟩
  have hfind : d.timers.find? (fun t => t.id == d.nextId) = none := by
    rw [List.find?_eq_none]
    intro t ht
    have := hfresh t ht
    simp only [beq_iff_eq]
    omega
  have hfilter : d.timers.filter (fun t => t.id != d.nextId) = d.timers := by
    rw [List.filter_eq_self]
    intro t ht
    have := hfresh t ht
    simp only [bne_iff_ne, ne_eq]
    omega
  unfold fire
  simp only [List.find?_append, hfind, Option.none_or, List.find?_cons_of_pos, beq_self_eq_true]
  simp only [expire, List.filter_append, hfilter, List.filter_cons_of_neg, bne_self_eq_false,
    Bool.false_eq_true, not_false_eq_true, List.filter_nil, List.append_nil]
  generalize hD : ({ d with
      commandQueue := d.commandQueue ++ [c1, c2, c3]
      timers := d.timers
      nextId := d.nextId + 1
      commandTimer := some d.nextId } : Device) = D
  have e1 : D.heap = d.heap := by rw [← hD]
  have e2 : D.pendingPackets = d.pendingPackets := by rw [← hD]
  have e3 : D.state = d.state := by rw [← hD]
  have e4 : D.ls = d.ls := by rw [← hD]
  have e5 : D.commandQueue = d.commandQueue ++ [c1, c2, c3] := by rw [← hD]
  have e6 : D.uid = d.uid := by rw [← hD]
  have e7 : D.incomingPackets = d.incomingPackets := by rw [← hD]
  have e8 : D.sent = d.sent := by rw [← hD]
  have hflush : (D.state == .opened && decide (0 < D.ls)) = true := by
    rw [e3, e4, hopen]; simpa using hls
  obtain ⟨d1, p1, hb, body, s1, s2, s3, s4, s5, s6, s7, s8, -⟩ :=
    sync_spec D (by rw [e1, e2]; exact hv) (by rw [e6]; exact hu) (by rw [e4]; exact hl)
      (by rw [e7]; exact hin) (d.commandQueue ++ [c1, c2, c3])
      (by rw [if_pos hflush, e5]) hfit
  unfold commandTimerCallback
  rw [if_pos (by rw [e5]; simp), s1]
  refine ⟨_, p1, hb, body, rfl, rfl, ?_, ?_, s3, s4, ?_, s7, s8⟩
  · show d1.commandQueue = []
    rw [s5, if_pos hflush]
  · show d1.heap = d.heap ++ [p1]
    rw [s2, e1]
  · show d1.sent = d.sent ++ [hb ++ body]
    rw [s6, e8]

/-- C12 (amended), on an open session with counter 1 and an empty queue: the three commands
arm the timer with the handle 0, and its expiry sends one sync packet that carries them. -/
theorem C12_batching_amended_witness :
    openDevice.state = .opened ∧ 0 < openDevice.ls ∧ openDevice.commandTimer = none ∧
    ∃ d4 p1 hb body,
      fire 0 0 (sendCommand ⟨[0x44, 0x41, 0x75, 0x74], [0, 0, 0, 0]⟩
        (sendCommand ⟨[0x44, 0x43, 0x75, 0x74], []⟩
          (sendCommand ⟨[0x43, 0x50, 0x67, 0x49], [0, 0, 0, 2]⟩ openDevice))) = .done () d4 ∧
      d4.commandTimer = none ∧ d4.commandQueue = [] ∧
      d4.heap = openDevice.heap ++ [p1] ∧ isSync p1.header.flags = true ∧
      p1.commands = threeCommands.map .cmd ∧
      d4.sent = openDevice.sent ++ [hb ++ body] ∧ hb.length = 12 ∧
      bodySerialize (threeCommands.map .cmd) = some body :=
  ⟨by decide, by decide, by decide,
    (C12_batching_amended 0 ⟨[0x43, 0x50, 0x67, 0x49], [0, 0, 0, 2]⟩ ⟨[0x44, 0x43, 0x75, 0x74], []⟩
      ⟨[0x44, 0x41, 0x75, 0x74], [0, 0, 0, 0]⟩ openDevice (by decide) (by decide) (by decide)
      (by decide) (by decide) (by decide) (by decide) (by decide) (by decide)).2.2.2.2.2⟩

/-- C13. Flush: when a sync packet is transmitted for the first time (it is not pending and has
no serialized cache) while the connection is Open, the counter, which the packet takes as its
local sequence, is greater than 0 and the command queue is not empty, the command list of the
packet becomes its previous commands followed by the whole queue in order, and the queue is empty
afterwards, however the call ends; when the call returns, one datagram has been sent, a 12-byte
header followed by the serialization of that list. `sendCommand` appends its argument at the end
of the queue and neither sends nor constructs a packet. -/
theorem C13_flush (self : Nat) (d : Device) (p : UserPacket) (cmd : Command)
    (hp : d.heap.get? self = some p) :
    (self ∉ d.pendingPackets → p.serializedCache = none → isSync p.header.flags = true →
      d.state = .opened → 0 < d.ls → d.commandQueue ≠ [] →
      (∃ p1, (transmit self d).device.heap.get? self = some p1 ∧
        p1.commands = p.commands ++ d.commandQueue.map .cmd ∧ p1.header.ls = some d.ls) ∧
      (transmit self d).device.commandQueue = [] ∧
      ∀ d1, transmit self d = .done () d1 →
        ∃ hb body, d1.sent = d.sent ++ [hb ++ body] ∧ hb.length = 12 ∧
          bodySerialize (p.commands ++ d.commandQueue.map .cmd) = some body) ∧
    (sendCommand cmd d).commandQueue = d.commandQueue ++ [cmd] ∧
    (sendCommand cmd d).sent = d.sent ∧ (sendCommand cmd d).heap = d.heap ∧
    (sendCommand cmd d).pendingPackets = d.pendingPackets ∧
    (sendCommand cmd d).ls = d.ls ∧ (sendCommand cmd d).state = d.state := by
  obtain ⟨s1, s2, s3, s4, -, s6, s7, -⟩ := sendCommand_fields cmd d
  refine ⟨?_, s1, s2, s3, s4, s6, s7⟩
  intro hnew hcache hsync hopen hls hq
  have hfirst : (!d.pendingPackets.contains self && p.serializedCache.isNone) = true := by
    rw [hcache]
    simpa using hnew
  have hlen : 0 < d.commandQueue.length := List.length_pos.mpr hq
  have hcond : (d.state == .opened && isSync p.header.flags && decide (0 < d.ls)
      && decide (0 < d.commandQueue.length)) = true := by
    simp [hopen, hsync, hls, hlen]
  obtain ⟨k1, p1, k2, k3⟩ := transmit_first_queue self d p hp hfirst
  rw [hcond] at k1 k3
  obtain ⟨p0, t1, t2, -⟩ := transmit_first_header self d p hp hfirst (by simp [hsync])
  have hp0 : p0 = p1 := Option.some.inj (t1.symm.trans k2)
  rw [hp0] at t2
  refine ⟨⟨p1, k2, k3, t2⟩, k1, ?_⟩
  intro d1 hd
  rw [transmit_first_eq self d p hp hfirst] at hd
  obtain ⟨hb, body, p2, b1, b2, b3, -⟩ := transmitFirst_done self _ _ d1 hd
  obtain ⟨f1, f2, -, -, f5⟩ := piggyback_facts p d
  obtain ⟨-, g2, g3, -, g5, -⟩ := piggyback_fields p d
  rw [attachQueue_stamp, f1, f2, f5, g2, g5, hcond] at b1
  refine ⟨hb, body, ?_, headerSerialize_length _ _ _ b2, b1⟩
  rw [b3, g3]

/-- C13, on an open session with counter 1 and two commands queued: a new sync packet takes
both, in order, and leaves the queue empty. -/
theorem C13_flush_witness :
    (∃ p1, (transmit 0 queuedDevice).device.heap.get? 0 = some p1 ∧
      p1.commands = (UserPacket.new .undefined).commands ++ queuedDevice.commandQueue.map .cmd ∧
      p1.header.ls = some queuedDevice.ls) ∧
    (transmit 0 queuedDevice).device.commandQueue = [] :=
  ⟨((C13_flush 0 queuedDevice (UserPacket.new .undefined) ⟨[], []⟩ (by decide)).1 (by decide)
      (by decide) (by decide) (by decide) (by decide) (by decide)).1,
   ((C13_flush 0 queuedDevice (UserPacket.new .undefined) ⟨[], []⟩ (by decide)).1 (by decide)
      (by decide) (by decide) (by decide) (by decide) (by decide)).2.1⟩

/-- C14 (code defect). Teardown of pending confirmations: `disconnect()` on a session with three
pending confirmations, at the local sequences 3, 4 and 5, should leave none. It visits the list
with `forEach` while `markAsRead` removes the visited entry from the same list: after the entry
at sequence 3 is removed the entry at sequence 4 has moved to the index just visited and is
skipped. The call returns with the state Closed, the entry at sequence 4 still pending, and its
repeat timer and timeout timer still armed. -/
theorem C14_disconnect_skips :
    (disconnect threePending).isDone = true ∧
    (disconnect threePending).device.state = .closed ∧
    pendingSequences (disconnect threePending).device = [4] ∧
    (disconnect threePending).device.pendingPackets = [1] ∧
    (disconnect threePending).device.timers = [⟨2, .retransmit 1⟩, ⟨3, .messageTimeout⟩] := by
  decide

/-- C15, counterexample: an open session with two queued commands and one unacknowledged
inbound packet keeps both queues through `disconnect()`, and the connect packet of the next
session carries the ack of that inbound packet (flags connect and ack, foreign sequence 9). -/
theorem C15_counterexample :
    (disconnect queuedDevice).isDone = true ∧
    (disconnect queuedDevice).device.commandQueue = twoCommands ∧
    (disconnect queuedDevice).device.incomingPackets = queuedDevice.incomingPackets ∧
    queuedDevice.incomingPackets ≠ [] ∧
    (connect 77 (disconnect queuedDevice).device).device.sent
      = [connectDatagram (flags.connect ||| flags.ack) 77 9] ∧
    (connect 77 (disconnect queuedDevice).device).device.commandQueue = twoCommands := by
  decide

/-- C15 (amended). Teardown of queues: for every session state, `disconnect()` leaves the
command queue and the unacked-inbound queue exactly as they were, however it ends, and a
`connect()` after it leaves the command queue as it was too; when the disconnect returns and an
address is configured, that connect takes the oldest unacknowledged inbound packet of the old
session for the ack of its connect packet. -/
theorem C15_teardown_queues_amended (rnd : Nat) (d : Device) :
    (disconnect d).device.commandQueue = d.commandQueue ∧
    (disconnect d).device.incomingPackets = d.incomingPackets ∧
    (connect rnd (disconnect d).device).device.commandQueue = d.commandQueue ∧
    ((disconnect d).isDone = true → ipTruthy d.ip = true →
      (connect rnd (disconnect d).device).device.incomingPackets = d.incomingPackets.tail) := by
  obtain ⟨-, f2, f3, -, -, -, f7, -⟩ := disconnect_fields d
  refine ⟨f3, f2, ?_, ?_⟩
  · rw [connect_queue, f3]
  · intro hd hip
    cases h : disconnect d with
    | done a d1 =>
      rw [h] at f2 f7
      have f2 : d1.incomingPackets = d.incomingPackets := f2
      have f7 : d1.ip = d.ip := f7
      show (connect rnd d1).device.incomingPackets = d.incomingPackets.tail
      rw [connect_closed_incoming rnd d1 ((disconnect_spec d).2 d1 h) (by rw [f7]; exact hip), f2]
    | threw d1 => rw [h] at hd; cases hd
    | noFuel d1 => rw [h] at hd; cases hd

/-- C15 (amended), on an open session with two queued commands and one unacknowledged inbound
packet. -/
theorem C15_teardown_queues_amended_witness :
    (disconnect queuedDevice).device.commandQueue = queuedDevice.commandQueue ∧
    (disconnect queuedDevice).device.incomingPackets = queuedDevice.incomingPackets ∧
    (connect 77 (disconnect queuedDevice).device).device.commandQueue
      = queuedDevice.commandQueue ∧
    (connect 77 (disconnect queuedDevice).device).device.incomingPackets
      = queuedDevice.incomingPackets.tail :=
  ⟨(C15_teardown_queues_amended 77 queuedDevice).1,
   (C15_teardown_queues_amended 77 queuedDevice).2.1,
   (C15_teardown_queues_amended 77 queuedDevice).2.2.1,
   (C15_teardown_queues_amended 77 queuedDevice).2.2.2 (by decide) (by decide)⟩

/-- C16. Ack piggybacking: `transmit` on a packet object of the heap leaves an object at the
same reference, and, however the call ends and whether it is a first transmission or a
retransmission: when the packet had no ack flag and the unacked-inbound queue is not empty, the
object has the ack flag and, as foreign sequence, the local sequence of the oldest queued
inbound packet, and exactly that packet has left the queue; when the packet had no ack flag and
the queue is empty, the object has no ack flag and the foreign sequence 0, and the queue is
still empty; when the packet had the ack flag already, the queue and the foreign sequence of
the packet are as before. -/
theorem C16_ack_piggybacking (self : Nat) (d : Device) (p : UserPacket)
    (hp : d.heap.get? self = some p) :
    ∃ p1, (transmit self d).device.heap.get? self = some p1 ∧
      (isAck p.header.flags = false →
        (∀ a rest, d.incomingPackets = a :: rest →
          isAck p1.header.flags = true ∧ p1.header.fs = a.header.ls ∧
          (transmit self d).device.incomingPackets = rest) ∧
        (d.incomingPackets = [] →
          isAck p1.header.flags = false ∧ p1.header.fs = some 0 ∧
          (transmit self d).device.incomingPackets = [])) ∧
      (isAck p.header.flags = true →
        (transmit self d).device.incomingPackets = d.incomingPackets ∧
        p1.header.fs = p.header.fs ∧ isAck p1.header.flags = true) := by
  obtain ⟨h1, p1, h2, h3, h4⟩ := transmit_heap_get self d p hp
  refine ⟨p1, h2, ?_, ?_⟩
  · intro hack
    constructor
    · intro a rest hin
      rw [h1, h3, h4]
      simp only [piggyback, hack, hin, Bool.not_false, if_true]
      simp only [isAck_testBit, Nat.testBit_or, flags.ack, and_true]
      rw [show Nat.testBit 16 4 = true from by decide]; simp
    · intro hin
      rw [h1, h3, h4]
      simp only [piggyback, hack, hin, Bool.not_false, if_true]
      simp only [isAck_testBit, Nat.testBit_and, flags.ack, and_true]
      rw [show Nat.testBit (0xFFFFFFFF - 16) 4 = false from by decide]; simp
  · intro hack
    rw [h1, h3, h4]
    simp only [piggyback, hack, Bool.not_true, Bool.false_eq_true, if_false]
    simp

/-- C16, on an open session with one unacknowledged inbound packet (local sequence 9): its new
sync packet takes the ack flag and the foreign sequence 9, and the queue is empty afterwards. -/
theorem C16_ack_piggybacking_witness :
    ∃ p1, (transmit 0 unackedDevice).device.heap.get? 0 = some p1 ∧
      isAck p1.header.flags = true ∧ p1.header.fs = some 9 ∧
      (transmit 0 unackedDevice).device.incomingPackets = [] := by
  obtain ⟨p1, h1, h2, -⟩ := C16_ack_piggybacking 0 unackedDevice (UserPacket.new .undefined)
    (by decide)
  exact ⟨p1, h1, (h2 (by decide)).1 _ [] rfl⟩

/-- C17, counterexample: the heartbeat of the session of `example.js` sends its first sync
packet with nothing to acknowledge, so without ack flag. The session then handles `laterSync`
(local sequence 2), which is recorded in the unacked-inbound queue with its response scheduled.
When the callback of the repeat timer of the sync packet runs on that state, before the
scheduled response, the retransmission takes the ack: besides the repeat bit, the ack bit of
byte 0 and the foreign sequence in the bytes 4 and 5 differ from the first transmission, and the
inbound packet has left the unacked-inbound queue. -/
theorem C17_counterexample :
    (run [.timer 6 0] handshakenDevice).sent.getLast?
      = some [0x08, 0x0C, 0x01, 0xF4, 0, 0, 0, 0, 0, 0, 0, 0] ∧
    retransmitDevice.socket = some true ∧
    retransmitDevice.pendingPackets = [3] ∧
    retransmitDevice.timers.find? (fun t => t.id == 8) = some ⟨8, .retransmit 3⟩ ∧
    retransmitDevice.incomingPackets.map (fun a => a.header.ls) = [some 2] ∧
    (fire 0 8 retransmitDevice).isDone = true ∧
    (fire 0 8 retransmitDevice).device.sent
      = retransmitDevice.sent ++ [[0xA8, 0x0C, 0x01, 0xF4, 0, 2, 0, 0, 0, 0, 0, 0]] ∧
    [0xA8, 0x0C, 0x01, 0xF4, 0, 2, 0, 0, 0, 0, 0, 0]
      ≠ withRepeat [0x08, 0x0C, 0x01, 0xF4, 0, 0, 0, 0, 0, 0, 0, 0] ∧
    (fire 0 8 retransmitDevice).device.incomingPackets = [] := by
  decide

/-- C17 (amended). Retransmission: take a packet whose first transmission returned, and any
session state in which the object is as that transmission left it (the state at the moment its
repeat timer fires, whose callback is `transmit` on the same object). The retransmission never
changes the sequence counter, and it returns when the socket is live. When the packet already
carries the ack flag or the unacked-inbound queue is empty, it leaves the queue as it was, and
the call that returns has sent the bytes of the first transmission with only the repeat bit
added. When the packet carries no ack flag and an inbound packet (with a 16-bit local sequence)
waits in the queue, it removes the inbound packet from the queue, and the call that returns has
sent those bytes with the repeat bit, the ack bit and that local sequence as foreign sequence;
the length, the session id, the local sequence and the body are the bytes of the first
transmission in both cases. -/
theorem C17_retransmission_amended (self : Nat) (d d1 d2 : Device) (p : UserPacket)
    (hp : d.heap.get? self = some p) (hnew : self ∉ d.pendingPackets)
    (hcache : p.serializedCache = none) (hfirst : transmit self d = .done () d1)
    (hobj : d2.heap.get? self = d1.heap.get? self) :
    ∃ first p1, d1.sent = d.sent ++ [first] ∧ d2.heap.get? self = some p1 ∧
      (transmit self d2).device.ls = d2.ls ∧
      ((isAck p1.header.flags = true ∨ d2.incomingPackets = []) →
        (transmit self d2).device.incomingPackets = d2.incomingPackets ∧
        (d2.socket = some true → (transmit self d2).isDone = true) ∧
        ∀ d3, transmit self d2 = .done () d3 → d3.sent = d2.sent ++ [withRepeat first]) ∧
      (isAck p1.header.flags = false → ∀ a rest, d2.incomingPackets = a :: rest →
        a.header.ls.getD 0 ≤ 0xFFFF →
        (transmit self d2).device.incomingPackets = rest ∧
        (d2.socket = some true → (transmit self d2).isDone = true) ∧
        ∀ d3, transmit self d2 = .done () d3 →
          d3.sent = d2.sent ++ [withAck (a.header.ls.getD 0) (withRepeat first)]) := by
  have hlt : self < d.heap.length := by
    rw [List.get?_eq_some] at hp
    exact hp.1
  have hf : (!d.pendingPackets.contains self && p.serializedCache.isNone) = true := by
    rw [hcache]
    simpa using hnew
  rw [transmit_first_eq self d p hp hf] at hfirst
  obtain ⟨hb, body, p1, b1, b2, b3, b4, b5, b6, b7⟩ := transmitFirst_done self _ _ d1 hfirst
  obtain ⟨g1, -, g3, -⟩ := piggyback_fields p d
  have q3 := (attachQueue_facts (stamp (piggyback p d).1 (piggyback p d).2) (piggyback p d).2).2.2
  rw [q3, ← b6] at b2
  have hH : p1.header = { (stamp (piggyback p d).1 (piggyback p d).2).header with
      flags := (stamp (piggyback p d).1 (piggyback p d).2).header.flags ||| flags.repeat_ } := by
    rw [b5, stamp_flags]
  have hget1 : d1.heap.get? self = some p1 := by
    rw [b4, g1, List.get?_eq_getElem?, List.getElem?_set_self hlt]
  have hget : d2.heap.get? self = some p1 := by rw [hobj, hget1]
  have hack : isAck p1.header.flags
      = isAck (stamp (piggyback p d).1 (piggyback p d).2).header.flags := by
    rw [hH]; exact (or_repeat_tests _).2.2
  refine ⟨hb ++ body, p1, by rw [b3, g3], hget, ?_, ?_, ?_⟩
  · rw [transmit_ls self d2 p1 hget, b7]
    simp
  · intro hq
    rw [hack] at hq
    obtain ⟨d3, e1, e2, e3⟩ := transmit_again_same self d2 p1 _ hb body hget b7 hH b2 hq
    rw [e1]
    refine ⟨e3, fun _ => rfl, ?_⟩
    intro d4 h4
    cases h4
    exact e2
  · intro ha a rest hin hfs
    rw [hack] at ha
    obtain ⟨d3, e1, e2, e3⟩ := transmit_again_ack self d2 p1 _ hb body a rest hget b7 hH b2 ha
      hin hfs
    rw [e1]
    refine ⟨e3, fun _ => rfl, ?_⟩
    intro d4 h4
    cases h4
    exact e2

/-- C17 (amended), on an open session with a live socket and nothing to acknowledge: the
retransmission of its sync packet right after the first transmission returns and sends the same
12 bytes with the repeat bit. -/
theorem C17_retransmission_amended_witness :
    ∃ first, (transmit 0 syncDevice).device.sent = syncDevice.sent ++ [first] ∧
      ∃ d3, transmit 0 (transmit 0 syncDevice).device = .done () d3 ∧
        d3.sent = (transmit 0 syncDevice).device.sent ++ [withRepeat first] ∧
        d3.incomingPackets = (transmit 0 syncDevice).device.incomingPackets ∧
        d3.ls = (transmit 0 syncDevice).device.ls := by
  obtain ⟨first, p1, h1, -, h3, h4, -⟩ := C17_retransmission_amended 0 syncDevice
    (transmit 0 syncDevice).device (transmit 0 syncDevice).device (UserPacket.new .undefined)
    (by decide) (by decide) (by decide) (by rfl) rfl
  obtain ⟨h5, h6, h7⟩ := h4 (Or.inr (by decide))
  have h8 := h6 (by decide)
  cases h9 : transmit 0 (transmit 0 syncDevice).device with
  | done u d3 =>
    rw [h9] at h3 h5
    exact ⟨first, h1, d3, rfl, h7 d3 h9, h5, h3⟩
  | threw d3 => rw [h9] at h8; cases h8
  | noFuel d3 => rw [h9] at h8; cases h8

/-- C18. Invalid address: for every string that `net.isIPv4` rejects and every session state,
assigning it to `ip` returns after emitting exactly one notification, the error that names the
string; every other part of the device (the stored address, the connection state, the sequence
counter, the queues, the pending list, the timers, what was sent) is as before: no disconnect,
no connect, no `addressChange`. -/
theorem C18_invalid_address (rnd : Nat) (ipString : String) (d : Device)
    (h : isIPv4 ipString = false) :
    setIp rnd ipString d
      = .done () { d with emitted := d.emitted ++ [.error (.invalidIp ipString)] } := by
  unfold setIp
  rw [h]
  rfl

/-- C18, for the string `10.1.0.999` assigned during an open session with three pending
confirmations. -/
theorem C18_invalid_address_witness :
    isIPv4 "10.1.0.999" = false ∧
    setIp 77 "10.1.0.999" threePending
      = .done () { threePending with
          emitted := threePending.emitted ++ [.error (.invalidIp "10.1.0.999")] } :=
  ⟨by decide, C18_invalid_address 77 "10.1.0.999" threePending (by decide)⟩

/-- C19. Reconnect: on a device that is not Closed and has an address, whose pending
references are objects of its heap and whose unacknowledged inbound packets hold 16-bit
sequences, `connect()` (with a random session id of at most `0x7FF`) returns after a disconnect
followed by a connect: the notifications it emits are exactly the state changes Closed and
Attempting, the final state is Attempting, the counter is 0, and exactly one datagram is sent:
20 bytes, connect flag set, length byte 20, payload `01 00 00 00 00 00 00 00`. -/
theorem C19_reconnect (rnd : Nat) (d : Device) (hstate : d.state ≠ .closed)
    (hip : ipTruthy d.ip = true) (hv : ∀ x ∈ d.pendingPackets, x < d.heap.length)
    (hrnd : rnd ≤ 0x7FF)
    (hin : ∀ a ∈ d.incomingPackets, ∃ n, a.header.ls = some n ∧ n ≤ 0xFFFF) :
    ∃ d1 b, connect rnd d = .done () d1 ∧
      d1.emitted = d.emitted ++
        [.connectionStateChange .closed, .connectionStateChange .attempting] ∧
      d1.state = .attempting ∧ d1.ls = 0 ∧
      d1.sent = d.sent ++ [b] ∧ b.length = 20 ∧ isConnect (b.headD 0 >>> 3) = true ∧
      b.getD 0 0 % 8 = 0 ∧ b.getD 1 0 = 20 ∧ b.drop 12 = [1, 0, 0, 0, 0, 0, 0, 0] := by
  obtain ⟨d0, h0, c0, e0, s0⟩ := disconnect_done d hv
  have f := disconnect_fields d
  rw [h0] at f
  simp only [Outcome.device] at f
  obtain ⟨-, f2, -, f4, f5, -, f7, -⟩ := f
  have hip0 : ipTruthy d0.ip = true := by rw [f7]; exact hip
  have hv0 : ∀ x ∈ d0.pendingPackets, x < d0.heap.length := by
    intro x hx; rw [f4]; exact hv x (s0 x hx)
  have hin0 : ∀ a ∈ d0.incomingPackets, ∃ n, a.header.ls = some n ∧ n ≤ 0xFFFF := by
    rw [f2]; exact hin
  obtain ⟨d1, h1, s1⟩ := connect_closed_done rnd d0 c0 hip0 hv0 (by omega) hin0
  have k := connect_state_ls rnd d0 c0 hip0
  rw [h1] at k
  simp only [Outcome.device] at k
  have hc : connect rnd d = .done () d1 := by
    rw [connect_open rnd d hstate, h0]; exact h1
  have he : d1.emitted = d.emitted ++
      [.connectionStateChange .closed, .connectionStateChange .attempting] := by
    rw [k.2.2.2, e0]; simp
  rw [f5] at s1
  cases hI : d0.incomingPackets with
  | nil =>
    rw [hI] at s1
    refine ⟨d1, _, hc, he, k.1, k.2.1, s1, ?_⟩
    simp [connectDatagram, flags.connect]; decide
  | cons a rest =>
    rw [hI] at s1
    refine ⟨d1, _, hc, he, k.1, k.2.1, s1, ?_⟩
    simp [connectDatagram, flags.connect, flags.ack]; decide

/-- C19, on an open session with three pending confirmations: `connect()` emits Closed and
Attempting, ends in Attempting with counter 0 and sends one 20-byte connect datagram. -/
theorem C19_reconnect_witness :
    threePending.state ≠ .closed ∧ ipTruthy threePending.ip = true ∧
    ∃ d1 b, connect 77 threePending = .done () d1 ∧
      d1.emitted = threePending.emitted ++
        [.connectionStateChange .closed, .connectionStateChange .attempting] ∧
      d1.state = .attempting ∧ d1.ls = 0 ∧
      d1.sent = threePending.sent ++ [b] ∧ b.length = 20 ∧ isConnect (b.headD 0 >>> 3) = true ∧
      b.getD 0 0 % 8 = 0 ∧ b.getD 1 0 = 20 ∧ b.drop 12 = [1, 0, 0, 0, 0, 0, 0, 0] :=
  ⟨by decide, by decide,
    C19_reconnect 77 threePending (by decide) (by decide) (by decide) (by decide)
      (fun a h => by simp [threePending, Device.init] at h)⟩

/-- C20 (code defect). The documentation of `getSourceInfo` promises a record with a type and
an index that is a number starting at 0. For the identifier 3012 the function ends without a
`return` (between 3010 and 4009 only identifiers ending in 0 or 1 are handled) and the caller
gets `undefined`; for 3000 the index is -1; for 4011 the index is 1/10, not an integer. The
example of the documentation, 4020, gives index 1. -/
theorem C20_getSourceInfo_gaps :
    getSourceInfo 3012 = none ∧
    getSourceInfo 3000 = some ⟨"colors", some (-1)⟩ ∧
    getSourceInfo 4011 = some ⟨"keyMasks", some (1 / 10)⟩ ∧
    getSourceInfo 4020 = some ⟨"keyMasks", some 1⟩ := by
  refine ⟨by decide, ?_, ?_, ?_⟩
  · simp [getSourceInfo]
  · simp [getSourceInfo]; norm_num
  · simp [getSourceInfo]; norm_num

/-- C21 (code defect). Decoding terminates: the datagram `zeroRecord` has 20 bytes, the session
id and the length field of the open session that receives it, and a body whose first record
declares the length 0. The statement `cursor += cmdLength` then leaves the cursor at 0 and the
loop runs again on the same record: whatever the iteration budget, `messageHandler` uses it up
without returning, having emitted `rawCommand` and the per-name notification once per
iteration. Nor is a record worth 8 bytes of body: the 16 bytes of the body of `shortRecords`
decode to eight records. -/
theorem C21_decoding_diverges :
    12 ≤ zeroRecord.length ∧
    (readUInt16BE zeroRecord 0).map (· &&& 0x7FF) = some zeroRecord.length ∧
    readUInt16BE zeroRecord 2 = openDevice.uid ∧
    readUInt16BE (slice zeroRecord 12 zeroRecord.length) 0 = some 0 ∧
    (∀ fuel, ∃ d1, messageHandler fuel zeroRecord openDevice = .noFuel d1 ∧
      d1.emitted.length = 2 * fuel) ∧
    (slice shortRecords 12 shortRecords.length).length = 16 ∧
    ∃ pkt d1, AtemPacket.new 8 shortRecords openDevice = .done pkt d1 ∧
      pkt.commands.length = 8 := by
  refine ⟨by decide, by decide, by decide, by decide, ?_, by decide, _, _, rfl, by decide⟩
  intro fuel
  obtain ⟨d1, h1, h2⟩ := zeroRecord_new fuel
  refine ⟨d1, ?_, h2⟩
  unfold messageHandler
  rw [h1]
  rfl

/-- C22 (the claim fails). The session of `example.js` is Attempting once the switcher has
answered the connect packet. The sync packet `syncReply` that arrives then gives the session its
id and moves it to Establishing, so it is addressed to the session and carries the sync flag;
handling it returns with the unacked-inbound queue empty, no response scheduled and no datagram
sent: the packet is never acknowledged. -/
theorem C22_counterexample :
    (run [.message 0 connectReply] (connect 77 configuredDevice).device).state = .attempting ∧
    isSync (parseHeader syncReply).flags = true ∧
    (messageHandler 0 syncReply
      (run [.message 0 connectReply] (connect 77 configuredDevice).device)).isDone = true ∧
    establishingSession
      = (messageHandler 0 syncReply
          (run [.message 0 connectReply] (connect 77 configuredDevice).device)).device ∧
    establishingSession.state = .establishing ∧
    establishingSession.uid = (parseHeader syncReply).uid ∧
    establishingSession.incomingPackets = [] ∧ establishingSession.nextTicks = [] ∧
    establishingSession.sent
      = (run [.message 0 connectReply] (connect 77 configuredDevice).device).sent := by
  decide

/-- C22 (amended). Inbound acknowledgment duty: let the constructor return the packet for a
datagram of bytes, addressed to the session (its session id is the one held after the
constructor, or it is connect-flagged), on a device whose pending references are objects of the
heap. A packet with the connect flag, or with the sync flag when the state after the
constructor is not Establishing, is recorded at the end of the unacked-inbound queue: in the
Attempting state its ack-only response, whose foreign sequence is the local sequence of the
packet, is sent within the same call and the packet has left the queue again; in any other state
`respond` is scheduled for the next tick. A packet without connect flag that has no sync flag
or is handled while the state after the constructor is Establishing is not recorded: queue,
scheduled responses and sent datagrams are as before. A recorded packet leaves the queue once:
`respond`, run while the packet is queued, sends the ack-only datagram with the local sequence
of the packet and removes exactly that packet; an outbound packet without ack flag transmitted
while the packet is the oldest queued takes its local sequence as foreign sequence and removes
it; `respond` run after the packet has left does nothing. -/
theorem C22_acknowledgment_amended (fuel : Nat) (msg : List Nat) (d d1 : Device)
    (packet : AtemPacket) (hnew : AtemPacket.new fuel msg d = .done packet d1)
    (haddr : (d1.uid == packet.header.uid || isConnect packet.header.flags) = true)
    (hbytes : ∀ b ∈ msg, b < 256) (hrefs : d.refsValid = true) (huid : d.uid.getD 0 ≤ 0xFFFF)
    (hfresh : ∀ a ∈ d.incomingPackets, a.id < d.nextId) :
    (isConnect packet.header.flags = true ∨
        (isSync packet.header.flags = true ∧ d1.state ≠ .establishing) →
      (d1.state ≠ .attempting →
        ∃ d2, messageHandler fuel msg d = .done () d2 ∧
          d2.incomingPackets = d.incomingPackets ++ [packet] ∧
          d2.nextTicks = d.nextTicks ++ [packet] ∧ d2.sent = d.sent) ∧
      (d1.state = .attempting →
        ∃ d2, messageHandler fuel msg d = .done () d2 ∧
          d2.incomingPackets = d.incomingPackets ∧ d2.nextTicks = d.nextTicks ∧
          d2.sent = d.sent ++ [ackDatagram (d.uid.getD 0) (packet.header.ls.getD 0)])) ∧
    (isConnect packet.header.flags = false →
        (isSync packet.header.flags = false ∨ d1.state = .establishing) →
      ∃ d2, messageHandler fuel msg d = .done () d2 ∧
        d2.incomingPackets = d.incomingPackets ∧ d2.nextTicks = d.nextTicks ∧
        d2.sent = d.sent) ∧
    (∀ D pre post, D.incomingPackets = pre ++ packet :: post → (∀ a ∈ pre, a.id ≠ packet.id) →
      D.refsValid = true → D.uid.getD 0 ≤ 0xFFFF →
      ∃ D2, respond packet D = .done () D2 ∧ D2.incomingPackets = pre ++ post ∧
        D2.nextTicks = D.nextTicks ∧
        D2.sent = D.sent ++ [ackDatagram (D.uid.getD 0) (packet.header.ls.getD 0)]) ∧
    (∀ D self p rest, D.heap.get? self = some p → isAck p.header.flags = false →
      D.incomingPackets = packet :: rest →
      (transmit self D).device.incomingPackets = rest ∧
      ∃ p1, (transmit self D).device.heap.get? self = some p1 ∧
        isAck p1.header.flags = true ∧ p1.header.fs = packet.header.ls) ∧
    (∀ D, (∀ a ∈ D.incomingPackets, a.id ≠ packet.id) → respond packet D = .done () D) ∧
    packet.header = parseHeader msg ∧ packet.id = d.nextId := by
  obtain ⟨-, n2, n3, n4, n5, n6, n7, n8, -⟩ := AtemPacket.new_done fuel msg d d1 packet hnew
  obtain ⟨hls, hu1⟩ := AtemPacket.new_bounds fuel msg d d1 packet hnew hbytes huid
  have hv : ∀ x ∈ d1.pendingPackets, x < d1.heap.length := by
    rw [n4, n5]
    simpa [Device.refsValid] using hrefs
  have hf1 : ∀ a ∈ d1.incomingPackets, a.id ≠ packet.id := by
    rw [n6, n2]
    intro a ha
    exact Nat.ne_of_lt (hfresh a ha)
  obtain ⟨r, hr, r1, r2, r3, -⟩ := handlePacket_spec packet d1 haddr hv hu1 hls hf1
  have hm : messageHandler fuel msg d = .done () r := by
    unfold messageHandler
    rw [hnew]
    exact hr
  rw [n6, n7, n8] at r1 r2 r3
  refine ⟨?_, ?_, ?_, ?_, fun D h => respond_absent packet D h, n3, n2⟩
  · intro hdue
    have hd : (d1.state != .establishing && isSync packet.header.flags
        || isConnect packet.header.flags) = true := by
      rcases hdue with h | ⟨h1, h2⟩
      · rw [h]; simp
      · rw [h1]; simp [h2]
    refine ⟨fun hs => ⟨r, hm, r3 hd hs⟩, fun hs => ⟨r, hm, ?_⟩⟩
    have := r2 hd hs
    rw [AtemPacket.new_attempting fuel msg d d1 packet hnew hs] at this
    exact this
  · intro hc hno
    have hd : (d1.state != .establishing && isSync packet.header.flags
        || isConnect packet.header.flags) = false := by
      rcases hno with h | h
      · rw [h, hc]; simp
      · rw [h, hc]; simp
    exact ⟨r, hm, r1 hd⟩
  · intro D pre post hq hpre hrv hDu
    have hDv : ∀ x ∈ D.pendingPackets, x < D.heap.length := by
      simpa [Device.refsValid] using hrv
    rw [respond_present packet D pre post hq hpre hDv hDu hls]
    exact ⟨_, rfl, rfl, rfl, rfl⟩
  · intro D self p rest hp hack hq
    obtain ⟨h1, p1, h2, h3, h4⟩ := transmit_heap_get self D p hp
    refine ⟨?_, p1, h2, ?_, ?_⟩
    · rw [h1]
      simp only [piggyback, hack, hq, Bool.not_false, if_true]
    · rw [h4]
      simp only [piggyback, hack, hq, Bool.not_false, if_true]
      simp only [isAck_testBit, Nat.testBit_or, flags.ack]
      rw [show Nat.testBit 16 4 = true from by decide]
      simp
    · rw [h3]
      simp only [piggyback, hack, hq, Bool.not_false, if_true]

/-- C22 (amended), at the header-only sync packet that takes the session of `example.js` from
Establishing to Open: the packet is recorded and its response is scheduled. -/
theorem C22_acknowledgment_amended_witness :
    ∃ d2, messageHandler 0 syncReply establishingSession = .done () d2 ∧
      d2.incomingPackets.map (fun a => a.header) = [parseHeader syncReply] ∧
      d2.nextTicks.map (fun a => a.header) = [parseHeader syncReply] ∧
      d2.sent = establishingSession.sent := by
  have h := C22_acknowledgment_amended 0 syncReply establishingSession _ _ rfl (by decide)
    (by decide) (by decide) (by decide) (by decide)
  obtain ⟨d2, h1, h2, h3, h4⟩ := (h.1 (Or.inr ⟨by decide, by decide⟩)).1 (by decide)
  refine ⟨d2, h1, ?_, ?_, h4⟩
  · rw [h2]; decide
  · rw [h3]; decide

/-- C23 (the claim fails). The reply to the connect packet, `connectReply`, is connect-flagged
and so addressed to the session. After `connect()` and that reply no liveness timer is armed.
Later, when the handshake is over, the session has its liveness timer armed; handling
`connectReply` then returns with no liveness timer armed at all: the timer has been cleared and
not armed again. -/
theorem C23_counterexample :
    isConnect (parseHeader connectReply).flags = true ∧
    (∀ t ∈ (run [.message 0 connectReply] (connect 77 configuredDevice).device).timers,
      t.kind ≠ .communication) ∧
    (∃ t ∈ handshakenDevice.timers,
      t.kind = .communication ∧ handshakenDevice.communicationTimeout = some t.id) ∧
    (messageHandler 0 connectReply handshakenDevice).isDone = true ∧
    ∀ t ∈ (messageHandler 0 connectReply handshakenDevice).device.timers,
      t.kind ≠ .communication := by
  decide

/-- C23 (amended). Liveness reset: let the constructor return the packet for a datagram of
bytes, on a device whose pending references are objects of the heap. When the packet has the
session id held after the constructor and no connect flag, handling it returns with the
liveness timer armed afresh: the device holds a new handle, a liveness timer with that handle
is armed, and any other liveness timer still armed was armed before under a handle the device
did not hold. When the packet is connect-flagged, handling it returns with the liveness timer
cleared and none armed: the device keeps the handle it held, and no timer with that handle is
armed. When the packet is not addressed to the session, handling it returns with the handle as
it was, every timer still armed except the heartbeat, and no liveness timer armed that was not
armed before. -/
theorem C23_liveness_amended (fuel : Nat) (msg : List Nat) (d d1 : Device)
    (packet : AtemPacket) (hnew : AtemPacket.new fuel msg d = .done packet d1)
    (hbytes : ∀ b ∈ msg, b < 256) (hrefs : d.refsValid = true) (huid : d.uid.getD 0 ≤ 0xFFFF)
    (hfresh : ∀ a ∈ d.incomingPackets, a.id < d.nextId) :
    ((d1.uid == packet.header.uid) = true → isConnect packet.header.flags = false →
      ∃ d2, messageHandler fuel msg d = .done () d2 ∧
        d2.communicationTimeout = some d1.nextId ∧ d.nextId < d1.nextId ∧
        (⟨d1.nextId, .communication⟩ : Timer) ∈ d2.timers ∧
        ∀ x ∈ d2.timers, x.kind = .communication →
          x = ⟨d1.nextId, .communication⟩ ∨
            (x ∈ d.timers ∧ d.communicationTimeout ≠ some x.id)) ∧
    (isConnect packet.header.flags = true →
      ∃ d2, messageHandler fuel msg d = .done () d2 ∧
        d2.communicationTimeout = d.communicationTimeout ∧
        ∀ x ∈ d2.timers, x ∈ d.timers ∧ d.communicationTimeout ≠ some x.id) ∧
    ((d1.uid == packet.header.uid || isConnect packet.header.flags) = false →
      messageHandler fuel msg d = .done () d1 ∧
      d1.communicationTimeout = d.communicationTimeout ∧
      (∀ x ∈ d.timers, d.syncInterval ≠ some x.id → x ∈ d1.timers) ∧
      ∀ x ∈ d1.timers, x.kind = .communication → x ∈ d.timers) := by
  obtain ⟨-, n2, -, n4, n5, n6, -, -, n9, -, -, n12, n13, n14, n15⟩ :=
    AtemPacket.new_done fuel msg d d1 packet hnew
  obtain ⟨hls, hu1⟩ := AtemPacket.new_bounds fuel msg d d1 packet hnew hbytes huid
  have hv : ∀ x ∈ d1.pendingPackets, x < d1.heap.length := by
    rw [n4, n5]
    simpa [Device.refsValid] using hrefs
  have hf1 : ∀ a ∈ d1.incomingPackets, a.id ≠ packet.id := by
    rw [n6, n2]
    intro a ha
    exact Nat.ne_of_lt (hfresh a ha)
  have hcomm : ∀ x ∈ d1.timers, x.kind = .communication → x ∈ d.timers := by
    intro x hx hk
    rcases n12 x hx with h | h
    · exact h
    · rw [hk] at h
      cases h
  refine ⟨?_, ?_, ?_⟩
  · intro ha hc
    obtain ⟨r, hr, -, -, -, r4, -⟩ := handlePacket_spec packet d1 (by rw [ha]; rfl) hv hu1 hls hf1
    obtain ⟨b1, b2, b3⟩ := r4 hc
    refine ⟨r, ?_, b1, n14, b2, ?_⟩
    · unfold messageHandler
      rw [hnew]
      exact hr
    · intro x hx hk
      rcases b3 x hx with e | ⟨e1, e2⟩
      · exact Or.inl e
      · right
        rw [n9] at e2
        exact ⟨hcomm x e1 hk, e2⟩
  · intro hc
    obtain ⟨r, hr, -, -, -, -, r5⟩ := handlePacket_spec packet d1 (by rw [hc]; simp) hv hu1 hls
      hf1
    obtain ⟨b1, b2⟩ := r5 hc
    rw [n9] at b1 b2
    rw [n15 hc] at b2
    refine ⟨r, ?_, b1, b2⟩
    unfold messageHandler
    rw [hnew]
    exact hr
  · intro hna
    refine ⟨?_, n9, n13, hcomm⟩
    unfold messageHandler
    rw [hnew]
    simp only [Outcome.bind]
    unfold handlePacket
    rw [hna]
    rfl

/-- C23 (amended), at the header-only sync packet that takes the session of `example.js` from
Establishing to Open: the liveness timer is armed under a new handle. -/
theorem C23_liveness_amended_witness :
    ∃ d2 t, messageHandler 0 syncReply establishingSession = .done () d2 ∧
      d2.communicationTimeout = some t ∧ establishingSession.nextId < t ∧
      (⟨t, .communication⟩ : Timer) ∈ d2.timers := by
  have h := C23_liveness_amended 0 syncReply establishingSession _ _ rfl (by decide)
    (by decide) (by decide) (by decide)
  obtain ⟨d2, h1, h2, h3, h4, -⟩ := h.1 (by decide) (by decide)
  exact ⟨d2, _, h1, h2, h3, h4⟩

/-- C24 (the claim fails). The constructor does not complete without an out-of-range read for
every datagram of at least 12 bytes. On `zeroRecord`, of 20 bytes, it neither returns nor fails,
whatever the iteration budget of its decoding loop. On `programDatagram`, of 28 bytes, it
delivers the record `PrgI` with its empty payload to the listener of the device, whose read of
byte 0 is out of range: the constructor throws, whatever the budget of at least one
iteration. -/
theorem C24_counterexample :
    12 ≤ zeroRecord.length ∧
    (∀ fuel, ∃ d1, AtemPacket.new fuel zeroRecord openDevice = .noFuel d1) ∧
    12 ≤ programDatagram.length ∧
    listen [0x50, 0x72, 0x67, 0x49] [] = ([], false) ∧
    ∀ fuel, ∃ d1, AtemPacket.new (fuel + 1) programDatagram openDevice = .threw d1 :=
  ⟨by decide, fun fuel => (zeroRecord_new fuel).imp fun _ h => h.1, by decide, by decide,
    fun _ => ⟨_, rfl⟩⟩

/-- C24 (amended). Header decoding has no length guard. For every datagram of at least 12 bytes
the reads of the 16-bit fields at the offsets 2, 4 and 10 are in range, and the packet the
constructor returns has the flags of byte 0 and those three fields. The constructor performs
no out-of-range read of its own: when it throws, a listener of the device has thrown on one of
the records that the decoding loop visits. It returns when the
decoding loop is not entered (connect flag, length field that differs from the size, or session
id that differs from the one held after the handshake step) and, with a budget of one iteration
per byte, when every record that the loop visits declares a length other than 0 and has a
listener that returns. For every datagram shorter than 12 bytes the constructor, and
`messageHandler` with it, fails with the out-of-range read and leaves the device exactly as it
was. -/
theorem C24_header_decoding_amended (fuel : Nat) (msg : List Nat) (d : Device) :
    (12 ≤ msg.length →
      (∃ uid fs ls, parseHeader msg = ⟨msg.headD 0 >>> 3, some uid, some ls, some fs⟩) ∧
      (∀ pkt d1, AtemPacket.new fuel msg d = .done pkt d1 → pkt.header = parseHeader msg) ∧
      (∀ x, AtemPacket.new fuel msg d = .threw x →
        ∃ r ∈ visitedRecords fuel (slice msg 12 msg.length) 0,
          (listen r.2.name r.2.data).2 = false) ∧
      ((∀ r ∈ visitedRecords fuel (slice msg 12 msg.length) 0,
          r.1 ≠ 0 ∧ (listen r.2.name r.2.data).2 = true) → msg.length ≤ fuel + 13 →
        ∃ pkt d1, AtemPacket.new fuel msg d = .done pkt d1) ∧
      (isConnect (parseHeader msg).flags = true ∨
          (readUInt16BE msg 0).map (· &&& 0x7FF) ≠ some msg.length ∨
          (parseHeader msg).uid
            ≠ (handshake msg (parseHeader msg) (nextObject d)).device.uid →
        ∃ pkt d1, AtemPacket.new fuel msg d = .done pkt d1)) ∧
    (msg.length < 12 →
      AtemPacket.new fuel msg d = .threw d ∧ messageHandler fuel msg d = .threw d) := by
  constructor
  · intro h12
    obtain ⟨uid, h2⟩ := readUInt16BE_isSome msg 2 (by omega)
    obtain ⟨fs, h4⟩ := readUInt16BE_isSome msg 4 (by omega)
    obtain ⟨ls, h10⟩ := readUInt16BE_isSome msg 10 (by omega)
    rw [AtemPacket.new_long fuel msg d h12]
    refine ⟨⟨uid, fs, ls, by simp [parseHeader, h2, h4, h10]⟩,
      fun pkt d1 hd => (decodeBody_packet _ _ _ _ _ _ _ hd).2,
      fun x hx => decodeBody_threw _ _ _ _ _ x (by omega) hx,
      fun hv hfuel => decodeBody_returns _ _ _ _ _ (by omega) hv hfuel, ?_⟩
    intro hskip
    obtain ⟨word, hw⟩ := readUInt16BE_isSome msg 0 (by omega)
    cases hc : isConnect (parseHeader msg).flags with
    | true =>
      unfold decodeBody
      rw [if_pos hc]
      exact ⟨_, _, rfl⟩
    | false =>
      rw [decodeBody_mismatch _ _ _ _ _ word hc hw]
      · exact ⟨_, _, rfl⟩
      · rintro ⟨e1, e2⟩
        rcases hskip with h | h | h
        · rw [hc] at h; cases h
        · apply h
          rw [hw, e1]
          rfl
        · exact h e2
  · intro hshort
    have hn := AtemPacket.new_short fuel msg d hshort
    refine ⟨hn, ?_⟩
    unfold messageHandler
    rw [hn]
    rfl

/-- C24 (amended), at `shortRecords` received by the open session 5 with a budget of 16
iterations, and at a datagram of two bytes. -/
theorem C24_header_decoding_amended_witness :
    (∃ pkt d1, AtemPacket.new 16 shortRecords openDevice = .done pkt d1) ∧
    AtemPacket.new 0 [0x08, 0x0C] openDevice = .threw openDevice ∧
    messageHandler 0 [0x08, 0x0C] openDevice = .threw openDevice :=
  ⟨((C24_header_decoding_amended 16 shortRecords openDevice).1 (by decide)).2.2.2.1 (by decide)
      (by decide),
    ((C24_header_decoding_amended 0 [0x08, 0x0C] openDevice).2 (by decide)).1,
    ((C24_header_decoding_amended 0 [0x08, 0x0C] openDevice).2 (by decide)).2⟩

/-- C25. Length field overflow: `header.serialize` of a packet with five-bit flags and total
length `L` up to 65535 returns a header whose first two bytes, read as a 16-bit word, are
`L ||| flags <<< 11`. The length that the receiver decodes, the low 11 bits of that word, is
`L` exactly when `L` is at most 2047; the flags that the receiver decodes from byte 0 are
`flags ||| L >>> 11`, which are the flags of the packet only when every bit of `L >>> 11` is a
flag the packet has. Nothing bounds the size of a flushed batch: a sync packet first transmitted
while Open with a counter above 0 takes the whole command queue, at least 8 bytes per queued
command, and when the call returns the datagram it sent has the word and the flags above for
the total length of the packet. -/
theorem C25_length_overflow (h : Header) (cmds : List BodyItem) (rest : List Nat)
    (self : Nat) (d : Device) (p : UserPacket)
    (hflags : h.flags < 32) (hL : packetLength cmds ≤ 0xFFFF) (hu : h.uid.getD 0 ≤ 0xFFFF)
    (hf : isAck h.flags = true → h.fs.getD 0 ≤ 0xFFFF)
    (hl : (isSync h.flags || isConnect h.flags) = true → h.ls.getD 0 ≤ 0xFFFF) :
    (∃ b, headerSerialize h cmds = some b ∧
      readUInt16BE (b ++ rest) 0 = some (packetLength cmds ||| h.flags <<< 11) ∧
      (parseHeader (b ++ rest)).flags = h.flags ||| packetLength cmds >>> 11) ∧
    ((packetLength cmds ||| h.flags <<< 11) &&& 0x7FF = packetLength cmds ↔
      packetLength cmds ≤ 2047) ∧
    (h.flags ||| packetLength cmds >>> 11 = h.flags ↔
      packetLength cmds >>> 11 &&& h.flags = packetLength cmds >>> 11) ∧
    (d.heap.get? self = some p → self ∉ d.pendingPackets → p.serializedCache = none →
      isSync p.header.flags = true → p.header.flags < 32 → d.state = .opened → 0 < d.ls →
      ∃ p1, (transmit self d).device.heap.get? self = some p1 ∧
        p1.commands = p.commands ++ d.commandQueue.map .cmd ∧
        12 + 8 * d.commandQueue.length ≤ packetLength p1.commands ∧
        (piggyback p d).1.header.flags < 32 ∧
        ∀ d1, transmit self d = .done () d1 →
          ∃ dg, d1.sent = d.sent ++ [dg] ∧
            readUInt16BE dg 0
              = some (packetLength p1.commands ||| (piggyback p d).1.header.flags <<< 11) ∧
            (parseHeader dg).flags
              = (piggyback p d).1.header.flags ||| packetLength p1.commands >>> 11) := by
  refine ⟨?_, ?_, lor_eq_left_iff _ _, ?_⟩
  · have hb := headerSerialize_general h cmds hL hu hf hl
    exact ⟨_, hb, headerSerialize_word h cmds _ rest hb hflags⟩
  · rw [header_length]
    constructor
    · intro e
      have := Nat.mod_lt (packetLength cmds) (show 0 < 2048 by decide)
      omega
    · intro e
      exact Nat.mod_eq_of_lt (by omega)
  · intro hp hnew hcache hsync hp32 hopen hls
    have hfirst : (!d.pendingPackets.contains self && p.serializedCache.isNone) = true := by
      rw [hcache]
      simpa using hnew
    obtain ⟨-, p1, k2, k3⟩ := transmit_first_queue self d p hp hfirst
    have hcmds : p1.commands = p.commands ++ d.commandQueue.map .cmd := by
      rw [k3]
      split
      · rfl
      · rename_i hc
        have hq : d.commandQueue = [] := by
          cases hq : d.commandQueue with
          | nil => rfl
          | cons c cs =>
            exfalso
            apply hc
            simp [hopen, hsync, hls, hq]
        rw [hq]
        simp
    have hpf := piggyback_flags_lt p d hp32
    refine ⟨p1, k2, hcmds, ?_, hpf, ?_⟩
    · rw [hcmds]
      unfold packetLength
      rw [bodyLength_append]
      have := bodyLength_queue d.commandQueue
      omega
    · intro d1 hd
      have hd0 := hd
      rw [transmit_first_eq self d p hp hfirst] at hd
      obtain ⟨hb, body, p2, -, b2, b3, b4, -, b6, -⟩ := transmitFirst_done self _ _ d1 hd
      have hheap : (transmit self d).device.heap = d1.heap := by rw [hd0]; rfl
      have hlt : self < d.heap.length := by
        rw [List.get?_eq_some] at hp
        exact hp.1
      have hp2 : p1 = p2 := by
        rw [hheap, b4, (piggyback_fields p d).1, List.get?_eq_getElem?,
          List.getElem?_set_self hlt] at k2
        exact (Option.some.inj k2).symm
      have hfl : (attachQueue (stamp (piggyback p d).1 (piggyback p d).2) (piggyback p d).2).1.header.flags
          = (piggyback p d).1.header.flags := by
        rw [(attachQueue_facts _ _).2.2, stamp_flags]
      rw [← b6, ← hp2] at b2
      obtain ⟨w1, w2⟩ := headerSerialize_word _ _ hb body b2 (by rw [hfl]; exact hpf)
      rw [hfl] at w1 w2
      refine ⟨hb ++ body, ?_, w1, w2⟩
      rw [b3, (piggyback_fields p d).2.2.1]

/-- C25, for a sync packet that carries `bigBatch`, 4100 bytes in all, whose decoded flags are
3, sync and connect, and for the flush of `queuedDevice`. -/
theorem C25_length_overflow_witness :
    packetLength bigBatch = 4100 ∧ syncHeader.flags ||| packetLength bigBatch >>> 11 = 3 ∧
    (∃ b, headerSerialize syncHeader bigBatch = some b ∧
      readUInt16BE (b ++ []) 0 = some (packetLength bigBatch ||| syncHeader.flags <<< 11) ∧
      (parseHeader (b ++ [])).flags = syncHeader.flags ||| packetLength bigBatch >>> 11) ∧
    ∃ p1, (transmit 0 queuedDevice).device.heap.get? 0 = some p1 ∧
      p1.commands = (UserPacket.new .undefined).commands ++ queuedDevice.commandQueue.map .cmd ∧
      12 + 8 * queuedDevice.commandQueue.length ≤ packetLength p1.commands :=
  have hL : packetLength bigBatch = 4100 := by
    simp only [bigBatch, packetLength, bodyLength, List.foldl, BodyItem.length, Command.length,
      List.length_replicate]
  have h := C25_length_overflow syncHeader bigBatch [] 0 queuedDevice
    (UserPacket.new .undefined) (by decide) (by rw [hL]; decide) (by decide) (by decide)
    (by decide)
  ⟨hL, by rw [hL]; decide, h.1,
    (h.2.2.2 (by decide) (by decide) (by decide) (by decide) (by decide) (by decide)
      (by decide)).imp fun _ k => ⟨k.1, k.2.1, k.2.2.1⟩⟩

end Atem
